import Mathlib

/-!
# Range analysis, generators, chunk meshes, surface tools and textures of the voxel plugin

A shallow embedding of `VoxelRange.h` (`FVoxelRangeFailStatus`, `FVoxelBoolRange`,
`TVoxelRange<T>`), of `VoxelTransformableWorldGeneratorHelper.h`
(`TVoxelTransformableWorldGeneratorHelper`), of `VoxelChunkMesh.cpp` (`FVoxelChunkMeshBuffers`,
`FVoxelChunkMesh::BuildDistanceField`), of `VoxelSurfaceToolsImpl.h`
(`FVoxelSurfaceToolsImpl`), of `VoxelTexture.cpp` (`FVoxelTextureUtilities`) and of
`VoxelThreadingUtilities.h` (`ParallelFor_PerThreadData`), followed by theorems about them.

Conventions of the embedding.

* `TVoxelRange<T>` is a C++ template; it is embedded as a structure polymorphic in `T`, every
  member function taking exactly the operations on `T` its body uses.  Instantiated at a linearly
  ordered field it is the range arithmetic over exact numbers.
* `v_flt` (C++ `float`) is embedded as the type `v_flt`: the rationals (exact, no rounding, no
  overflow) extended by the two infinities and a not-a-number value, with the IEEE-754 rules for
  them. Signed zeros are identified.
* The thread-local singleton `FVoxelRangeFailStatus::Get()` is threaded explicitly: a function
  that touches it takes the status and returns the new status with its result.
* `ensure`, `check`, `checkVoxelSlow` and `ensureVoxelSlowNoSideEffects` only report; they do not
  change the value computed, and are left out.
* The operators of `TVoxelRange<T>` that are templates over `TVoxelRange<TOther>` are taken at
  `TOther = T`.
* The helper `TVoxelTransformableWorldGeneratorHelper` is taken at `bCustomTransform = false`, the
  identity transform.
* A `TArray` is a list. A loop that writes to the array it reads is embedded as a fold over the
  indices with the array as state.
* The distances of `BuildDistanceField` are exact rationals: the loop that divides them and the
  8-bit quantisation are embedded without rounding.
* The surface tools are embedded over any scalar type `K` in place of `float`, each function
  taking the operations on `K` its body uses.
* Functions of the engine that are not rational (`Sqrt`, `Acos`, `DegreesToRadians`) and
  functions whose source is not at hand and whose value no theorem depends on are parameters.
* The sizes and coordinates of `BuildDistanceField` are `int32` with two's complement wrapping
  (namespace `int32`), and `1 << LOD` has a value only for `0 <= LOD < 32`. Elsewhere `int32` and
  `uint32` are unbounded integers: the counts and indices of those theorems are lengths of and
  positions in arrays, which are far from the bounds.
* The static texture caches are passed explicitly, like the fail status. A texture pointer is
  an identity of a type `Tex` with decidable equality in the cache keys, and what the code
  reads of the texture object where its settings are checked.
* `ParallelFor` of the engine runs its body once for each index; what is embedded is the indices
  with which each per-thread datum is visited, not the interleaving of the threads.
-/

namespace Voxel

/-! ## `FMath` helpers (engine library) -/

namespace FMath

/-- Embeds `FMath::Min(A, B)`, which is `(A <= B) ? A : B`. -/
def Min {T : Type} [LE T] [DecidableRel (α := T) (· ≤ ·)] (A B : T) : T :=
  if A ≤ B then A else B

/-- Embeds `FMath::Max(A, B)`, which is `(A >= B) ? A : B`. -/
def Max {T : Type} [LE T] [DecidableRel (α := T) (· ≤ ·)] (A B : T) : T :=
  if B ≤ A then A else B

/-- Embeds `FMath::Sign(A)`, which is `(A > 0) ? 1 : ((A < 0) ? -1 : 0)`. -/
def Sign {T : Type} [LT T] [DecidableRel (α := T) (· < ·)] [Zero T] [One T] [Neg T] (A : T) :
    T :=
  if 0 < A then 1 else if A < 0 then -1 else 0

end FMath

/-! ## `FVoxelRangeFailStatus` -/

/-- The fields of `FVoxelRangeFailStatus`; `Message` is `none` for `nullptr`. -/
structure FVoxelRangeFailStatus where
  bHasFailed : Bool := false
  bHasWarning : Bool := false
  Message : Option String := none
deriving DecidableEq

namespace FVoxelRangeFailStatus

def HasFailed (s : FVoxelRangeFailStatus) : Bool := s.bHasFailed

def HasWarning (s : FVoxelRangeFailStatus) : Bool := s.bHasWarning

def GetMessage (s : FVoxelRangeFailStatus) : Option String := s.Message

/-- Embeds `Fail(InError)`: records the error unless a failure is already recorded. -/
def Fail (s : FVoxelRangeFailStatus) (InError : String) : FVoxelRangeFailStatus :=
  if !s.HasFailed then { s with bHasFailed := true, Message := some InError } else s

/-- Embeds `Warning(InError)`: records the warning unless a failure or a warning is already
recorded. -/
def Warning (s : FVoxelRangeFailStatus) (InError : String) : FVoxelRangeFailStatus :=
  if !s.HasFailed && !s.HasWarning then { s with bHasWarning := true, Message := some InError }
  else s

/-- Embeds `Reset()`. -/
def Reset (_s : FVoxelRangeFailStatus) : FVoxelRangeFailStatus :=
  { bHasFailed := false, bHasWarning := false, Message := none }

end FVoxelRangeFailStatus

/-! ## `FVoxelBoolRange` -/

/-- The fields of `FVoxelBoolRange`; both default to `true`. -/
structure FVoxelBoolRange where
  bCanBeTrue : Bool := true
  bCanBeFalse : Bool := true
deriving DecidableEq

namespace FVoxelBoolRange

/-- Embeds `FVoxelBoolRange::True()`. -/
def True : FVoxelBoolRange := { bCanBeTrue := true, bCanBeFalse := false }

/-- Embeds `FVoxelBoolRange::False()`. -/
def False : FVoxelBoolRange := { bCanBeTrue := false, bCanBeFalse := true }

/-- Embeds `FVoxelBoolRange::TrueOrFalse()`. -/
def TrueOrFalse : FVoxelBoolRange := { bCanBeTrue := true, bCanBeFalse := true }

/-- The constructor `FVoxelBoolRange(bool bValue)`. -/
def ofBool (bValue : Bool) : FVoxelBoolRange :=
  if bValue then { bCanBeTrue := true, bCanBeFalse := false }
  else { bCanBeTrue := false, bCanBeFalse := true }

/-- The condition checked by the two-argument constructor: `bCanBeTrue || bCanBeFalse`. -/
def IsValid (A : FVoxelBoolRange) : Prop := (A.bCanBeTrue || A.bCanBeFalse) = true

instance (A : FVoxelBoolRange) : Decidable A.IsValid :=
  inferInstanceAs (Decidable ((A.bCanBeTrue || A.bCanBeFalse) = true))

/-- Embeds `operator!`. -/
def not (A : FVoxelBoolRange) : FVoxelBoolRange :=
  { bCanBeTrue := A.bCanBeFalse, bCanBeFalse := A.bCanBeTrue }

/-- Embeds `operator&&`. -/
def and (A Other : FVoxelBoolRange) : FVoxelBoolRange :=
  if !A.bCanBeFalse && !Other.bCanBeFalse then True
  else if !A.bCanBeTrue || !Other.bCanBeTrue then False
  else TrueOrFalse

/-- Embeds `operator||`. -/
def or (A Other : FVoxelBoolRange) : FVoxelBoolRange :=
  if !A.bCanBeFalse || !Other.bCanBeFalse then True
  else if !A.bCanBeTrue && !Other.bCanBeTrue then False
  else TrueOrFalse

end FVoxelBoolRange

/-! ## `TVoxelRange<T>` -/

/-- The template specialisations a scalar type of `TVoxelRange` comes with:
`NegativeInfinity<T>()`, `PositiveInfinity<T>()` and `TIsIntegral<T>::Value`. -/
class VoxelScalar (T : Type) where
  NegativeInfinity : T
  PositiveInfinity : T
  bIsInteger : Bool

/-- The fields of `TVoxelRange<T>`. -/
structure TVoxelRange (T : Type) where
  Min : T
  Max : T
deriving DecidableEq

namespace TVoxelRange

/-- The constructor `TVoxelRange(T Value)`. -/
def ofValue {T : Type} (Value : T) : TVoxelRange T := { Min := Value, Max := Value }

/-- The invariant the two-argument constructor reports on: `Min <= Max`. -/
def IsValid {T : Type} [LE T] (A : TVoxelRange T) : Prop := A.Min ≤ A.Max

instance {T : Type} [LE T] [DecidableRel (α := T) (· ≤ ·)] (A : TVoxelRange T) :
    Decidable A.IsValid :=
  inferInstanceAs (Decidable (A.Min ≤ A.Max))

end TVoxelRange

namespace FVoxelUtilities

/-- Modelled from the spec: `FVoxelUtilities::VariadicMin` of `VoxelBaseUtilities.h`, which is not
among the sources. The spec has `FromList` take "the extremal min/max" of its arguments; the
minimum of `Value, Values...` is `FMath::Min(Value, VariadicMin(Values...))`. -/
def VariadicMin {T : Type} [LE T] [DecidableRel (α := T) (· ≤ ·)] : T → List T → T
  | A, [] => A
  | A, B :: Args => FMath.Min A (VariadicMin B Args)

/-- Modelled from the spec: `FVoxelUtilities::VariadicMax` of `VoxelBaseUtilities.h`, which is not
among the sources; the maximum of `Value, Values...` is
`FMath::Max(Value, VariadicMax(Values...))`. -/
def VariadicMax {T : Type} [LE T] [DecidableRel (α := T) (· ≤ ·)] : T → List T → T
  | A, [] => A
  | A, B :: Args => FMath.Max A (VariadicMax B Args)

end FVoxelUtilities

namespace TVoxelRange

section Order

variable {T : Type} [LE T] [DecidableRel (α := T) (· ≤ ·)]

/-- Embeds `FromList(Values...)`, the argument pack given as its first value and the rest. -/
def FromList (Value : T) (Values : List T) : TVoxelRange T :=
  { Min := FVoxelUtilities.VariadicMin Value Values,
    Max := FVoxelUtilities.VariadicMax Value Values }

/-- Embeds `Union(A, B)`. -/
def Union (A B : TVoxelRange T) : TVoxelRange T :=
  { Min := FMath.Min A.Min B.Min, Max := FMath.Max A.Max B.Max }

/-- Embeds `Intersection(A, B)`; `ensure` reports and yields its condition. -/
def Intersection (A B : TVoxelRange T) : TVoxelRange T :=
  let NewMin := FMath.Max A.Min B.Min
  let NewMax := FMath.Min A.Max B.Max
  if NewMin ≤ NewMax then { Min := NewMin, Max := NewMax } else Union A B

/-- Embeds `Contains(const TOther& Other)`, a value. -/
def Contains (A : TVoxelRange T) (Other : T) : Bool :=
  decide (A.Min ≤ Other) && decide (Other ≤ A.Max)

/-- Embeds `Contains(const TVoxelRange<TOther>& Other)`, a range. -/
def ContainsRange (A Other : TVoxelRange T) : Bool :=
  decide (A.Min ≤ Other.Min) && decide (Other.Max ≤ A.Max)

/-- Embeds `Intersects(Other)`. -/
def Intersects (A Other : TVoxelRange T) : Bool :=
  A.Contains Other.Min || A.Contains Other.Max || Other.Contains A.Min || Other.Contains A.Max

end Order

/-- Embeds `Infinite()`. -/
def Infinite {T : Type} [VoxelScalar T] : TVoxelRange T :=
  { Min := VoxelScalar.NegativeInfinity, Max := VoxelScalar.PositiveInfinity }

/-- Embeds `PositiveInfinite()`. -/
def PositiveInfinite {T : Type} [VoxelScalar T] [Zero T] : TVoxelRange T :=
  { Min := 0, Max := VoxelScalar.PositiveInfinity }

/-- Embeds `NegativeInfinite()`. -/
def NegativeInfinite {T : Type} [VoxelScalar T] [Zero T] : TVoxelRange T :=
  { Min := VoxelScalar.NegativeInfinity, Max := 0 }

/-- Embeds `IsSingleValue()`. -/
def IsSingleValue {T : Type} [BEq T] (A : TVoxelRange T) : Bool := A.Min == A.Max

/-- Embeds `GetSingleValue()`. -/
def GetSingleValue {T : Type} (A : TVoxelRange T) : T := A.Min

/-- Embeds `IsSingleSign()`. -/
def IsSingleSign {T : Type} [BEq T] [LT T] [DecidableRel (α := T) (· < ·)] [Zero T]
    (A : TVoxelRange T) : Bool :=
  A.Min == 0 || A.Max == 0 || (decide (A.Min < 0) == decide (A.Max < 0))

/-- Embeds `GetSign()`. -/
def GetSign {T : Type} [BEq T] [LT T] [DecidableRel (α := T) (· < ·)] [Zero T] [One T] [Neg T]
    (A : TVoxelRange T) : T :=
  if A.Min == 0 then FMath.Sign A.Max else FMath.Sign A.Min

/-- Embeds `ExtendToInfinity()`. -/
def ExtendToInfinity {T : Type} [LT T] [DecidableRel (α := T) (· < ·)] [Zero T] [VoxelScalar T]
    (A : TVoxelRange T) : TVoxelRange T :=
  if A.Min < 0 then
    { Min := VoxelScalar.NegativeInfinity,
      Max := if 0 < A.Max then VoxelScalar.PositiveInfinity else 0 }
  else
    { Min := 0, Max := VoxelScalar.PositiveInfinity }

/-- Embeds `IsNegativeInfinity()`. -/
def IsNegativeInfinity {T : Type} [BEq T] [VoxelScalar T] (A : TVoxelRange T) : Bool :=
  A.Min == VoxelScalar.NegativeInfinity

/-- Embeds `IsPositiveInfinity()`. -/
def IsPositiveInfinity {T : Type} [BEq T] [VoxelScalar T] (A : TVoxelRange T) : Bool :=
  A.Max == VoxelScalar.PositiveInfinity

/-- Embeds `IsInfinity()`. -/
def IsInfinity {T : Type} [BEq T] [VoxelScalar T] (A : TVoxelRange T) : Bool :=
  A.IsNegativeInfinity || A.IsPositiveInfinity

section Compare

variable {T : Type} [LE T] [DecidableRel (α := T) (· ≤ ·)] [LT T] [DecidableRel (α := T) (· < ·)]
  [BEq T]

/-- Embeds `operator==` on two ranges. -/
def eq (A Other : TVoxelRange T) : FVoxelBoolRange :=
  if A.IsSingleValue && Other.IsSingleValue && A.Min == Other.Min then FVoxelBoolRange.True
  else if !A.Intersects Other then FVoxelBoolRange.False
  else FVoxelBoolRange.TrueOrFalse

/-- Embeds `operator!=` on two ranges. -/
def ne (A Other : TVoxelRange T) : FVoxelBoolRange := (A.eq Other).not

/-- Embeds `operator<` on two ranges. -/
def lt (A Other : TVoxelRange T) : FVoxelBoolRange :=
  if A.Max < Other.Min then FVoxelBoolRange.True
  else if Other.Max ≤ A.Min then FVoxelBoolRange.False
  else FVoxelBoolRange.TrueOrFalse

/-- Embeds `operator>` on two ranges; `Min > Other.Max` is `Other.Max < Min` and
`Other.Min >= Max` is `Max <= Other.Min`. -/
def gt (A Other : TVoxelRange T) : FVoxelBoolRange :=
  if Other.Max < A.Min then FVoxelBoolRange.True
  else if A.Max ≤ Other.Min then FVoxelBoolRange.False
  else FVoxelBoolRange.TrueOrFalse

/-- Embeds `operator<=` on two ranges. -/
def le (A Other : TVoxelRange T) : FVoxelBoolRange := (A.gt Other).not

/-- Embeds `operator>=` on two ranges. -/
def ge (A Other : TVoxelRange T) : FVoxelBoolRange := (A.lt Other).not

end Compare

section Arith

variable {T : Type}

/-- Embeds `operator+` on two ranges. -/
def add [Add T] (A Other : TVoxelRange T) : TVoxelRange T :=
  { Min := A.Min + Other.Min, Max := A.Max + Other.Max }

/-- Embeds `operator-` on two ranges. -/
def sub [Sub T] (A Other : TVoxelRange T) : TVoxelRange T :=
  { Min := A.Min - Other.Max, Max := A.Max - Other.Min }

/-- The unary `operator-`. -/
def neg [Neg T] (A : TVoxelRange T) : TVoxelRange T :=
  { Min := -A.Max, Max := -A.Min }

/-- Embeds `operator*` on two ranges. -/
def mul [Mul T] [LE T] [DecidableRel (α := T) (· ≤ ·)] (A Other : TVoxelRange T) :
    TVoxelRange T :=
  FromList (A.Min * Other.Min) [A.Min * Other.Max, A.Max * Other.Min, A.Max * Other.Max]

/-- The message of the warning raised by `operator/`. -/
def divWarning : String := "0 / 0 encountered, will result in a nan"

/-- Embeds `operator/` on two ranges, with the fail status it may write to. -/
def div [Div T] [LE T] [DecidableRel (α := T) (· ≤ ·)] [LT T] [DecidableRel (α := T) (· < ·)]
    [BEq T] [Zero T] [One T] [Neg T] [VoxelScalar T]
    (A Other : TVoxelRange T) (Status : FVoxelRangeFailStatus) :
    TVoxelRange T × FVoxelRangeFailStatus :=
  if Other.IsSingleValue && Other.GetSingleValue == 0 then
    if VoxelScalar.bIsInteger T then (ofValue 0, Status)
    else if A.IsSingleValue && A.GetSingleValue == 0 then (Infinite, Status.Warning divWarning)
    else if 0 < A.Min then (ofValue VoxelScalar.PositiveInfinity, Status)
    else if A.Max < 0 then (ofValue VoxelScalar.NegativeInfinity, Status)
    else (Infinite, Status)
  else if !Other.Contains 0 then
    if Other.IsInfinity then
      let Inf := A.ExtendToInfinity
      (FromList (Inf.Min / Other.GetSign) [Inf.Max / Other.GetSign], Status)
    else
      (FromList (A.Min / Other.Min) [A.Min / Other.Max, A.Max / Other.Min, A.Max / Other.Max],
        Status)
  else
    if Other.IsSingleSign then
      let Inf := A.ExtendToInfinity
      (FromList (Inf.Min / Other.GetSign) [Inf.Max / Other.GetSign], Status)
    else (Infinite, Status)

/-- Embeds `operator+(T Other)`. -/
def addScalar [Add T] (A : TVoxelRange T) (Other : T) : TVoxelRange T :=
  { Min := A.Min + Other, Max := A.Max + Other }

/-- Embeds `operator-(T Other)`. -/
def subScalar [Sub T] (A : TVoxelRange T) (Other : T) : TVoxelRange T :=
  { Min := A.Min - Other, Max := A.Max - Other }

/-- Embeds `operator*(T Other)`. -/
def mulScalar [Mul T] [LE T] [DecidableRel (α := T) (· ≤ ·)] (A : TVoxelRange T) (Other : T) :
    TVoxelRange T :=
  { Min := FMath.Min (A.Min * Other) (A.Max * Other),
    Max := FMath.Max (A.Min * Other) (A.Max * Other) }

/-- Embeds `operator/(T Other)`. -/
def divScalar [Div T] [LE T] [DecidableRel (α := T) (· ≤ ·)] (A : TVoxelRange T) (Other : T) :
    TVoxelRange T :=
  { Min := FMath.Min (A.Min / Other) (A.Max / Other),
    Max := FMath.Max (A.Min / Other) (A.Max / Other) }

end Arith

end TVoxelRange

/-! ## `v_flt` -/

/-- The values of `v_flt` (`float`): a rational number, one of the two infinities, or not-a-number.
Finite arithmetic is exact; the infinities and not-a-number follow IEEE-754; the two zeros are
one value, taken as positive where a sign of zero decides (`x / 0`). -/
inductive v_flt where
  | nan : v_flt
  | ninf : v_flt
  | fin (q : ℚ) : v_flt
  | pinf : v_flt
deriving DecidableEq

namespace v_flt

/-- The comparison `a <= b` of two floats; false when either is not-a-number. -/
def le : v_flt → v_flt → Bool
  | nan, _ => false
  | ninf, nan => false
  | ninf, ninf => true
  | ninf, fin _ => true
  | ninf, pinf => true
  | fin _, nan => false
  | fin _, ninf => false
  | fin a, fin b => decide (a ≤ b)
  | fin _, pinf => true
  | pinf, nan => false
  | pinf, ninf => false
  | pinf, fin _ => false
  | pinf, pinf => true

/-- The comparison `a < b` of two floats; false when either is not-a-number. -/
def lt : v_flt → v_flt → Bool
  | nan, _ => false
  | ninf, nan => false
  | ninf, ninf => false
  | ninf, fin _ => true
  | ninf, pinf => true
  | fin _, nan => false
  | fin _, ninf => false
  | fin a, fin b => decide (a < b)
  | fin _, pinf => true
  | pinf, _ => false

/-- The comparison `a == b` of two floats; false when either is not-a-number. -/
def beq : v_flt → v_flt → Bool
  | ninf, ninf => true
  | fin a, fin b => decide (a = b)
  | pinf, pinf => true
  | _, _ => false

/-- The negation `-a`. -/
def neg : v_flt → v_flt
  | nan => nan
  | ninf => pinf
  | fin a => fin (-a)
  | pinf => ninf

/-- The sum `a + b`; opposite infinities add to not-a-number. -/
def add : v_flt → v_flt → v_flt
  | nan, _ => nan
  | ninf, nan => nan
  | ninf, ninf => ninf
  | ninf, fin _ => ninf
  | ninf, pinf => nan
  | fin _, nan => nan
  | fin _, ninf => ninf
  | fin a, fin b => fin (a + b)
  | fin _, pinf => pinf
  | pinf, nan => nan
  | pinf, ninf => nan
  | pinf, fin _ => pinf
  | pinf, pinf => pinf

/-- The difference `a - b`, which is `a + (-b)`. -/
def sub (a b : v_flt) : v_flt := add a (neg b)

/-- An infinity times the finite `q`: not-a-number for zero, else the infinity with the sign of
the product; `pos` says whether the infinity is the positive one. -/
def infTimes (pos : Bool) (q : ℚ) : v_flt :=
  if q = 0 then nan else if (decide (0 < q)) = pos then pinf else ninf

/-- The product `a * b`; zero times an infinity is not-a-number. -/
def mul : v_flt → v_flt → v_flt
  | nan, _ => nan
  | ninf, nan => nan
  | ninf, ninf => pinf
  | ninf, fin b => infTimes false b
  | ninf, pinf => ninf
  | fin _, nan => nan
  | fin a, ninf => infTimes false a
  | fin a, fin b => fin (a * b)
  | fin a, pinf => infTimes true a
  | pinf, nan => nan
  | pinf, ninf => ninf
  | pinf, fin b => infTimes true b
  | pinf, pinf => pinf

/-- The quotient `a / b`; `0 / 0` and an infinity over an infinity are not-a-number, a finite
value over an infinity is zero, a non-zero value over zero is an infinity. -/
def div : v_flt → v_flt → v_flt
  | nan, _ => nan
  | ninf, nan => nan
  | ninf, ninf => nan
  | ninf, fin b => if b < 0 then pinf else ninf
  | ninf, pinf => nan
  | fin _, nan => nan
  | fin _, ninf => fin 0
  | fin a, fin b =>
      if b = 0 then (if a = 0 then nan else if 0 < a then pinf else ninf) else fin (a / b)
  | fin _, pinf => fin 0
  | pinf, nan => nan
  | pinf, ninf => nan
  | pinf, fin b => if b < 0 then ninf else pinf
  | pinf, pinf => nan

instance : LE v_flt := ⟨fun a b => le a b = true⟩

instance : LT v_flt := ⟨fun a b => lt a b = true⟩

instance (a b : v_flt) : Decidable (a ≤ b) := inferInstanceAs (Decidable (le a b = true))

instance (a b : v_flt) : Decidable (a < b) := inferInstanceAs (Decidable (lt a b = true))

instance : BEq v_flt := ⟨beq⟩

instance : Zero v_flt := ⟨fin 0⟩

instance : One v_flt := ⟨fin 1⟩

instance : Neg v_flt := ⟨neg⟩

instance : Add v_flt := ⟨add⟩

instance : Sub v_flt := ⟨sub⟩

instance : Mul v_flt := ⟨mul⟩

instance : Div v_flt := ⟨div⟩

/-- The specialisations `NegativeInfinity<float>()` and `PositiveInfinity<float>()`; `float` is
not an integral type. -/
instance : VoxelScalar v_flt where
  NegativeInfinity := ninf
  PositiveInfinity := pinf
  bIsInteger := false

/-- A float that is a number: any value but not-a-number. -/
def IsNumber : v_flt → Bool
  | nan => false
  | _ => true

/-- A finite float. -/
def IsFinite : v_flt → Bool
  | fin _ => true
  | _ => false

end v_flt

/-- The specialisations `NegativeInfinity<int32>()` and `PositiveInfinity<int32>()`, which are
`MIN_int32` and `MAX_int32`; `int32` is an integral type. The integers stand for `int32` where
no arithmetic is done on them. -/
instance : VoxelScalar ℤ where
  NegativeInfinity := -2147483648
  PositiveInfinity := 2147483647
  bIsInteger := true

/-! ## `TVoxelTransformableWorldGeneratorHelper` -/

namespace FVoxelUtilities

/-- Modelled from the spec: `FVoxelUtilities::MergeAsset` of `VoxelBaseUtilities.h`, which is not
among the sources. The data model of the spec has an asset merge "using subtractive (max) or
additive (min) composition"; the range query of the helper, which is among the sources, uses
`FVoxelRangeUtilities::Max` for a subtractive asset and `Min` for an additive one. -/
def MergeAsset {T : Type} [LE T] [DecidableRel (α := T) (· ≤ ·)]
    (A B : T) (bSubtractiveAsset : Bool) : T :=
  if bSubtractiveAsset then FMath.Max A B else FMath.Min A B

end FVoxelUtilities

namespace FVoxelRangeUtilities

/-- Modelled from the spec: `FVoxelRangeUtilities::Min` of `VoxelRangeUtilities.h`, which is not
among the sources: the range of the minimum of a value of `A` and a value of `B`, the minimum
taken bound by bound. -/
def Min {T : Type} [LE T] [DecidableRel (α := T) (· ≤ ·)] (A B : TVoxelRange T) :
    TVoxelRange T :=
  { Min := FMath.Min A.Min B.Min, Max := FMath.Min A.Max B.Max }

/-- Modelled from the spec: `FVoxelRangeUtilities::Max` of `VoxelRangeUtilities.h`, which is not
among the sources: the range of the maximum of a value of `A` and a value of `B`, the maximum
taken bound by bound. -/
def Max {T : Type} [LE T] [DecidableRel (α := T) (· ≤ ·)] (A B : TVoxelRange T) :
    TVoxelRange T :=
  { Min := FMath.Max A.Min B.Min, Max := FMath.Max A.Max B.Max }

end FVoxelRangeUtilities

/-- The part of `FVoxelValue` (`VoxelValue.h`, not among the sources) the helper uses, over a type
`V` of voxel values: the conversion `FVoxelValue(float)`, the two extremal values and `==`. -/
structure FVoxelValueOps (V : Type) where
  ofFloat : v_flt → V
  Empty : V
  Full : V
  eq : V → V → Bool

/-- The queries `TVoxelTransformableWorldGeneratorHelper` makes of an `FVoxelItemStack` (not among
the sources); `Box` is the type of `FVoxelIntBox`.
* `NextValue X Y Z LOD` is `GetNextStack(X, Y, Z).Get<v_flt>(X, Y, Z, LOD)`;
* `NextIsValid Bounds` is `GetNextStack(Bounds).IsValid()`;
* `NextValueRange Bounds LOD` is `GetNextStack(Bounds).GetValueRange(Bounds, LOD)`. -/
structure FVoxelItemStack (Box : Type) where
  IsEmpty : Bool
  NextValue : v_flt → v_flt → v_flt → Int → v_flt
  NextIsValid : Box → Bool
  NextValueRange : Box → Int → TVoxelRange v_flt

/-- The wrapped generator `T` of the helper: its `GetValueImpl` and `GetValueRangeImpl`. -/
structure FVoxelWorldGeneratorInstance (Box : Type) where
  GetValueImpl : v_flt → v_flt → v_flt → Int → FVoxelItemStack Box → v_flt
  GetValueRangeImpl : Box → Int → FVoxelItemStack Box → TVoxelRange v_flt

/-- The fields of `TVoxelTransformableWorldGeneratorHelper`. -/
structure TVoxelTransformableWorldGeneratorHelper (Box : Type) where
  WorldGenerator : FVoxelWorldGeneratorInstance Box
  bSubtractiveAsset : Bool

namespace TVoxelTransformableWorldGeneratorHelper

variable {Box V : Type}

/-- Embeds `GetValueImpl<false>`: with `bCustomTransform` false, `GetLocalPosition` is the
position itself and `LocalToWorld` is not used. -/
def GetValueImpl (This : TVoxelTransformableWorldGeneratorHelper Box) (Ops : FVoxelValueOps V)
    (X Y Z : v_flt) (LOD : Int) (Items : FVoxelItemStack Box) : v_flt :=
  let Value := This.WorldGenerator.GetValueImpl X Y Z LOD Items
  if Items.IsEmpty ||
      Ops.eq (Ops.ofFloat Value) (if This.bSubtractiveAsset then Ops.Empty else Ops.Full) then
    Value
  else
    let NextValue := Items.NextValue X Y Z LOD
    FVoxelUtilities.MergeAsset Value NextValue This.bSubtractiveAsset

/-- The lambda `GetNextRange` of `GetValueRangeImpl`; `bSubtractiveAsset ? -1 : 1` is converted
by the constructor `TVoxelRange(T Value)`. -/
def GetNextRange (This : TVoxelTransformableWorldGeneratorHelper Box) (WorldBounds : Box)
    (LOD : Int) (Items : FVoxelItemStack Box) : TVoxelRange v_flt :=
  if Items.IsEmpty then
    TVoxelRange.ofValue (if This.bSubtractiveAsset then -1 else 1)
  else if Items.NextIsValid WorldBounds then Items.NextValueRange WorldBounds LOD
  else TVoxelRange.Infinite

/-- Embeds `GetValueRangeImpl<false>`: with `bCustomTransform` false, `LocalBounds` is
`WorldBounds`. -/
def GetValueRangeImpl (This : TVoxelTransformableWorldGeneratorHelper Box) (WorldBounds : Box)
    (LOD : Int) (Items : FVoxelItemStack Box) : TVoxelRange v_flt :=
  let WorldGeneratorRange := This.WorldGenerator.GetValueRangeImpl WorldBounds LOD Items
  let NextRange := This.GetNextRange WorldBounds LOD Items
  if This.bSubtractiveAsset then FVoxelRangeUtilities.Max WorldGeneratorRange NextRange
  else FVoxelRangeUtilities.Min WorldGeneratorRange NextRange

end TVoxelTransformableWorldGeneratorHelper

/-! ## More `FMath` helpers (engine library) -/

namespace FMath

/-- Embeds `FMath::Clamp(X, Min, Max)`, which is `X < Min ? Min : X < Max ? X : Max`. -/
def Clamp {T : Type} [LT T] [DecidableRel (α := T) (· < ·)] (X Min Max : T) : T :=
  if X < Min then Min else if X < Max then X else Max

/-- Embeds `FMath::Lerp(A, B, Alpha)`, which is `A + Alpha * (B - A)`. -/
def Lerp {T : Type} [Add T] [Sub T] [Mul T] (A B Alpha : T) : T :=
  A + Alpha * (B - A)

end FMath

/-! ## `FVoxelBoolRange`: conversion to `bool` -/

namespace FVoxelBoolRange

/-- The message of the failure raised by `operator bool`. -/
def boolFailure : String := "condition can be true or false"

/-- Embeds `operator bool`, with the fail status it may write to. -/
def toBool (A : FVoxelBoolRange) (Status : FVoxelRangeFailStatus) :
    Bool × FVoxelRangeFailStatus :=
  if A.bCanBeTrue && !A.bCanBeFalse then (true, Status)
  else if !A.bCanBeTrue && A.bCanBeFalse then (false, Status)
  else (false, Status.Fail boolFailure)

/-- Embeds `If(Condition, bDefaultValue)`, with the fail status it reads and writes. -/
def If (Condition : FVoxelBoolRange) (bDefaultValue : Bool) (Status : FVoxelRangeFailStatus) :
    Bool × FVoxelRangeFailStatus :=
  if Status.HasFailed then (true, Status)
  else
    let bCondition := Condition.toBool Status
    if bCondition.2.HasFailed then (bDefaultValue, bCondition.2.Reset)
    else (bCondition.1, bCondition.2)

end FVoxelBoolRange

/-! ## `TVoxelTransformableWorldGeneratorHelper`: queries that may fail, and materials -/

/-- The material queries `GetMaterialImpl` makes, over a type `V` of voxel values and a type `M`
of materials (`FVoxelValue` and `FVoxelMaterial`, not among the sources).
* `GetMaterialImpl X Y Z LOD Items` is `WorldGenerator->GetMaterialImpl(X, Y, Z, LOD, Items)`;
* `NextVoxelValue X Y Z LOD` is `GetNextStack(X, Y, Z).Get<FVoxelValue>(X, Y, Z, LOD)`;
* `NextMaterial X Y Z LOD` is `GetNextStack(X, Y, Z).Get<FVoxelMaterial>(X, Y, Z, LOD)`. -/
structure FVoxelMaterialQueries (Box V M : Type) where
  GetMaterialImpl : v_flt → v_flt → v_flt → Int → FVoxelItemStack Box → M
  NextVoxelValue : v_flt → v_flt → v_flt → Int → V
  NextMaterial : v_flt → v_flt → v_flt → Int → M

namespace TVoxelTransformableWorldGeneratorHelper

variable {Box V M : Type}

/-- Embeds `GetValueImpl<false>` once more, the query of the next stack able to fail: `NextGet X
Y Z LOD` is the outcome of `Items.GetNextStack(X, Y, Z).Get<v_flt>(X, Y, Z, LOD)`, `none` when
the query raises. The helper fails when a query it makes fails. -/
def GetValueImplChecked (This : TVoxelTransformableWorldGeneratorHelper Box)
    (Ops : FVoxelValueOps V) (X Y Z : v_flt) (LOD : Int) (Items : FVoxelItemStack Box)
    (NextGet : v_flt → v_flt → v_flt → Int → Option v_flt) : Option v_flt :=
  let Value := This.WorldGenerator.GetValueImpl X Y Z LOD Items
  if Items.IsEmpty ||
      Ops.eq (Ops.ofFloat Value) (if This.bSubtractiveAsset then Ops.Empty else Ops.Full) then
    some Value
  else
    match NextGet X Y Z LOD with
    | none => none
    | some NextValue => some (FVoxelUtilities.MergeAsset Value NextValue This.bSubtractiveAsset)

/-- Embeds `GetMaterialImpl<false>`; `Value >= NextValue` is `NextValue <= Value` in the order of
`FVoxelValue`. -/
def GetMaterialImpl [LE V] [DecidableRel (α := V) (· ≤ ·)]
    (This : TVoxelTransformableWorldGeneratorHelper Box) (Ops : FVoxelValueOps V)
    (Queries : FVoxelMaterialQueries Box V M) (X Y Z : v_flt) (LOD : Int)
    (Items : FVoxelItemStack Box) : M :=
  let GetGeneratorMaterial := fun (_ : Unit) => Queries.GetMaterialImpl X Y Z LOD Items
  if Items.IsEmpty then GetGeneratorMaterial ()
  else
    let Value := Ops.ofFloat (This.WorldGenerator.GetValueImpl X Y Z LOD Items)
    if (This.bSubtractiveAsset && Ops.eq Value Ops.Empty) ||
        (!This.bSubtractiveAsset && Ops.eq Value Ops.Full) then
      GetGeneratorMaterial ()
    else
      let NextValue := Queries.NextVoxelValue X Y Z LOD
      if (if This.bSubtractiveAsset then NextValue ≤ Value else Value ≤ NextValue) then
        GetGeneratorMaterial ()
      else Queries.NextMaterial X Y Z LOD

end TVoxelTransformableWorldGeneratorHelper

/-! ## `FVoxelChunkMesh::BuildDistanceField`: normalisation and quantisation

The distances are `float`s; they are taken here as rationals, the arithmetic exact. -/

namespace FVoxelChunkMesh

/-- The loop of `BuildDistanceField` over `Distances`, from the point where `MinVolumeDistance`
and `MaxVolumeDistance` hold `MinMax`: each distance is divided by `Size` and the two bounds are
updated with `FMath::Min` and `FMath::Max`. Returns the distances after the loop and the two
bounds. -/
def NormalizeLoop (Size : Int) : List ℚ → ℚ × ℚ → List ℚ × ℚ × ℚ
  | [], MinMax => ([], MinMax)
  | Distance :: Rest, (MinVolumeDistance, MaxVolumeDistance) =>
    let Distance := Distance / (Size : ℚ)
    let Result := NormalizeLoop Size Rest
      (FMath.Min MinVolumeDistance Distance, FMath.Max MaxVolumeDistance Distance)
    (Distance :: Result.1, Result.2)

/-- The statements of `BuildDistanceField` from `float MinVolumeDistance = Distances[0]` to the
end of the loop over `Distances`: the distances after the loop, `MinVolumeDistance` and
`MaxVolumeDistance`; `none` for an empty array, where `Distances[0]` is out of range. -/
def NormalizeDistances (Distances : List ℚ) (Size : Int) : Option (List ℚ × ℚ × ℚ) :=
  match Distances with
  | [] => none
  | Distance0 :: _ => some (NormalizeLoop Size Distances (Distance0, Distance0))

/-- The byte written in the 8-bit path of `BuildDistanceField` for `Distance`:
`FMath::FloorToInt` is the floor, `.5f` is one half. -/
def QuantizeEightBit (Distance MinVolumeDistance MaxVolumeDistance : ℚ) : Int :=
  let InvDistanceRange := 1 / (MaxVolumeDistance - MinVolumeDistance)
  let RescaledDistance := (Distance - MinVolumeDistance) * InvDistanceRange
  let QuantizedDistance := Int.floor (RescaledDistance * 255 + 1 / 2)
  FMath.Clamp QuantizedDistance 0 255

end FVoxelChunkMesh

/-! ## `FVoxelChunkMeshBuffers` -/

/-- The engine type `FVector` over a scalar type `T`. -/
structure FVector (T : Type) where
  X : T
  Y : T
  Z : T
deriving DecidableEq

/-- The engine type `FBox` over a scalar type `T`; `IsValid` is a `uint8` flag. -/
structure FBox (T : Type) where
  Min : FVector T
  Max : FVector T
  IsValid : Bool
deriving DecidableEq

namespace FBox

variable {T : Type}

/-- Embeds `FBox(ForceInit)`: both corners zero, the box not valid. -/
def ForceInit [Zero T] : FBox T :=
  { Min := { X := 0, Y := 0, Z := 0 }, Max := { X := 0, Y := 0, Z := 0 }, IsValid := false }

/-- Embeds `FBox::operator+=(const FVector& Other)`: a valid box grows to hold the point, a box
that is not valid becomes the point. -/
def addPoint [LE T] [DecidableRel (α := T) (· ≤ ·)] (This : FBox T) (Other : FVector T) :
    FBox T :=
  if This.IsValid then
    { Min := { X := FMath.Min This.Min.X Other.X, Y := FMath.Min This.Min.Y Other.Y,
               Z := FMath.Min This.Min.Z Other.Z },
      Max := { X := FMath.Max This.Max.X Other.X, Y := FMath.Max This.Max.Y Other.Y,
               Z := FMath.Max This.Max.Z Other.Z },
      IsValid := true }
  else
    { Min := Other, Max := Other, IsValid := true }

/-- Embeds `FBox::IsInsideOrOn(const FVector& In)`: the point lies in the closed box. -/
def IsInsideOrOn [LE T] [DecidableRel (α := T) (· ≤ ·)] (This : FBox T) (In : FVector T) : Bool :=
  decide (This.Min.X ≤ In.X) && decide (In.X ≤ This.Max.X) &&
  decide (This.Min.Y ≤ In.Y) && decide (In.Y ≤ This.Max.Y) &&
  decide (This.Min.Z ≤ In.Z) && decide (In.Z ≤ This.Max.Z)

end FBox

/-- The fields of `FVoxelChunkMeshBuffers` (declared in `VoxelChunkMesh.h`, not among the
sources) that `VoxelChunkMesh.cpp` uses: the index buffer, the vertex buffers and the bounds.
Indices are `uint32`, given as natural numbers; colors are packed in a number. -/
structure FVoxelChunkMeshBuffers (T : Type) where
  Indices : List Nat
  Positions : List (FVector T)
  Normals : List (FVector T)
  Tangents : List (FVector T)
  Colors : List Nat
  TextureCoordinates : List (List (T × T))
  Bounds : FBox T

namespace Forsyth

/-- The faces `order` of the index list `indexList`, written one after the other: for each face
its three indices, in their order. -/
def WriteFaces (order : List Nat) (indexList : List Nat) : List Nat :=
  order.flatMap fun Face =>
    [indexList.getD (3 * Face) 0, indexList.getD (3 * Face + 1) 0,
      indexList.getD (3 * Face + 2) 0]

/-- Modelled from the spec: `Forsyth::OptimizeFaces` of the third-party optimizer
`ForsythTriOO`, which is not among the sources. The spec has it reorder the index buffer
"without changing the triangle set or winding": it writes each of the `indexCount / 3` faces
of `indexList` once, the three indices of a face in their order, and the faces sorted by the
rank that the cache heuristic gives them. The heuristic itself, which only decides the ranks,
is not modelled: `Rank` is a parameter, and every order of the faces is the order of some
`Rank`. -/
def OptimizeFaces (Rank : Nat → Nat) (indexList : List Nat) (indexCount _vertexCount : Nat)
    (_lruCacheSize : Nat) : List Nat :=
  WriteFaces ((List.range (indexCount / 3)).insertionSort fun a b => Rank a ≤ Rank b) indexList

end Forsyth

namespace FVoxelChunkMeshBuffers

variable {T : Type}

/-- Embeds `GetNumVertices()`, the number of positions. -/
def GetNumVertices (This : FVoxelChunkMeshBuffers T) : Nat := This.Positions.length

/-- Embeds `OptimizeIndices()`; `ENABLE_OPTIMIZE_INDICES` is the build switch, `Rank` the rank
that the heuristic of the optimizer gives each face. -/
def OptimizeIndices (ENABLE_OPTIMIZE_INDICES : Bool) (Rank : Nat → Nat)
    (This : FVoxelChunkMeshBuffers T) : FVoxelChunkMeshBuffers T :=
  if ENABLE_OPTIMIZE_INDICES then
    let CacheSize := 32
    let OptimizedIndices :=
      Forsyth.OptimizeFaces Rank This.Indices This.Indices.length This.GetNumVertices CacheSize
    { This with Indices := OptimizedIndices }
  else This

/-- Embeds `ComputeBounds()`. -/
def ComputeBounds [Zero T] [LE T] [DecidableRel (α := T) (· ≤ ·)]
    (This : FVoxelChunkMeshBuffers T) : FVoxelChunkMeshBuffers T :=
  { This with Bounds := This.Positions.foldl FBox.addPoint FBox.ForceInit }

/-- The triangles of an index buffer: its indices three by three, in order, the order of the
three indices of a triangle (the winding) kept. -/
def TrianglesOf : List Nat → List (Nat × Nat × Nat)
  | a :: b :: c :: Rest => (a, b, c) :: TrianglesOf Rest
  | _ => []

end FVoxelChunkMeshBuffers

/-! ## `FVoxelSurfaceToolsImpl`

The scalar type `K` stands for `float`; every operator is given over any `K` with the
operations it uses, so that it can be read over the float model `v_flt` (with `NaN`) and over
exact arithmetic alike. A batch `TArray<FVoxelSurfaceEditsVoxel>` is a list. -/

/-- The engine type `FIntVector`. -/
structure FIntVector where
  X : Int
  Y : Int
  Z : Int
deriving DecidableEq

/-- The fields of `FVoxelSurfaceEditsVoxel` (declared in `VoxelSurfaceTools.h`, not among the
sources) that the operators use. -/
structure FVoxelSurfaceEditsVoxel (K : Type) where
  Position : FIntVector
  Normal : FVector K
  Value : K
  Strength : K
deriving DecidableEq

/-- The field of `FVoxelSurfaceEditsVoxelsInfo` that the operators use. -/
structure FVoxelSurfaceEditsVoxelsInfo where
  bHasExactDistanceField : Bool
deriving DecidableEq

/-- The enumeration `EVoxelSDFMergeMode`. -/
inductive EVoxelSDFMergeMode where
  | Union
  | Intersection
  | Override
deriving DecidableEq

/-- The engine type `FPlane`: the plane `X * x + Y * y + Z * z = W`. -/
structure FPlane (K : Type) where
  X : K
  Y : K
  Z : K
  W : K

namespace FPlane

/-- Embeds `FPlane::PlaneDot(P)`, which is `X * P.X + Y * P.Y + Z * P.Z - W`. -/
def PlaneDot {K : Type} [Add K] [Sub K] [Mul K] (This : FPlane K) (P : FVector K) : K :=
  This.X * P.X + This.Y * P.Y + This.Z * P.Z - This.W

end FPlane

namespace FVector

/-- Embeds the conversion `FVector(FIntVector)` (and `FVoxelVector(FIntVector)`), which casts
each coordinate. -/
def ofIntVector {K : Type} [IntCast K] (V : FIntVector) : FVector K :=
  { X := (V.X : K), Y := (V.Y : K), Z := (V.Z : K) }

end FVector

namespace FVector2D

/-- Embeds `FVector2D::Distance(V1, V2)` on pairs `(X, Y)`; the square root `Sqrt` of the engine
is a parameter. -/
def Distance {K : Type} [Add K] [Sub K] [Mul K] (Sqrt : K → K) (V1 V2 : K × K) : K :=
  Sqrt ((V2.1 - V1.1) * (V2.1 - V1.1) + (V2.2 - V1.2) * (V2.2 - V1.2))

end FVector2D

namespace FVoxelSurfaceToolsImpl

variable {K : Type}

/-- Embeds `ApplyConstantStrengthImpl`. -/
def ApplyConstantStrengthImpl [Mul K] (Voxels : List (FVoxelSurfaceEditsVoxel K))
    (Strength : K) : List (FVoxelSurfaceEditsVoxel K) :=
  Voxels.map fun Voxel => { Voxel with Strength := Voxel.Strength * Strength }

/-- One pass of the loops of `ApplyStrengthFunctionImpl` and `ApplyTerraceImpl` over the live
array, at the voxel `Voxels[Index]`; the state is the array and the counter `Num` (`NewNum`).
`Body Voxel` is `some NewVoxel` where the loop body stores `NewVoxel` at `Voxels[Num++]`, and
`none` where it stores nothing. -/
def CompactStep (Body : FVoxelSurfaceEditsVoxel K → Option (FVoxelSurfaceEditsVoxel K))
    (State : List (FVoxelSurfaceEditsVoxel K) × Nat) (Index : Nat) :
    List (FVoxelSurfaceEditsVoxel K) × Nat :=
  match State.1[Index]? with
  | none => State
  | some Voxel =>
    match Body Voxel with
    | some NewVoxel => (State.1.set State.2 NewVoxel, State.2 + 1)
    | none => State

/-- The loop `for (auto& Voxel : Voxels)` that stores the kept voxels at the front of the same
array, followed by `Voxels.SetNum(Num, false)`. -/
def CompactInPlace (Body : FVoxelSurfaceEditsVoxel K → Option (FVoxelSurfaceEditsVoxel K))
    (Voxels : List (FVoxelSurfaceEditsVoxel K)) : List (FVoxelSurfaceEditsVoxel K) :=
  let State := (List.range Voxels.length).foldl (CompactStep Body) (Voxels, 0)
  State.1.take State.2

/-- Embeds `ApplyStrengthFunctionImpl`. -/
def ApplyStrengthFunctionImpl [Mul K] [Zero K] [BEq K]
    (Voxels : List (FVoxelSurfaceEditsVoxel K)) (GetStrength : FVoxelSurfaceEditsVoxel K → K) :
    List (FVoxelSurfaceEditsVoxel K) :=
  CompactInPlace (fun Voxel =>
    let Strength := GetStrength Voxel
    if Strength != 0 then some { Voxel with Strength := Voxel.Strength * Strength }
    else none) Voxels

/-- Embeds `ApplyDistanceStrengthFunctionImpl`. The square root `Sqrt` of the engine and
`FVoxelVector::Distance` (`VoxelVector.h`, not among the sources), given as `VoxelDistance`, are
parameters; `Center` and the converted position are vectors over `K`. -/
def ApplyDistanceStrengthFunctionImpl [Add K] [Sub K] [Mul K] [Zero K] [BEq K] [IntCast K]
    (Sqrt : K → K) (VoxelDistance : FVector K → FVector K → K)
    (Voxels : List (FVoxelSurfaceEditsVoxel K)) (Center : FVector K) (b2D : Bool)
    (GetStrengthFromDistance : K → K) : List (FVoxelSurfaceEditsVoxel K) :=
  if b2D then
    ApplyStrengthFunctionImpl Voxels fun Voxel =>
      GetStrengthFromDistance (FVector2D.Distance Sqrt (Center.X, Center.Y)
        ((Voxel.Position.X : K), (Voxel.Position.Y : K)))
  else
    ApplyStrengthFunctionImpl Voxels fun Voxel =>
      GetStrengthFromDistance (VoxelDistance Center (FVector.ofIntVector Voxel.Position))

/-- Embeds `ApplySDFImpl`. -/
def ApplySDFImpl [Add K] [Sub K] [Mul K] [One K] [Neg K] [IntCast K] [LE K] [LT K]
    [DecidableRel (α := K) (· ≤ ·)] [DecidableRel (α := K) (· < ·)]
    (Info : FVoxelSurfaceEditsVoxelsInfo) (Voxels : List (FVoxelSurfaceEditsVoxel K))
    (MergeMode : EVoxelSDFMergeMode) (GetDistance : FVector K → K) :
    List (FVoxelSurfaceEditsVoxel K) :=
  Voxels.map fun Voxel =>
    let CurrentDistance := Voxel.Value
    let OtherDistance := GetDistance (FVector.ofIntVector Voxel.Position)
    let WantedDistance :=
      if MergeMode = EVoxelSDFMergeMode.Union then FMath.Min CurrentDistance OtherDistance
      else if MergeMode = EVoxelSDFMergeMode.Intersection then
        FMath.Max OtherDistance CurrentDistance
      else OtherDistance
    if Info.bHasExactDistanceField then
      let IntermediateDistance := FMath.Lerp CurrentDistance WantedDistance Voxel.Strength
      { Voxel with Strength := IntermediateDistance - CurrentDistance }
    else
      let Difference := WantedDistance - Voxel.Value
      { Voxel with Strength := Voxel.Strength * FMath.Clamp Difference (-1) 1 }

/-- Embeds `ApplyTerraceImpl`. `PositiveMod` is `FVoxelUtilities::PositiveMod` (not among the
sources), `DegreesToRadians` and `Acos` are the functions of the engine; all three are
parameters. -/
def ApplyTerraceImpl [Sub K] [Mul K] [Div K] [Zero K] [LE K] [LT K]
    [DecidableRel (α := K) (· ≤ ·)] [DecidableRel (α := K) (· < ·)]
    (PositiveMod : Int → Int → Int) (DegreesToRadians Acos : K → K)
    (Voxels : List (FVoxelSurfaceEditsVoxel K)) (TerraceHeightInVoxels : Int) (Angle : K)
    (ImmutableVoxels : Int) : List (FVoxelSurfaceEditsVoxel K) :=
  if ¬ (TerraceHeightInVoxels ≥ 1) then Voxels
  else
    let AngleLimit := DegreesToRadians Angle
    CompactInPlace (fun Voxel =>
      let RelativePosition := PositiveMod Voxel.Position.Z TerraceHeightInVoxels
      if RelativePosition < ImmutableVoxels then none
      else
        let VoxelAngle := Acos Voxel.Normal.Z
        if AngleLimit < VoxelAngle then none
        else
          let Strength := FMath.Max ((AngleLimit - VoxelAngle) / AngleLimit) 0
          some { Voxel with Strength := Voxel.Strength * Strength }) Voxels

/-- Embeds `ApplyFlattenImpl`. -/
def ApplyFlattenImpl [Add K] [Sub K] [Mul K] [One K] [Neg K] [IntCast K] [LE K] [LT K]
    [DecidableRel (α := K) (· ≤ ·)] [DecidableRel (α := K) (· < ·)]
    (Info : FVoxelSurfaceEditsVoxelsInfo) (Voxels : List (FVoxelSurfaceEditsVoxel K))
    (Plane : FPlane K) (MergeMode : EVoxelSDFMergeMode) : List (FVoxelSurfaceEditsVoxel K) :=
  ApplySDFImpl Info Voxels MergeMode fun Position => Plane.PlaneDot Position

end FVoxelSurfaceToolsImpl

/-! ## `VoxelTexture.cpp`: the texture caches

`TMap` of the engine is a list of pairs with distinct keys, in the order the keys were added;
the keys are compared by `operator==` of `FVoxelTextureCacheKey`. A texture identity
(`TWeakObjectPtr<UTexture>`) is a value of a type `Tex` with decidable equality. -/

/-- The enumeration `EVoxelRGBA` (declared in `VoxelTexture.h`, not among the sources), with the
four values that `VoxelTexture.cpp` names. -/
inductive EVoxelRGBA where
  | R
  | G
  | B
  | A
deriving DecidableEq

/-- The fields of `FVoxelTextureCacheKey`; `Channel` is `none` for the default
`EVoxelRGBA(-1)` of the constructor that takes a texture only. -/
structure FVoxelTextureCacheKey (Tex : Type) where
  Texture : Tex
  Channel : Option EVoxelRGBA := none
deriving DecidableEq

namespace FVoxelTextureCacheKey

/-- Embeds `operator==`: both the texture and the channel are equal. -/
def eq {Tex : Type} [DecidableEq Tex] (This Other : FVoxelTextureCacheKey Tex) : Bool :=
  decide (This.Texture = Other.Texture) && decide (This.Channel = Other.Channel)

end FVoxelTextureCacheKey

/-- The engine container `TMap<FVoxelTextureCacheKey, V>`. -/
abbrev TMap (Tex V : Type) : Type := List (FVoxelTextureCacheKey Tex × V)

namespace TMap

variable {Tex V : Type}

/-- Embeds `TMap::Empty()`, which removes every entry. -/
def Empty (_Map : TMap Tex V) : TMap Tex V := []

/-- Embeds `TMap::Remove(Key)`, which removes the entry of the key if there is one. -/
def Remove [DecidableEq Tex] (Map : TMap Tex V) (Key : FVoxelTextureCacheKey Tex) :
    TMap Tex V :=
  Map.filter fun Entry => !Entry.1.eq Key

/-- Embeds `TMap::Find(Key)`: the value of the key, if there is one. -/
def Find [DecidableEq Tex] (Map : TMap Tex V) (Key : FVoxelTextureCacheKey Tex) : Option V :=
  (Map.find? fun Entry => Entry.1.eq Key).map fun Entry => Entry.2

/-- Embeds `TMap::FindOrAdd(Key)`, as far as the map goes: a key that is not in the map is
added with the default value. -/
def FindOrAdd [DecidableEq Tex] (Map : TMap Tex V) (Key : FVoxelTextureCacheKey Tex)
    (Default : V) : TMap Tex V :=
  if Map.any fun Entry => Entry.1.eq Key then Map else Map ++ [(Key, Default)]

/-- An assignment through the reference that `FindOrAdd` returns: the value of the key is
replaced. -/
def Assign [DecidableEq Tex] (Map : TMap Tex V) (Key : FVoxelTextureCacheKey Tex)
    (Value : V) : TMap Tex V :=
  Map.map fun Entry => if Entry.1.eq Key then (Entry.1, Value) else Entry

end TMap

/-- The two static maps `GetVoxelTextureCacheMap<FColor>()` and
`GetVoxelTextureCacheMap<float>()`; a value is a shared pointer to texture data, `none` for a
null pointer. -/
structure FVoxelTextureCaches (Tex ColorData FloatData : Type) where
  Color : TMap Tex (Option ColorData)
  Float : TMap Tex (Option FloatData)

namespace FVoxelTextureUtilities

variable {Tex ColorData FloatData : Type}

/-- Embeds `CreateFromTexture_Color(Texture)`, with the caches it reads and writes.
`bCanCreate` is what `CanCreateFromTexture(Texture, Error)` returns and `TextureData` the data
that is built from `ExtractTextureData`; the result is `none` for the empty texture `{}`. -/
def CreateFromTexture_Color [DecidableEq Tex] (bCanCreate : Bool) (TextureData : ColorData)
    (Caches : FVoxelTextureCaches Tex ColorData FloatData) (Texture : Tex) :
    FVoxelTextureCaches Tex ColorData FloatData × Option ColorData :=
  let Key : FVoxelTextureCacheKey Tex := { Texture := Texture }
  let Map := TMap.FindOrAdd Caches.Color Key none
  match TMap.Find Map Key with
  | some (some Data) => ({ Caches with Color := Map }, some Data)
  | _ =>
    if !bCanCreate then ({ Caches with Color := Map }, none)
    else ({ Caches with Color := TMap.Assign Map Key (some TextureData) }, some TextureData)

/-- Embeds `CreateFromTexture_Float(Texture, Channel)`, with the caches it reads and writes.
`ToFloat` is the loop that takes the channel of every color. -/
def CreateFromTexture_Float [DecidableEq Tex] (bCanCreate : Bool) (TextureData : ColorData)
    (ToFloat : ColorData → EVoxelRGBA → FloatData)
    (Caches : FVoxelTextureCaches Tex ColorData FloatData) (Texture : Tex)
    (Channel : EVoxelRGBA) : FVoxelTextureCaches Tex ColorData FloatData × Option FloatData :=
  let Key : FVoxelTextureCacheKey Tex := { Texture := Texture, Channel := some Channel }
  let Map := TMap.FindOrAdd Caches.Float Key none
  match TMap.Find Map Key with
  | some (some Data) => ({ Caches with Float := Map }, some Data)
  | _ =>
    if !bCanCreate then ({ Caches with Float := Map }, none)
    else
      let ColorTexture :=
        CreateFromTexture_Color bCanCreate TextureData { Caches with Float := Map } Texture
      match ColorTexture.2 with
      | none => (ColorTexture.1, none)
      | some Colors =>
        ({ ColorTexture.1 with
            Float := TMap.Assign ColorTexture.1.Float Key (some (ToFloat Colors Channel)) },
          some (ToFloat Colors Channel))

/-- Embeds `ClearCache()`. -/
def ClearCache (Caches : FVoxelTextureCaches Tex ColorData FloatData) :
    FVoxelTextureCaches Tex ColorData FloatData :=
  { Color := TMap.Empty Caches.Color, Float := TMap.Empty Caches.Float }

/-- Embeds `ClearCache(UTexture* Texture)`. -/
def ClearCacheTexture [DecidableEq Tex] (Caches : FVoxelTextureCaches Tex ColorData FloatData)
    (Texture : Tex) : FVoxelTextureCaches Tex ColorData FloatData :=
  { Color := TMap.Remove Caches.Color { Texture := Texture },
    Float :=
      TMap.Remove
        (TMap.Remove
          (TMap.Remove
            (TMap.Remove (TMap.Remove Caches.Float { Texture := Texture })
              { Texture := Texture, Channel := some EVoxelRGBA.R })
            { Texture := Texture, Channel := some EVoxelRGBA.G })
          { Texture := Texture, Channel := some EVoxelRGBA.B })
        { Texture := Texture, Channel := some EVoxelRGBA.A } }

end FVoxelTextureUtilities

/-! ## `VoxelTexture.cpp`: validation and extraction -/

/-- The engine enumeration `TextureMipGenSettings`: the value the code names, and any other
value by its number. -/
inductive TextureMipGenSettings where
  | TMGS_NoMipmaps
  | Other (Code : Nat)
deriving DecidableEq

/-- The engine enumeration `TextureCompressionSettings`: the two values the code names, and any
other value by its number. -/
inductive TextureCompressionSettings where
  | TC_VectorDisplacementmap
  | TC_EditorIcon
  | Other (Code : Nat)
deriving DecidableEq

/-- The engine enumeration `EPixelFormat`: the three values the code names, and any other value
by its number. -/
inductive EPixelFormat where
  | PF_B8G8R8A8
  | PF_R8G8B8A8
  | PF_FloatRGBA
  | Other (Code : Nat)
deriving DecidableEq

/-- What the code reads of a `UTexture`, by the class the two `Cast`s find: a `UTexture2D` with
its mip generation setting (a member in builds with editor-only data), its compression setting
and its pixel format; a `UTextureRenderTarget2D` with its format and whether
`GameThread_GetRenderTargetResource()` is not null; or a texture of another class. -/
inductive UTexture where
  | Texture2D (MipGenSettings : TextureMipGenSettings)
      (CompressionSettings : TextureCompressionSettings) (PixelFormat : EPixelFormat)
  | TextureRenderTarget2D (Format : EPixelFormat) (bHasResource : Bool)
  | Other
deriving DecidableEq

/-- Where the data that `ExtractTextureData` returns comes from: mip `0` of a `UTexture2D`, the
pixels of a render target read by `ReadPixels` or by `ReadLinearColorPixels`, or neither, in
which case the data is a single default color and the size `1 x 1`. -/
inductive EExtractedFrom where
  | Mip
  | ReadPixels
  | ReadLinearColorPixels
  | Nothing
deriving DecidableEq

namespace FVoxelTextureUtilities

/-- Embeds `CanCreateFromTexture(Texture, OutError)`: the result and `OutError` on return.
`Texture` is `none` for a null pointer. `WITH_EDITORONLY_DATA` is the build switch and
`PixelFormatName` the table `GPixelFormats[Format].Name` of the engine. -/
def CanCreateFromTexture (WITH_EDITORONLY_DATA : Bool) (PixelFormatName : EPixelFormat → String)
    (Texture : Option UTexture) (OutError : String) : Bool × String :=
  match Texture with
  | none => (false, "Invalid texture")
  | some (UTexture.Texture2D MipGenSettings CompressionSettings PixelFormat) =>
    if WITH_EDITORONLY_DATA && MipGenSettings != TextureMipGenSettings.TMGS_NoMipmaps then
      (false, "Texture MipGenSettings must be NoMipmaps")
    else if CompressionSettings != TextureCompressionSettings.TC_VectorDisplacementmap &&
        CompressionSettings != TextureCompressionSettings.TC_EditorIcon then
      (false, "Texture CompressionSettings must be VectorDisplacementmap or UserInterface2D")
    else if PixelFormat != EPixelFormat.PF_B8G8R8A8 then
      (false, "Texture pixel format must be B8G8R8A8, try switching CompressionSettings to " ++
        "VectorDisplacementmap")
    else (true, OutError)
  | some (UTexture.TextureRenderTarget2D Format bHasResource) =>
    if Format != EPixelFormat.PF_R8G8B8A8 && Format != EPixelFormat.PF_FloatRGBA &&
        Format != EPixelFormat.PF_B8G8R8A8 then
      (false, "Render Target PixelFormat must be R8G8B8A8, B8G8R8A8 or R8G8B8A8 (is " ++
        PixelFormatName Format ++ ")")
    else if !bHasResource then (false, "Render Target resource must be created")
    else (true, OutError)
  | some UTexture.Other => (false, "Texture must be a Texture2D or a TextureRenderTarget2D")

/-- Embeds the control flow of `ExtractTextureData(Texture, ...)`: where the data returned comes
from. What the engine answers is given: `bBulkData` is `BulkData.GetBulkDataSize() > 0`,
`bLocked` is whether `BulkData.Lock` returns a pointer, `bRead` is what `ReadPixels` or
`ReadLinearColorPixels` returns. -/
def ExtractTextureData (Texture : Option UTexture) (bBulkData bLocked bRead : Bool) :
    EExtractedFrom :=
  match Texture with
  | some (UTexture.Texture2D _ _ _) =>
    if !bBulkData then EExtractedFrom.Nothing
    else if !bLocked then EExtractedFrom.Nothing
    else EExtractedFrom.Mip
  | some (UTexture.TextureRenderTarget2D Format bHasResource) =>
    if bHasResource then
      match Format with
      | EPixelFormat.PF_B8G8R8A8 =>
        if bRead then EExtractedFrom.ReadPixels else EExtractedFrom.Nothing
      | EPixelFormat.PF_R8G8B8A8 =>
        if bRead then EExtractedFrom.ReadPixels else EExtractedFrom.Nothing
      | EPixelFormat.PF_FloatRGBA =>
        if bRead then EExtractedFrom.ReadLinearColorPixels else EExtractedFrom.Nothing
      | EPixelFormat.Other _ => EExtractedFrom.Nothing
    else EExtractedFrom.Nothing
  | _ => EExtractedFrom.Nothing

end FVoxelTextureUtilities

/-! ## `VoxelTexture.cpp`: normalisation -/

/-- What `VoxelTexture.cpp` reads and writes of a `TVoxelTexture<T>` and its `FTextureData`
(declared in `VoxelTexture.h`, not among the sources): the size, the values row by row, and the
recorded bounds. -/
structure TVoxelTexture (T : Type) where
  SizeX : Int
  SizeY : Int
  TextureData : List T
  Min : T
  Max : T

namespace FVoxelTextureUtilities

/-- Embeds `Normalize(Texture)`: the size is taken over, the bounds are set to `0` and `1`, and
each of the first `SizeX * SizeY` values is rescaled. -/
def Normalize {T : Type} [Sub T] [Div T] [Zero T] [One T] (Texture : TVoxelTexture T) :
    TVoxelTexture T :=
  let Min := Texture.Min
  let Max := Texture.Max
  let Num := Texture.SizeX * Texture.SizeY
  { SizeX := Texture.SizeX
    SizeY := Texture.SizeY
    Min := 0
    Max := 1
    TextureData := (Texture.TextureData.take Num.toNat).map fun Value =>
      (Value - Min) / (Max - Min) }

end FVoxelTextureUtilities

/-! ## `FVoxelChunkMesh::BuildDistanceField`: the sampled region and the sizes -/

namespace FVoxelUtilities

/-- Modelled from the spec: `FVoxelUtilities::DivideCeil(Dividend, Divisor)`, which is not among
the sources; the spec has the output size be the ceiling of the quotient. For a positive
divisor the ceiling is the negated floor of the negated quotient. -/
def DivideCeil (Dividend Divisor : Int) : Int := -(-Dividend / Divisor)

end FVoxelUtilities

/-! ### `int32` arithmetic

The sizes and coordinates of `BuildDistanceField` are `int32`. A sum, a difference or a product
is computed in the integers and wrapped into the range of `int32`, from `-2^31` to `2^31 - 1`:
the two's complement result that the compiled code computes where the language leaves the
overflow of a signed integer undefined. A shift `1 << n` has a value only for `0 <= n < 32`. -/

namespace int32

/-- The `int32` that an integer result is wrapped to. -/
def wrap (x : Int) : Int := (x + 2147483648) % 4294967296 - 2147483648

/-- Embeds `a + b` on `int32`. -/
def add (a b : Int) : Int := wrap (a + b)

/-- Embeds `a - b` on `int32`. -/
def sub (a b : Int) : Int := wrap (a - b)

/-- Embeds `a * b` on `int32`. -/
def mul (a b : Int) : Int := wrap (a * b)

/-- Embeds `1 << Shift` on `int32`: `none` for a shift that is negative or not below the width
`32`, for which the language defines no result; `1 << 31` wraps to `-2^31`. -/
def shiftLeftOne (Shift : Int) : Option Int :=
  if 0 ≤ Shift ∧ Shift < 32 then some (wrap (2 ^ Shift.toNat)) else none

end int32

namespace FIntVector

/-- Embeds `FIntVector - int32`, which subtracts the number from each coordinate. -/
def subScalar (V : FIntVector) (I : Int) : FIntVector :=
  { X := int32.sub V.X I, Y := int32.sub V.Y I, Z := int32.sub V.Z I }

/-- Embeds `FIntVector + int32`, which adds the number to each coordinate. -/
def addScalar (V : FIntVector) (I : Int) : FIntVector :=
  { X := int32.add V.X I, Y := int32.add V.Y I, Z := int32.add V.Z I }

end FIntVector

/-- The fields of `FVoxelIntBox` (`VoxelIntBox.h`, not among the sources): the corner `Min`,
which is in the box, and the corner `Max`, which is not. -/
structure FVoxelIntBox where
  Min : FIntVector
  Max : FIntVector
deriving DecidableEq

namespace FVoxelIntBox

/-- Modelled from the spec: `FVoxelIntBox::Extend(Amount)`, which is not among the sources; the
spec has the region "further padded by one voxel on each side". -/
def Extend (This : FVoxelIntBox) (Amount : Int) : FVoxelIntBox :=
  { Min := This.Min.subScalar Amount, Max := This.Max.addScalar Amount }

end FVoxelIntBox

namespace FVoxelChunkMesh

/-- The constant `HighResSize` of `BuildDistanceField`; `RENDER_CHUNK_SIZE` is a constant of the
plugin and `Extension` is `Settings.DistanceFieldBoundsExtension`. -/
def HighResSize (RENDER_CHUNK_SIZE Extension : Int) : Int :=
  int32.add (int32.add RENDER_CHUNK_SIZE 1) (int32.mul 2 Extension)

/-- The constant `Step` of `BuildDistanceField`, which is `1 << LOD`. -/
def Step (LOD : Int) : Option Int := int32.shiftLeftOne LOD

/-- The constant `Divisor` of `BuildDistanceField`; `DistanceFieldResolutionDivisor` is the
setting. -/
def Divisor (RENDER_CHUNK_SIZE Extension DistanceFieldResolutionDivisor : Int) : Int :=
  FMath.Clamp DistanceFieldResolutionDivisor 1 (HighResSize RENDER_CHUNK_SIZE Extension)

/-- The constant `Size` of `BuildDistanceField`. -/
def Size (RENDER_CHUNK_SIZE Extension DistanceFieldResolutionDivisor : Int) : Int :=
  FVoxelUtilities.DivideCeil (HighResSize RENDER_CHUNK_SIZE Extension)
    (Divisor RENDER_CHUNK_SIZE Extension DistanceFieldResolutionDivisor)

/-- The constant `ValuesSize` of the lambda `GetDistanceField`. -/
def ValuesSize (RENDER_CHUNK_SIZE Extension : Int) : Int :=
  int32.add (HighResSize RENDER_CHUNK_SIZE Extension) 2

/-- The constant `NumValues` of the lambda `GetDistanceField`. -/
def NumValues (RENDER_CHUNK_SIZE Extension : Int) : Int :=
  int32.mul
    (int32.mul (ValuesSize RENDER_CHUNK_SIZE Extension) (ValuesSize RENDER_CHUNK_SIZE Extension))
    (ValuesSize RENDER_CHUNK_SIZE Extension)

/-- The constant `Start` of the lambda `GetDistanceField`, for the value `Step` of `1 << LOD`. -/
def Start (Position : FIntVector) (Extension Step : Int) : FIntVector :=
  Position.subScalar (int32.mul Extension Step)

/-- The constant `Bounds` of the lambda `GetDistanceField`: the region that is locked and
queried; `none` where `1 << LOD` has no value. -/
def Bounds (RENDER_CHUNK_SIZE : Int) (Position : FIntVector) (Extension LOD : Int) :
    Option FVoxelIntBox :=
  (Step LOD).map fun Step =>
    FVoxelIntBox.Extend
      { Min := Start Position Extension Step,
        Max := (Start Position Extension Step).addScalar
          (int32.mul (HighResSize RENDER_CHUNK_SIZE Extension) Step) }
      Step

end FVoxelChunkMesh

/-! ## `FVoxelUtilities::ParallelFor_PerThreadData` -/

namespace FVoxelUtilities

/-- The loop `for (int32 Index = Start; Index < End; Index++)`: the indices it visits. -/
def IndexLoop (Start End : Int) : List Int :=
  (List.range (End - Start).toNat).map fun (Offset : Nat) => Start + (Offset : Int)

/-- Embeds `ParallelFor_PerThreadData(Num, GetPerThreadData, Lambda, bForceSingleThread)`: for
each per-thread datum that is created, the indices with which `Lambda` is called on it, in the
order of the calls. `NumWorkerThreads` is what `GetNumWorkerThreads()` returns. `ParallelFor` of
the engine runs its body once for each `ThreadIndex` below `NumThreads`. The result is `none`
where the division by `NumThreads` is a division by zero or `check(ChunkSize >= 1)` stops the
program. -/
def ParallelFor_PerThreadData (NumWorkerThreads Num : Int) (bForceSingleThread : Bool) :
    Option (List (List Int)) :=
  if Num == 0 || !(decide (Num > 0)) then some []
  else if bForceSingleThread then some [IndexLoop 0 Num]
  else
    let NumThreads := FMath.Min NumWorkerThreads Num
    if NumThreads == 0 then none
    else
      let ChunkSize := Int.tdiv Num NumThreads
      if !(decide (ChunkSize ≥ 1)) then none
      else
        some ((List.range NumThreads.toNat).map fun (ThreadIndex : Nat) =>
          let Start := (ThreadIndex : Int) * ChunkSize
          let End := FMath.Min (((ThreadIndex : Int) + 1) * ChunkSize) Num
          IndexLoop Start End)

end FVoxelUtilities

/-! ## Example inputs -/

/-- The integer range `[-1, 2]`. -/
def exampleIntA : TVoxelRange ℤ := { Min := -1, Max := 2 }

/-- The integer range `[3, 4]`. -/
def exampleIntB : TVoxelRange ℤ := { Min := 3, Max := 4 }

/-- The float range `[-2, 3]`. -/
def exampleFltA : TVoxelRange v_flt := { Min := v_flt.fin (-2), Max := v_flt.fin 3 }

/-- The float range `[2, 4]`. -/
def exampleFltB : TVoxelRange v_flt := { Min := v_flt.fin 2, Max := v_flt.fin 4 }

/-- The float range `[-2, 2]`. -/
def exampleFltC : TVoxelRange v_flt := { Min := v_flt.fin (-2), Max := v_flt.fin 2 }

/-- The float range `[-1, 1]`. -/
def exampleFltD : TVoxelRange v_flt := { Min := v_flt.fin (-1), Max := v_flt.fin 1 }

/-- A fail status on which a failure has been recorded. -/
def exampleFailedStatus : FVoxelRangeFailStatus :=
  { bHasFailed := true, bHasWarning := false, Message := some "condition can be true or false" }

/-- An instance of `FVoxelValueOps` for the examples: a voxel value is the density clamped to
`[-1, 1]`, `Full` the lowest value and `Empty` the highest (`NegativeInfinity<FVoxelValue>()` is
`Full`, `PositiveInfinity<FVoxelValue>()` is `Empty`); the fixed-point rounding is left out. -/
def exampleValueOps : FVoxelValueOps v_flt where
  ofFloat := fun v => FMath.Max (v_flt.fin (-1)) (FMath.Min v (v_flt.fin 1))
  Empty := v_flt.fin 1
  Full := v_flt.fin (-1)
  eq := fun a b => a == b

/-- A wrapped generator that returns the value `v` at every position and the range `[v, v]` for
all bounds; the bounds are of type `Unit`. -/
def exampleConstantGenerator (v : v_flt) : FVoxelWorldGeneratorInstance Unit where
  GetValueImpl := fun _ _ _ _ _ => v
  GetValueRangeImpl := fun _ _ _ => TVoxelRange.ofValue v

/-- The empty item stack. -/
def exampleEmptyStack : FVoxelItemStack Unit where
  IsEmpty := true
  NextValue := fun _ _ _ _ => 0
  NextIsValid := fun _ => false
  NextValueRange := fun _ _ => TVoxelRange.Infinite

/-- An item stack that is not empty, whose next stack is valid, has the value `n` at every
position and the range `[n, n]`. -/
def exampleStack (n : v_flt) : FVoxelItemStack Unit where
  IsEmpty := false
  NextValue := fun _ _ _ _ => n
  NextIsValid := fun _ => true
  NextValueRange := fun _ _ => TVoxelRange.ofValue n

/-- A subtractive helper around the constant generator of value `v`. -/
def exampleSubtractiveHelper (v : v_flt) : TVoxelTransformableWorldGeneratorHelper Unit where
  WorldGenerator := exampleConstantGenerator v
  bSubtractiveAsset := true

/-- An additive helper around the constant generator of value `v`. -/
def exampleAdditiveHelper (v : v_flt) : TVoxelTransformableWorldGeneratorHelper Unit where
  WorldGenerator := exampleConstantGenerator v
  bSubtractiveAsset := false

/-- An instance of `FVoxelValueOps` over the integers for the examples, with three levels: a
density of at most `-1` is `Full = -1`, one of at least `1` is `Empty = 1`, any other is `0`. -/
def exampleIntValueOps : FVoxelValueOps ℤ where
  ofFloat := fun v => if v ≤ v_flt.fin (-1) then -1 else if v_flt.fin 1 ≤ v then 1 else 0
  Empty := 1
  Full := -1
  eq := fun a b => a == b

/-- Material queries for the examples, with materials numbered: the wrapped generator has the
material `7` everywhere, the next stack the material `9` and the voxel value `n`. -/
def exampleMaterialQueries (n : ℤ) : FVoxelMaterialQueries Unit ℤ ℕ where
  GetMaterialImpl := fun _ _ _ _ _ => 7
  NextVoxelValue := fun _ _ _ _ => n
  NextMaterial := fun _ _ _ _ => 9

/-- A grid of eight distances (`Size = 2`), before the division by `Size`. -/
def exampleDistances : List ℚ := [0, 1, 2, 2, 2, 2, 2, 2]

/-- A mesh buffer over the integers with the two positions `(0, 0, 0)` and `(1, 2, 3)`, two
triangles on four vertices named in the index buffer, and stale bounds. -/
def exampleBuffers : FVoxelChunkMeshBuffers ℤ where
  Indices := [0, 1, 2, 2, 1, 3]
  Positions := [{ X := 0, Y := 0, Z := 0 }, { X := 1, Y := 2, Z := 3 }]
  Normals := [{ X := 0, Y := 0, Z := 1 }, { X := 0, Y := 0, Z := 1 }]
  Tangents := [{ X := 1, Y := 0, Z := 0 }, { X := 1, Y := 0, Z := 0 }]
  Colors := [0, 0]
  TextureCoordinates := [[(0, 0), (1, 1)]]
  Bounds := { Min := { X := 5, Y := 5, Z := 5 }, Max := { X := 6, Y := 6, Z := 6 },
              IsValid := true }

/-- A batch of three voxels over the integers, at the heights `0`, `1` and `2`, all facing up
and of strength `1`. -/
def exampleVoxels : List (FVoxelSurfaceEditsVoxel ℤ) :=
  [{ Position := { X := 0, Y := 0, Z := 0 }, Normal := { X := 0, Y := 0, Z := 1 }, Value := 0,
     Strength := 1 },
   { Position := { X := 0, Y := 0, Z := 1 }, Normal := { X := 0, Y := 0, Z := 1 }, Value := 1,
     Strength := 1 },
   { Position := { X := 0, Y := 0, Z := 2 }, Normal := { X := 0, Y := 0, Z := 1 }, Value := -1,
     Strength := 1 }]

/-- A weight function for the examples: the height of the voxel. -/
def exampleGetStrength (Voxel : FVoxelSurfaceEditsVoxel ℤ) : ℤ := Voxel.Position.Z

/-- A batch of two voxels over the integers; the first has the strength `0`, the second the
strength `1`. -/
def exampleZeroStrengthVoxels : List (FVoxelSurfaceEditsVoxel ℤ) :=
  [{ Position := { X := 0, Y := 0, Z := 0 }, Normal := { X := 0, Y := 0, Z := 1 }, Value := 0,
     Strength := 0 },
   { Position := { X := 0, Y := 0, Z := 1 }, Normal := { X := 0, Y := 0, Z := 1 }, Value := 0,
     Strength := 1 }]

/-- A batch of three voxels over the rationals, at the heights `0`, `1` and `2`: the first
faces up, the second sideways, the third up. -/
def exampleRatVoxels : List (FVoxelSurfaceEditsVoxel ℚ) :=
  [{ Position := { X := 0, Y := 0, Z := 0 }, Normal := { X := 0, Y := 0, Z := 1 }, Value := 0,
     Strength := 1 },
   { Position := { X := 0, Y := 0, Z := 1 }, Normal := { X := 1, Y := 0, Z := 0 }, Value := 1,
     Strength := 1 },
   { Position := { X := 0, Y := 0, Z := 2 }, Normal := { X := 0, Y := 0, Z := 1 }, Value := -1,
     Strength := 1 }]

/-- A weight function for the examples over the rationals: the height of the voxel. -/
def exampleRatGetStrength (Voxel : FVoxelSurfaceEditsVoxel ℚ) : ℚ := Voxel.Position.Z

/-- A stand-in for the arc cosine in the examples, with the two properties of it that are
used: it is never negative, and it is `0` at `1`. -/
def exampleAcos (x : ℚ) : ℚ := |1 - x|

/-- A stand-in for the conversion of degrees to radians in the examples: a positive multiple of
the angle. -/
def exampleDegreesToRadians (x : ℚ) : ℚ := x / 60

/-- Texture caches for the examples, with textures, color data and float data all numbered:
the color cache holds the textures `1` and `2`, the float cache the red and the alpha channel
of the texture `1`, an entry without a channel for it, and the green channel of the texture
`2`. -/
def exampleCaches : FVoxelTextureCaches Nat Nat Nat where
  Color := [({ Texture := 1 }, some 10), ({ Texture := 2 }, some 20)]
  Float := [({ Texture := 1, Channel := some EVoxelRGBA.R }, some 11),
    ({ Texture := 2, Channel := some EVoxelRGBA.G }, some 22),
    ({ Texture := 1, Channel := some EVoxelRGBA.A }, none),
    ({ Texture := 1 }, some 14)]

/-- A float texture of one value, `5`, with the recorded bounds `5` and `5`. -/
def exampleConstantTexture : TVoxelTexture v_flt where
  SizeX := 1
  SizeY := 1
  TextureData := [v_flt.fin 5]
  Min := v_flt.fin 5
  Max := v_flt.fin 5

/-- The position of a chunk for the examples. -/
def examplePosition : FIntVector := { X := 64, Y := 0, Z := -32 }

/-- The information of a batch for which the exact distance field has been computed. -/
def exampleExactInfo : FVoxelSurfaceEditsVoxelsInfo := { bHasExactDistanceField := true }

/-- A distance function for the examples: the height of the position. -/
def exampleGetDistance (P : FVector ℚ) : ℚ := P.Z

/-! ## Evaluation lemmas for `v_flt` -/

namespace v_flt

theorem le_iff (a b : v_flt) : a ≤ b ↔ le a b = true := Iff.rfl

theorem lt_iff (a b : v_flt) : a < b ↔ lt a b = true := Iff.rfl

@[simp] theorem zero_def : (0 : v_flt) = fin 0 := rfl

@[simp] theorem one_def : (1 : v_flt) = fin 1 := rfl

@[simp] theorem negInf_def : (VoxelScalar.NegativeInfinity : v_flt) = ninf := rfl

@[simp] theorem posInf_def : (VoxelScalar.PositiveInfinity : v_flt) = pinf := rfl

@[simp] theorem isInteger_def : VoxelScalar.bIsInteger v_flt = false := rfl

@[simp] theorem not_nan_le (x : v_flt) : ¬ (nan ≤ x) := by simp [le_iff, le]

@[simp] theorem not_le_nan (x : v_flt) : ¬ (x ≤ nan) := by cases x <;> simp [le_iff, le]

@[simp] theorem ninf_le_ninf : ninf ≤ ninf := by simp [le_iff, le]

@[simp] theorem ninf_le_fin (b : ℚ) : ninf ≤ fin b := by simp [le_iff, le]

@[simp] theorem ninf_le_pinf : ninf ≤ pinf := by simp [le_iff, le]

@[simp] theorem not_fin_le_ninf (a : ℚ) : ¬ (fin a ≤ ninf) := by simp [le_iff, le]

@[simp] theorem fin_le_fin (a b : ℚ) : fin a ≤ fin b ↔ a ≤ b := by simp [le_iff, le]

@[simp] theorem fin_le_pinf (a : ℚ) : fin a ≤ pinf := by simp [le_iff, le]

@[simp] theorem not_pinf_le_ninf : ¬ (pinf ≤ ninf) := by simp [le_iff, le]

@[simp] theorem not_pinf_le_fin (b : ℚ) : ¬ (pinf ≤ fin b) := by simp [le_iff, le]

@[simp] theorem pinf_le_pinf : pinf ≤ pinf := by simp [le_iff, le]

@[simp] theorem not_nan_lt (x : v_flt) : ¬ (nan < x) := by simp [lt_iff, lt]

@[simp] theorem not_lt_nan (x : v_flt) : ¬ (x < nan) := by cases x <;> simp [lt_iff, lt]

@[simp] theorem not_lt_ninf (x : v_flt) : ¬ (x < ninf) := by cases x <;> simp [lt_iff, lt]

@[simp] theorem not_pinf_lt (x : v_flt) : ¬ (pinf < x) := by simp [lt_iff, lt]

@[simp] theorem ninf_lt_fin (b : ℚ) : ninf < fin b := by simp [lt_iff, lt]

@[simp] theorem ninf_lt_pinf : ninf < pinf := by simp [lt_iff, lt]

@[simp] theorem fin_lt_fin (a b : ℚ) : fin a < fin b ↔ a < b := by simp [lt_iff, lt]

@[simp] theorem fin_lt_pinf (a : ℚ) : fin a < pinf := by simp [lt_iff, lt]

@[simp] theorem nan_beq (x : v_flt) : (nan == x) = false := rfl

@[simp] theorem beq_nan (x : v_flt) : (x == nan) = false := by cases x <;> rfl

@[simp] theorem ninf_beq_ninf : (ninf == ninf) = true := rfl

@[simp] theorem ninf_beq_fin (b : ℚ) : (ninf == fin b) = false := rfl

@[simp] theorem ninf_beq_pinf : (ninf == pinf) = false := rfl

@[simp] theorem fin_beq_ninf (a : ℚ) : (fin a == ninf) = false := rfl

@[simp] theorem fin_beq_fin (a b : ℚ) : (fin a == fin b) = decide (a = b) := rfl

@[simp] theorem fin_beq_pinf (a : ℚ) : (fin a == pinf) = false := rfl

@[simp] theorem pinf_beq_ninf : (pinf == ninf) = false := rfl

@[simp] theorem pinf_beq_fin (b : ℚ) : (pinf == fin b) = false := rfl

@[simp] theorem pinf_beq_pinf : (pinf == pinf) = true := rfl

@[simp] theorem neg_nan : -nan = nan := rfl

@[simp] theorem neg_ninf : -ninf = pinf := rfl

@[simp] theorem neg_fin (a : ℚ) : -fin a = fin (-a) := rfl

@[simp] theorem neg_pinf : -pinf = ninf := rfl

@[simp] theorem nan_add (x : v_flt) : nan + x = nan := rfl

@[simp] theorem add_nan (x : v_flt) : x + nan = nan := by cases x <;> rfl

@[simp] theorem ninf_add_ninf : ninf + ninf = ninf := rfl

@[simp] theorem ninf_add_fin (b : ℚ) : ninf + fin b = ninf := rfl

@[simp] theorem ninf_add_pinf : ninf + pinf = nan := rfl

@[simp] theorem fin_add_ninf (a : ℚ) : fin a + ninf = ninf := rfl

@[simp] theorem fin_add_fin (a b : ℚ) : fin a + fin b = fin (a + b) := rfl

@[simp] theorem fin_add_pinf (a : ℚ) : fin a + pinf = pinf := rfl

@[simp] theorem pinf_add_ninf : pinf + ninf = nan := rfl

@[simp] theorem pinf_add_fin (b : ℚ) : pinf + fin b = pinf := rfl

@[simp] theorem pinf_add_pinf : pinf + pinf = pinf := rfl

theorem sub_def (a b : v_flt) : a - b = a + -b := rfl

@[simp] theorem nan_mul (x : v_flt) : nan * x = nan := rfl

@[simp] theorem mul_nan (x : v_flt) : x * nan = nan := by cases x <;> rfl

@[simp] theorem ninf_mul_ninf : ninf * ninf = pinf := rfl

@[simp] theorem ninf_mul_fin (b : ℚ) : ninf * fin b = infTimes false b := rfl

@[simp] theorem ninf_mul_pinf : ninf * pinf = ninf := rfl

@[simp] theorem fin_mul_ninf (a : ℚ) : fin a * ninf = infTimes false a := rfl

@[simp] theorem fin_mul_fin (a b : ℚ) : fin a * fin b = fin (a * b) := rfl

@[simp] theorem fin_mul_pinf (a : ℚ) : fin a * pinf = infTimes true a := rfl

@[simp] theorem pinf_mul_ninf : pinf * ninf = ninf := rfl

@[simp] theorem pinf_mul_fin (b : ℚ) : pinf * fin b = infTimes true b := rfl

@[simp] theorem pinf_mul_pinf : pinf * pinf = pinf := rfl

@[simp] theorem nan_div (x : v_flt) : nan / x = nan := rfl

@[simp] theorem div_nan (x : v_flt) : x / nan = nan := by cases x <;> rfl

@[simp] theorem ninf_div_ninf : ninf / ninf = nan := rfl

@[simp] theorem ninf_div_fin (b : ℚ) : ninf / fin b = if b < 0 then pinf else ninf := rfl

@[simp] theorem ninf_div_pinf : ninf / pinf = nan := rfl

@[simp] theorem fin_div_ninf (a : ℚ) : fin a / ninf = fin 0 := rfl

@[simp] theorem fin_div_fin (a b : ℚ) : fin a / fin b =
    if b = 0 then (if a = 0 then nan else if 0 < a then pinf else ninf) else fin (a / b) := rfl

@[simp] theorem fin_div_pinf (a : ℚ) : fin a / pinf = fin 0 := rfl

@[simp] theorem pinf_div_ninf : pinf / ninf = nan := rfl

@[simp] theorem pinf_div_fin (b : ℚ) : pinf / fin b = if b < 0 then ninf else pinf := rfl

@[simp] theorem pinf_div_pinf : pinf / pinf = nan := rfl

end v_flt

/-! ## The three-valued logic of `FVoxelBoolRange` -/

/-- Claim C10. For valid bool ranges `A` and `B` (at least one of the two bits set): `A && B` is
definite `False` if either operand is definite `False`, otherwise definite `True` if neither
operand can be false, otherwise `TrueOrFalse`; `A || B` is the dual; `!A` swaps the two bits;
and each of the three results is valid again. -/
theorem boolRange_and_or_not_lattice (A B : FVoxelBoolRange) (hA : A.IsValid) (hB : B.IsValid) :
    (A.and B =
        if A = FVoxelBoolRange.False ∨ B = FVoxelBoolRange.False then FVoxelBoolRange.False
        else if A.bCanBeFalse = false ∧ B.bCanBeFalse = false then FVoxelBoolRange.True
        else FVoxelBoolRange.TrueOrFalse) ∧
    (A.or B =
        if A = FVoxelBoolRange.True ∨ B = FVoxelBoolRange.True then FVoxelBoolRange.True
        else if A.bCanBeTrue = false ∧ B.bCanBeTrue = false then FVoxelBoolRange.False
        else FVoxelBoolRange.TrueOrFalse) ∧
    ((A.not).bCanBeTrue = A.bCanBeFalse ∧ (A.not).bCanBeFalse = A.bCanBeTrue) ∧
    (A.and B).IsValid ∧ (A.or B).IsValid ∧ (A.not).IsValid := by
  obtain ⟨at_, af⟩ := A
  obtain ⟨bt, bf⟩ := B
  cases at_ <;> cases af <;> cases bt <;> cases bf <;>
    first
      | exact absurd hA (by decide)
      | exact absurd hB (by decide)
      | decide

/-- Claim C10 at `A = True`, `B = TrueOrFalse`: both are valid, and the conjunction is
`TrueOrFalse`, the disjunction `True`, the negation of `A` is `False`. -/
theorem boolRange_and_or_not_lattice_witness :
    FVoxelBoolRange.True.IsValid ∧ FVoxelBoolRange.TrueOrFalse.IsValid ∧
    ((FVoxelBoolRange.True.and FVoxelBoolRange.TrueOrFalse =
        if FVoxelBoolRange.True = FVoxelBoolRange.False ∨
            FVoxelBoolRange.TrueOrFalse = FVoxelBoolRange.False then FVoxelBoolRange.False
        else if FVoxelBoolRange.True.bCanBeFalse = false ∧
            FVoxelBoolRange.TrueOrFalse.bCanBeFalse = false then FVoxelBoolRange.True
        else FVoxelBoolRange.TrueOrFalse) ∧
    (FVoxelBoolRange.True.or FVoxelBoolRange.TrueOrFalse =
        if FVoxelBoolRange.True = FVoxelBoolRange.True ∨
            FVoxelBoolRange.TrueOrFalse = FVoxelBoolRange.True then FVoxelBoolRange.True
        else if FVoxelBoolRange.True.bCanBeTrue = false ∧
            FVoxelBoolRange.TrueOrFalse.bCanBeTrue = false then FVoxelBoolRange.False
        else FVoxelBoolRange.TrueOrFalse) ∧
    ((FVoxelBoolRange.True.not).bCanBeTrue = FVoxelBoolRange.True.bCanBeFalse ∧
      (FVoxelBoolRange.True.not).bCanBeFalse = FVoxelBoolRange.True.bCanBeTrue) ∧
    (FVoxelBoolRange.True.and FVoxelBoolRange.TrueOrFalse).IsValid ∧
    (FVoxelBoolRange.True.or FVoxelBoolRange.TrueOrFalse).IsValid ∧
    (FVoxelBoolRange.True.not).IsValid) :=
  ⟨by decide, by decide,
    boolRange_and_or_not_lattice FVoxelBoolRange.True FVoxelBoolRange.TrueOrFalse
      (by decide) (by decide)⟩


/-! ## Ranges over a linearly ordered scalar type -/

namespace FMath

theorem Min_eq_min {T : Type} [LinearOrder T] (a b : T) : FMath.Min a b = min a b := by
  simp only [FMath.Min, min_def]

theorem Max_eq_max {T : Type} [LinearOrder T] (a b : T) : FMath.Max a b = max a b := by
  unfold FMath.Max
  rcases le_total a b with h | h
  · rw [max_eq_right h]
    split
    · exact le_antisymm h ‹b ≤ a›
    · rfl
  · rw [max_eq_left h, if_pos h]

end FMath

namespace TVoxelRange

theorem Contains_iff {T : Type} [LE T] [DecidableRel (α := T) (· ≤ ·)] (A : TVoxelRange T)
    (x : T) : A.Contains x = true ↔ A.Min ≤ x ∧ x ≤ A.Max := by
  simp [Contains]

theorem ContainsRange_iff {T : Type} [LinearOrder T] (A B : TVoxelRange T) :
    A.ContainsRange B = true ↔ A.Min ≤ B.Min ∧ B.Max ≤ A.Max := by
  simp [ContainsRange]

/-- Two valid ranges intersect, in the sense of `Intersects`, exactly when they share a value. -/
theorem Intersects_iff {T : Type} [LinearOrder T] (A B : TVoxelRange T)
    (hA : A.IsValid) (hB : B.IsValid) :
    A.Intersects B = true ↔ ∃ x, A.Contains x = true ∧ B.Contains x = true := by
  unfold IsValid at hA hB
  simp only [Intersects, Bool.or_eq_true, Contains_iff]
  constructor
  · rintro (((h | h) | h) | h)
    · exact ⟨B.Min, h, le_refl _, hB⟩
    · exact ⟨B.Max, h, hB, le_refl _⟩
    · exact ⟨A.Min, ⟨le_refl _, hA⟩, h⟩
    · exact ⟨A.Max, ⟨hA, le_refl _⟩, h⟩
  · rintro ⟨x, ⟨h1, h2⟩, h3, h4⟩
    rcases le_total A.Min B.Min with h | h
    · exact Or.inl (Or.inl (Or.inl ⟨h, le_trans h3 h2⟩))
    · exact Or.inl (Or.inr ⟨h, le_trans h1 h4⟩)

end TVoxelRange

/-- Claim C8. For ranges over a linearly ordered scalar type: `Union(A, B)` contains `A` and
contains `B`; and when `A` and `B` overlap (the larger `Min` is at most the smaller `Max`),
`Intersection(A, B)` is the range from the larger `Min` to the smaller `Max`, contained in `A` and
contained in `B`. -/
theorem union_contains_intersection_contained {T : Type} [LinearOrder T] (A B : TVoxelRange T) :
    (TVoxelRange.Union A B).ContainsRange A = true ∧
    (TVoxelRange.Union A B).ContainsRange B = true ∧
    (max A.Min B.Min ≤ min A.Max B.Max →
      TVoxelRange.Intersection A B = { Min := max A.Min B.Min, Max := min A.Max B.Max } ∧
      A.ContainsRange (TVoxelRange.Intersection A B) = true ∧
      B.ContainsRange (TVoxelRange.Intersection A B) = true) := by
  refine ⟨?_, ?_, ?_⟩
  · simp [TVoxelRange.ContainsRange_iff, TVoxelRange.Union, FMath.Min_eq_min, FMath.Max_eq_max]
  · simp [TVoxelRange.ContainsRange_iff, TVoxelRange.Union, FMath.Min_eq_min, FMath.Max_eq_max]
  · intro h
    have hI : TVoxelRange.Intersection A B = { Min := max A.Min B.Min, Max := min A.Max B.Max } := by
      simp only [TVoxelRange.Intersection, FMath.Min_eq_min, FMath.Max_eq_max]
      rw [if_pos h]
    rw [hI]
    simp [TVoxelRange.ContainsRange_iff]

/-- Claim C8 at `A = [0, 5]`, `B = [3, 8]` over the integers, which overlap in `[3, 5]`. -/
theorem union_contains_intersection_contained_witness :
    max (3 : ℤ) 0 ≤ min 5 8 ∧
    (TVoxelRange.Intersection ({ Min := 0, Max := 5 } : TVoxelRange ℤ) { Min := 3, Max := 8 } =
        { Min := max 0 3, Max := min 5 8 } ∧
      ({ Min := 0, Max := 5 } : TVoxelRange ℤ).ContainsRange
        (TVoxelRange.Intersection { Min := 0, Max := 5 } { Min := 3, Max := 8 }) = true ∧
      ({ Min := 3, Max := 8 } : TVoxelRange ℤ).ContainsRange
        (TVoxelRange.Intersection { Min := 0, Max := 5 } { Min := 3, Max := 8 }) = true) :=
  ⟨by decide,
    (union_contains_intersection_contained ({ Min := 0, Max := 5 } : TVoxelRange ℤ)
      { Min := 3, Max := 8 }).2.2 (by decide)⟩


namespace FVoxelBoolRange

/-- The answer of a two-step test: `True` on the first condition, `False` on the second,
`TrueOrFalse` otherwise, for two conditions that exclude each other. -/
theorem ite_answer (c1 c2 : Prop) [Decidable c1] [Decidable c2] (hex : c1 → ¬ c2) :
    ((if c1 then FVoxelBoolRange.True else if c2 then FVoxelBoolRange.False
        else FVoxelBoolRange.TrueOrFalse) = FVoxelBoolRange.True ↔ c1) ∧
    ((if c1 then FVoxelBoolRange.True else if c2 then FVoxelBoolRange.False
        else FVoxelBoolRange.TrueOrFalse) = FVoxelBoolRange.False ↔ c2) ∧
    ((if c1 then FVoxelBoolRange.True else if c2 then FVoxelBoolRange.False
        else FVoxelBoolRange.TrueOrFalse) = FVoxelBoolRange.TrueOrFalse ↔ ¬ c1 ∧ ¬ c2) := by
  by_cases h1 : c1
  · have h2 : ¬ c2 := hex h1
    simp [h1, h2, FVoxelBoolRange.True, FVoxelBoolRange.False, FVoxelBoolRange.TrueOrFalse]
  · by_cases h2 : c2 <;>
      simp [h1, h2, FVoxelBoolRange.True, FVoxelBoolRange.False, FVoxelBoolRange.TrueOrFalse]

theorem not_eq_True (R : FVoxelBoolRange) :
    R.not = FVoxelBoolRange.True ↔ R = FVoxelBoolRange.False := by
  obtain ⟨t, f⟩ := R
  cases t <;> cases f <;> decide

theorem not_eq_False (R : FVoxelBoolRange) :
    R.not = FVoxelBoolRange.False ↔ R = FVoxelBoolRange.True := by
  obtain ⟨t, f⟩ := R
  cases t <;> cases f <;> decide

theorem not_eq_TrueOrFalse (R : FVoxelBoolRange) :
    R.not = FVoxelBoolRange.TrueOrFalse ↔ R = FVoxelBoolRange.TrueOrFalse := by
  obtain ⟨t, f⟩ := R
  cases t <;> cases f <;> decide

end FVoxelBoolRange

namespace TVoxelRange

section LinearOrderLemmas

variable {T : Type} [LinearOrder T]

theorem Max_lt_Min_iff (A B : TVoxelRange T) (hA : A.IsValid) (hB : B.IsValid) :
    A.Max < B.Min ↔ ∀ a b, A.Contains a = true → B.Contains b = true → a < b := by
  unfold IsValid at hA hB
  simp only [Contains_iff]
  constructor
  · rintro h a b ⟨-, ha⟩ ⟨hb, -⟩
    exact lt_of_le_of_lt ha (lt_of_lt_of_le h hb)
  · intro h
    exact h A.Max B.Min ⟨hA, le_refl _⟩ ⟨le_refl _, hB⟩

theorem Max_le_Min_iff (A B : TVoxelRange T) (hA : A.IsValid) (hB : B.IsValid) :
    A.Max ≤ B.Min ↔ ∀ a b, A.Contains a = true → B.Contains b = true → a ≤ b := by
  unfold IsValid at hA hB
  simp only [Contains_iff]
  constructor
  · rintro h a b ⟨-, ha⟩ ⟨hb, -⟩
    exact le_trans ha (le_trans h hb)
  · intro h
    exact h A.Max B.Min ⟨hA, le_refl _⟩ ⟨le_refl _, hB⟩

theorem forall_swap_iff (A B : TVoxelRange T) (r : T → T → Prop) :
    (∀ b a, B.Contains b = true → A.Contains a = true → r b a) ↔
    (∀ a b, A.Contains a = true → B.Contains b = true → r b a) :=
  ⟨fun h a b ha hb => h b a hb ha, fun h b a hb ha => h a b ha hb⟩

theorem lt_exact (A B : TVoxelRange T) (hA : A.IsValid) (hB : B.IsValid) :
    (A.lt B = FVoxelBoolRange.True ↔
      ∀ a b, A.Contains a = true → B.Contains b = true → a < b) ∧
    (A.lt B = FVoxelBoolRange.False ↔
      ∀ a b, A.Contains a = true → B.Contains b = true → ¬ a < b) ∧
    (A.lt B = FVoxelBoolRange.TrueOrFalse ↔
      ¬ (∀ a b, A.Contains a = true → B.Contains b = true → a < b) ∧
      ¬ (∀ a b, A.Contains a = true → B.Contains b = true → ¬ a < b)) := by
  have hex : A.Max < B.Min → ¬ B.Max ≤ A.Min := fun h1 h2 =>
    absurd (lt_of_le_of_lt hA (lt_of_lt_of_le h1 hB)) (not_lt.mpr h2)
  have h := FVoxelBoolRange.ite_answer (A.Max < B.Min) (B.Max ≤ A.Min) hex
  have e1 := Max_lt_Min_iff A B hA hB
  have e2 : B.Max ≤ A.Min ↔ ∀ a b, A.Contains a = true → B.Contains b = true → ¬ a < b := by
    rw [Max_le_Min_iff B A hB hA, forall_swap_iff]
    simp only [not_lt]
  unfold lt
  rw [← e1, ← e2]
  exact h

theorem gt_exact (A B : TVoxelRange T) (hA : A.IsValid) (hB : B.IsValid) :
    (A.gt B = FVoxelBoolRange.True ↔
      ∀ a b, A.Contains a = true → B.Contains b = true → a > b) ∧
    (A.gt B = FVoxelBoolRange.False ↔
      ∀ a b, A.Contains a = true → B.Contains b = true → ¬ a > b) ∧
    (A.gt B = FVoxelBoolRange.TrueOrFalse ↔
      ¬ (∀ a b, A.Contains a = true → B.Contains b = true → a > b) ∧
      ¬ (∀ a b, A.Contains a = true → B.Contains b = true → ¬ a > b)) := by
  have hex : B.Max < A.Min → ¬ A.Max ≤ B.Min := fun h1 h2 =>
    absurd (lt_of_le_of_lt hB (lt_of_lt_of_le h1 hA)) (not_lt.mpr h2)
  have h := FVoxelBoolRange.ite_answer (B.Max < A.Min) (A.Max ≤ B.Min) hex
  have e1 : B.Max < A.Min ↔ ∀ a b, A.Contains a = true → B.Contains b = true → a > b := by
    rw [Max_lt_Min_iff B A hB hA, forall_swap_iff]
  have e2 : A.Max ≤ B.Min ↔ ∀ a b, A.Contains a = true → B.Contains b = true → ¬ a > b := by
    rw [Max_le_Min_iff A B hA hB]
    simp only [gt_iff_lt, not_lt]
  unfold gt
  rw [← e1, ← e2]
  exact h

end LinearOrderLemmas

end TVoxelRange

/-- Claim C6. For valid ranges `A` and `B` over a linearly ordered scalar type and each of the
four ordering operators: the answer is definite `True` exactly when the relation holds for every
`a` in `A` and `b` in `B`, definite `False` exactly when it holds for no such pair, and
`TrueOrFalse` exactly when it holds for some pair and fails for another. -/
theorem ordering_operators_exact {T : Type} [LinearOrder T] (A B : TVoxelRange T)
    (hA : A.IsValid) (hB : B.IsValid) :
    ((A.lt B = FVoxelBoolRange.True ↔
        ∀ a b, A.Contains a = true → B.Contains b = true → a < b) ∧
      (A.lt B = FVoxelBoolRange.False ↔
        ∀ a b, A.Contains a = true → B.Contains b = true → ¬ a < b) ∧
      (A.lt B = FVoxelBoolRange.TrueOrFalse ↔
        ¬ (∀ a b, A.Contains a = true → B.Contains b = true → a < b) ∧
        ¬ (∀ a b, A.Contains a = true → B.Contains b = true → ¬ a < b))) ∧
    ((A.gt B = FVoxelBoolRange.True ↔
        ∀ a b, A.Contains a = true → B.Contains b = true → a > b) ∧
      (A.gt B = FVoxelBoolRange.False ↔
        ∀ a b, A.Contains a = true → B.Contains b = true → ¬ a > b) ∧
      (A.gt B = FVoxelBoolRange.TrueOrFalse ↔
        ¬ (∀ a b, A.Contains a = true → B.Contains b = true → a > b) ∧
        ¬ (∀ a b, A.Contains a = true → B.Contains b = true → ¬ a > b))) ∧
    ((A.le B = FVoxelBoolRange.True ↔
        ∀ a b, A.Contains a = true → B.Contains b = true → a ≤ b) ∧
      (A.le B = FVoxelBoolRange.False ↔
        ∀ a b, A.Contains a = true → B.Contains b = true → ¬ a ≤ b) ∧
      (A.le B = FVoxelBoolRange.TrueOrFalse ↔
        ¬ (∀ a b, A.Contains a = true → B.Contains b = true → a ≤ b) ∧
        ¬ (∀ a b, A.Contains a = true → B.Contains b = true → ¬ a ≤ b))) ∧
    ((A.ge B = FVoxelBoolRange.True ↔
        ∀ a b, A.Contains a = true → B.Contains b = true → a ≥ b) ∧
      (A.ge B = FVoxelBoolRange.False ↔
        ∀ a b, A.Contains a = true → B.Contains b = true → ¬ a ≥ b) ∧
      (A.ge B = FVoxelBoolRange.TrueOrFalse ↔
        ¬ (∀ a b, A.Contains a = true → B.Contains b = true → a ≥ b) ∧
        ¬ (∀ a b, A.Contains a = true → B.Contains b = true → ¬ a ≥ b))) := by
  obtain ⟨l1, l2, l3⟩ := TVoxelRange.lt_exact A B hA hB
  obtain ⟨g1, g2, g3⟩ := TVoxelRange.gt_exact A B hA hB
  refine ⟨⟨l1, l2, l3⟩, ⟨g1, g2, g3⟩, ⟨?_, ?_, ?_⟩, ⟨?_, ?_, ?_⟩⟩
  · unfold TVoxelRange.le
    rw [FVoxelBoolRange.not_eq_True, g2]
    simp only [gt_iff_lt, not_lt]
  · unfold TVoxelRange.le
    rw [FVoxelBoolRange.not_eq_False, g1]
    simp only [gt_iff_lt, not_le]
  · unfold TVoxelRange.le
    rw [FVoxelBoolRange.not_eq_TrueOrFalse, g3]
    simp only [gt_iff_lt, not_lt, not_le]
    exact And.comm
  · unfold TVoxelRange.ge
    rw [FVoxelBoolRange.not_eq_True, l2]
    simp only [ge_iff_le, not_lt]
  · unfold TVoxelRange.ge
    rw [FVoxelBoolRange.not_eq_False, l1]
    simp only [ge_iff_le, not_le]
  · unfold TVoxelRange.ge
    rw [FVoxelBoolRange.not_eq_TrueOrFalse, l3]
    simp only [ge_iff_le, not_lt, not_le]
    exact And.comm


/-- Claim C6 at `A = exampleIntA = [-1, 2]`, `B = exampleIntB = [3, 4]` over the integers. -/
theorem ordering_operators_exact_witness :
    exampleIntA.IsValid ∧ exampleIntB.IsValid ∧
    (((exampleIntA.lt exampleIntB = FVoxelBoolRange.True ↔
        ∀ a b, exampleIntA.Contains a = true → exampleIntB.Contains b = true → a < b) ∧
      (exampleIntA.lt exampleIntB = FVoxelBoolRange.False ↔
        ∀ a b, exampleIntA.Contains a = true → exampleIntB.Contains b = true → ¬ a < b) ∧
      (exampleIntA.lt exampleIntB = FVoxelBoolRange.TrueOrFalse ↔
        ¬ (∀ a b, exampleIntA.Contains a = true → exampleIntB.Contains b = true → a < b) ∧
        ¬ (∀ a b, exampleIntA.Contains a = true → exampleIntB.Contains b = true → ¬ a < b))) ∧
    ((exampleIntA.gt exampleIntB = FVoxelBoolRange.True ↔
        ∀ a b, exampleIntA.Contains a = true → exampleIntB.Contains b = true → a > b) ∧
      (exampleIntA.gt exampleIntB = FVoxelBoolRange.False ↔
        ∀ a b, exampleIntA.Contains a = true → exampleIntB.Contains b = true → ¬ a > b) ∧
      (exampleIntA.gt exampleIntB = FVoxelBoolRange.TrueOrFalse ↔
        ¬ (∀ a b, exampleIntA.Contains a = true → exampleIntB.Contains b = true → a > b) ∧
        ¬ (∀ a b, exampleIntA.Contains a = true → exampleIntB.Contains b = true → ¬ a > b))) ∧
    ((exampleIntA.le exampleIntB = FVoxelBoolRange.True ↔
        ∀ a b, exampleIntA.Contains a = true → exampleIntB.Contains b = true → a ≤ b) ∧
      (exampleIntA.le exampleIntB = FVoxelBoolRange.False ↔
        ∀ a b, exampleIntA.Contains a = true → exampleIntB.Contains b = true → ¬ a ≤ b) ∧
      (exampleIntA.le exampleIntB = FVoxelBoolRange.TrueOrFalse ↔
        ¬ (∀ a b, exampleIntA.Contains a = true → exampleIntB.Contains b = true → a ≤ b) ∧
        ¬ (∀ a b, exampleIntA.Contains a = true → exampleIntB.Contains b = true → ¬ a ≤ b))) ∧
    ((exampleIntA.ge exampleIntB = FVoxelBoolRange.True ↔
        ∀ a b, exampleIntA.Contains a = true → exampleIntB.Contains b = true → a ≥ b) ∧
      (exampleIntA.ge exampleIntB = FVoxelBoolRange.False ↔
        ∀ a b, exampleIntA.Contains a = true → exampleIntB.Contains b = true → ¬ a ≥ b) ∧
      (exampleIntA.ge exampleIntB = FVoxelBoolRange.TrueOrFalse ↔
        ¬ (∀ a b, exampleIntA.Contains a = true → exampleIntB.Contains b = true → a ≥ b) ∧
        ¬ (∀ a b, exampleIntA.Contains a = true → exampleIntB.Contains b = true → ¬ a ≥ b)))) :=
  ⟨by decide, by decide, ordering_operators_exact exampleIntA exampleIntB (by decide) (by decide)⟩

namespace TVoxelRange

theorem eq_exact {T : Type} [LinearOrder T] (A B : TVoxelRange T)
    (hA : A.IsValid) (hB : B.IsValid) :
    (A.eq B = FVoxelBoolRange.False ↔ ¬ ∃ x, A.Contains x = true ∧ B.Contains x = true) ∧
    (A.eq B = FVoxelBoolRange.True ↔ A.Min = A.Max ∧ B.Min = B.Max ∧ A.Min = B.Min) ∧
    (A.eq B = FVoxelBoolRange.TrueOrFalse ↔
      (∃ x, A.Contains x = true ∧ B.Contains x = true) ∧
      ¬ (A.Min = A.Max ∧ B.Min = B.Max ∧ A.Min = B.Min)) := by
  have c1 : (A.IsSingleValue && B.IsSingleValue && A.Min == B.Min) = true ↔
      A.Min = A.Max ∧ B.Min = B.Max ∧ A.Min = B.Min := by
    simp [IsSingleValue, and_assoc]
  have c2 : (!A.Intersects B) = true ↔ ¬ ∃ x, A.Contains x = true ∧ B.Contains x = true := by
    rw [← Intersects_iff A B hA hB]
    simp
  have hex : (A.IsSingleValue && B.IsSingleValue && A.Min == B.Min) = true →
      ¬ (!A.Intersects B) = true := by
    rw [c1, c2]
    rintro ⟨-, -, h3⟩ hno
    exact hno ⟨A.Min, (Contains_iff A _).mpr ⟨le_refl _, hA⟩,
      (Contains_iff B _).mpr ⟨h3 ▸ le_refl _, h3 ▸ hB⟩⟩
  obtain ⟨t, f, e⟩ := FVoxelBoolRange.ite_answer _ _ hex
  refine ⟨f.trans c2, t.trans c1, ?_⟩
  refine (e.trans (and_congr (not_congr c1) (not_congr c2))).trans ?_
  rw [not_not]
  exact And.comm

end TVoxelRange

/-- Claim C7. For valid ranges `A` and `B` over a linearly ordered scalar type: `A == B` is
definite `False` exactly when `A` and `B` share no value, definite `True` exactly when both are
the same single value, and `TrueOrFalse` in every other case, as for a range that is not a single
value compared with itself; `A != B` is the negation of `A == B`. -/
theorem eq_operator_exact {T : Type} [LinearOrder T] (A B : TVoxelRange T)
    (hA : A.IsValid) (hB : B.IsValid) :
    (A.eq B = FVoxelBoolRange.False ↔ ¬ ∃ x, A.Contains x = true ∧ B.Contains x = true) ∧
    (A.eq B = FVoxelBoolRange.True ↔ A.Min = A.Max ∧ B.Min = B.Max ∧ A.Min = B.Min) ∧
    (A.eq B = FVoxelBoolRange.TrueOrFalse ↔
      (∃ x, A.Contains x = true ∧ B.Contains x = true) ∧
      ¬ (A.Min = A.Max ∧ B.Min = B.Max ∧ A.Min = B.Min)) ∧
    (A.Min ≠ A.Max → A.eq A = FVoxelBoolRange.TrueOrFalse) ∧
    A.ne B = (A.eq B).not ∧
    (A.ne B = FVoxelBoolRange.True ↔ ¬ ∃ x, A.Contains x = true ∧ B.Contains x = true) ∧
    (A.ne B = FVoxelBoolRange.False ↔ A.Min = A.Max ∧ B.Min = B.Max ∧ A.Min = B.Min) ∧
    (A.ne B = FVoxelBoolRange.TrueOrFalse ↔
      (∃ x, A.Contains x = true ∧ B.Contains x = true) ∧
      ¬ (A.Min = A.Max ∧ B.Min = B.Max ∧ A.Min = B.Min)) := by
  obtain ⟨hF, hT, hE⟩ := TVoxelRange.eq_exact A B hA hB
  refine ⟨hF, hT, hE, ?_, rfl, ?_, ?_, ?_⟩
  · intro hne
    refine (TVoxelRange.eq_exact A A hA hA).2.2.mpr ⟨?_, fun h => hne h.1⟩
    exact ⟨A.Min, (TVoxelRange.Contains_iff A _).mpr ⟨le_refl _, hA⟩,
      (TVoxelRange.Contains_iff A _).mpr ⟨le_refl _, hA⟩⟩
  · unfold TVoxelRange.ne
    rw [FVoxelBoolRange.not_eq_True, hF]
  · unfold TVoxelRange.ne
    rw [FVoxelBoolRange.not_eq_False, hT]
  · unfold TVoxelRange.ne
    rw [FVoxelBoolRange.not_eq_TrueOrFalse, hE]


/-- Claim C7 at `A = exampleIntA = [-1, 2]`, `B = exampleIntB = [3, 4]` over the integers. -/
theorem eq_operator_exact_witness :
    exampleIntA.IsValid ∧ exampleIntB.IsValid ∧
    ((exampleIntA.eq exampleIntB = FVoxelBoolRange.False ↔ ¬ ∃ x, exampleIntA.Contains x = true ∧ exampleIntB.Contains x = true) ∧
    (exampleIntA.eq exampleIntB = FVoxelBoolRange.True ↔ exampleIntA.Min = exampleIntA.Max ∧ exampleIntB.Min = exampleIntB.Max ∧ exampleIntA.Min = exampleIntB.Min) ∧
    (exampleIntA.eq exampleIntB = FVoxelBoolRange.TrueOrFalse ↔
      (∃ x, exampleIntA.Contains x = true ∧ exampleIntB.Contains x = true) ∧
      ¬ (exampleIntA.Min = exampleIntA.Max ∧ exampleIntB.Min = exampleIntB.Max ∧ exampleIntA.Min = exampleIntB.Min)) ∧
    (exampleIntA.Min ≠ exampleIntA.Max → exampleIntA.eq exampleIntA = FVoxelBoolRange.TrueOrFalse) ∧
    exampleIntA.ne exampleIntB = (exampleIntA.eq exampleIntB).not ∧
    (exampleIntA.ne exampleIntB = FVoxelBoolRange.True ↔ ¬ ∃ x, exampleIntA.Contains x = true ∧ exampleIntB.Contains x = true) ∧
    (exampleIntA.ne exampleIntB = FVoxelBoolRange.False ↔ exampleIntA.Min = exampleIntA.Max ∧ exampleIntB.Min = exampleIntB.Max ∧ exampleIntA.Min = exampleIntB.Min) ∧
    (exampleIntA.ne exampleIntB = FVoxelBoolRange.TrueOrFalse ↔
      (∃ x, exampleIntA.Contains x = true ∧ exampleIntB.Contains x = true) ∧
      ¬ (exampleIntA.Min = exampleIntA.Max ∧ exampleIntB.Min = exampleIntB.Max ∧ exampleIntA.Min = exampleIntB.Min))) :=
  ⟨by decide, by decide, eq_operator_exact exampleIntA exampleIntB (by decide) (by decide)⟩

/-! ## Range arithmetic over exact numbers -/

section CornerBounds

variable {K : Type} [LinearOrderedRing K]

/-- For `x` between `l` and `u`, the product `x * c` lies between the products of the ends. -/
theorem mul_right_between {l u x : K} (c : K) (hl : l ≤ x) (hu : x ≤ u) :
    min (l * c) (u * c) ≤ x * c ∧ x * c ≤ max (l * c) (u * c) := by
  rcases le_total 0 c with hc | hc
  · exact ⟨le_trans (min_le_left _ _) (mul_le_mul_of_nonneg_right hl hc),
      le_trans (mul_le_mul_of_nonneg_right hu hc) (le_max_right _ _)⟩
  · exact ⟨le_trans (min_le_right _ _) (mul_le_mul_of_nonpos_right hu hc),
      le_trans (mul_le_mul_of_nonpos_right hl hc) (le_max_left _ _)⟩

/-- For `y` between `l` and `u`, the product `c * y` lies between the products of the ends. -/
theorem mul_left_between {l u y : K} (c : K) (hl : l ≤ y) (hu : y ≤ u) :
    min (c * l) (c * u) ≤ c * y ∧ c * y ≤ max (c * l) (c * u) := by
  rcases le_total 0 c with hc | hc
  · exact ⟨le_trans (min_le_left _ _) (mul_le_mul_of_nonneg_left hl hc),
      le_trans (mul_le_mul_of_nonneg_left hu hc) (le_max_right _ _)⟩
  · exact ⟨le_trans (min_le_right _ _) (mul_le_mul_of_nonpos_left hu hc),
      le_trans (mul_le_mul_of_nonpos_left hl hc) (le_max_left _ _)⟩

/-- The product of a value of `[l, u]` and a value of `[l2, u2]` lies between the least and the
greatest of the four corner products. -/
theorem mul_corner_bounds {l u l2 u2 x y : K} (hl : l ≤ x) (hu : x ≤ u) (hl2 : l2 ≤ y)
    (hu2 : y ≤ u2) :
    min (min (l * l2) (l * u2)) (min (u * l2) (u * u2)) ≤ x * y ∧
    x * y ≤ max (max (l * l2) (l * u2)) (max (u * l2) (u * u2)) := by
  obtain ⟨h1, h2⟩ := mul_right_between y hl hu
  obtain ⟨h3, h4⟩ := mul_left_between l hl2 hu2
  obtain ⟨h5, h6⟩ := mul_left_between u hl2 hu2
  exact ⟨le_trans (min_le_min h3 h5) h1, le_trans h2 (max_le_max h4 h6)⟩

end CornerBounds

namespace TVoxelRange

/-- The range `FromList` of four values over a linear order: the least and the greatest of the four. -/
theorem FromList_four {T : Type} [LinearOrder T] (p q r s : T) :
    FromList p [q, r, s] = { Min := min (min p q) (min r s), Max := max (max p q) (max r s) } := by
  simp only [FromList, FVoxelUtilities.VariadicMin, FVoxelUtilities.VariadicMax,
    FMath.Min_eq_min, FMath.Max_eq_max, min_assoc, max_assoc]

/-- The range `FromList` of two values over a linear order. -/
theorem FromList_two {T : Type} [LinearOrder T] (p q : T) :
    FromList p [q] = { Min := min p q, Max := max p q } := by
  simp only [FromList, FVoxelUtilities.VariadicMin, FVoxelUtilities.VariadicMax,
    FMath.Min_eq_min, FMath.Max_eq_max]

end TVoxelRange

/-- Claim C2. Over exact arithmetic (a linearly ordered ring, as the integers, the rationals or the
reals), for ranges `A` and `B` (valid, as each contains a value), `a` in `A` and `b` in `B`:
`A + B` is
`[A.Min + B.Min, A.Max + B.Max]` and contains `a + b`; `A - B` is `[A.Min - B.Max, A.Max - B.Min]`
and contains `a - b`; `A * B` is the least and the greatest of the four corner products and
contains `a * b`. -/
theorem add_sub_mul_contain {K : Type} [LinearOrderedRing K] (A B : TVoxelRange K) (a b : K)
    (ha : A.Contains a = true) (hb : B.Contains b = true) :
    (A.add B = { Min := A.Min + B.Min, Max := A.Max + B.Max } ∧
      (A.add B).Contains (a + b) = true) ∧
    (A.sub B = { Min := A.Min - B.Max, Max := A.Max - B.Min } ∧
      (A.sub B).Contains (a - b) = true) ∧
    (A.mul B =
        { Min := min (min (A.Min * B.Min) (A.Min * B.Max)) (min (A.Max * B.Min) (A.Max * B.Max)),
          Max := max (max (A.Min * B.Min) (A.Min * B.Max)) (max (A.Max * B.Min) (A.Max * B.Max)) } ∧
      (A.mul B).Contains (a * b) = true) := by
  rw [TVoxelRange.Contains_iff] at ha hb
  obtain ⟨ha1, ha2⟩ := ha
  obtain ⟨hb1, hb2⟩ := hb
  refine ⟨⟨rfl, ?_⟩, ⟨rfl, ?_⟩, ⟨TVoxelRange.FromList_four _ _ _ _, ?_⟩⟩
  · rw [TVoxelRange.Contains_iff]
    exact ⟨add_le_add ha1 hb1, add_le_add ha2 hb2⟩
  · rw [TVoxelRange.Contains_iff]
    exact ⟨sub_le_sub ha1 hb2, sub_le_sub ha2 hb1⟩
  · rw [TVoxelRange.Contains_iff, TVoxelRange.mul, TVoxelRange.FromList_four]
    exact mul_corner_bounds ha1 ha2 hb1 hb2

/-- Claim C2 at `A = exampleIntA = [-1, 2]`, `B = exampleIntB = [3, 4]`, `a = -1`, `b = 4` over the integers. -/
theorem add_sub_mul_contain_witness :
    exampleIntA.Contains (-1) = true ∧ exampleIntB.Contains 4 = true ∧
    ((exampleIntA.add exampleIntB = { Min := exampleIntA.Min + exampleIntB.Min, Max := exampleIntA.Max + exampleIntB.Max } ∧
      (exampleIntA.add exampleIntB).Contains ((-1 : ℤ) + (4 : ℤ)) = true) ∧
    (exampleIntA.sub exampleIntB = { Min := exampleIntA.Min - exampleIntB.Max, Max := exampleIntA.Max - exampleIntB.Min } ∧
      (exampleIntA.sub exampleIntB).Contains ((-1 : ℤ) - (4 : ℤ)) = true) ∧
    (exampleIntA.mul exampleIntB =
        { Min := min (min (exampleIntA.Min * exampleIntB.Min) (exampleIntA.Min * exampleIntB.Max)) (min (exampleIntA.Max * exampleIntB.Min) (exampleIntA.Max * exampleIntB.Max)),
          Max := max (max (exampleIntA.Min * exampleIntB.Min) (exampleIntA.Min * exampleIntB.Max)) (max (exampleIntA.Max * exampleIntB.Min) (exampleIntA.Max * exampleIntB.Max)) } ∧
      (exampleIntA.mul exampleIntB).Contains ((-1 : ℤ) * (4 : ℤ)) = true)) :=
  ⟨by decide, by decide, add_sub_mul_contain exampleIntA exampleIntB (-1) 4 (by decide) (by decide)⟩


/-! ## Order and division on `v_flt` -/

namespace v_flt

theorem number_of_le_left {a b : v_flt} (h : a ≤ b) : a.IsNumber = true := by
  cases a <;> simp_all [IsNumber]

theorem number_of_le_right {a b : v_flt} (h : a ≤ b) : b.IsNumber = true := by
  cases b <;> simp_all [IsNumber]

theorem le_refl_of_number {a : v_flt} (h : a.IsNumber = true) : a ≤ a := by
  cases a <;> simp_all [IsNumber]

theorem le_trans' {a b c : v_flt} (h1 : a ≤ b) (h2 : b ≤ c) : a ≤ c := by
  cases a <;> cases b <;> cases c <;> simp_all
  exact le_trans h1 h2

theorem le_total' {a b : v_flt} (ha : a.IsNumber = true) (hb : b.IsNumber = true) :
    a ≤ b ∨ b ≤ a := by
  cases a <;> cases b <;> simp_all [IsNumber]
  exact le_total _ _

theorem Min_le_left {a b : v_flt} (ha : a.IsNumber = true) (hb : b.IsNumber = true) :
    FMath.Min a b ≤ a := by
  unfold FMath.Min
  split
  · exact le_refl_of_number ha
  · exact (le_total' ha hb).resolve_left ‹_›

theorem Min_le_right {a b : v_flt} (hb : b.IsNumber = true) : FMath.Min a b ≤ b := by
  unfold FMath.Min
  split
  · assumption
  · exact le_refl_of_number hb

theorem le_Max_left {a b : v_flt} (ha : a.IsNumber = true) (hb : b.IsNumber = true) :
    a ≤ FMath.Max a b := by
  unfold FMath.Max
  split
  · exact le_refl_of_number ha
  · exact (le_total' hb ha).resolve_left ‹_›

theorem le_Max_right {a b : v_flt} (hb : b.IsNumber = true) : b ≤ FMath.Max a b := by
  unfold FMath.Max
  split
  · assumption
  · exact le_refl_of_number hb

theorem Min_number {a b : v_flt} (ha : a.IsNumber = true) (hb : b.IsNumber = true) :
    (FMath.Min a b).IsNumber = true := by
  unfold FMath.Min
  split <;> assumption

theorem Max_number {a b : v_flt} (ha : a.IsNumber = true) (hb : b.IsNumber = true) :
    (FMath.Max a b).IsNumber = true := by
  unfold FMath.Max
  split <;> assumption

/-- The minimum of a list of numbers is a number of the list, below every number of the list. -/
theorem VariadicMin_spec (v : v_flt) (vs : List v_flt) (h : ∀ w ∈ v :: vs, w.IsNumber = true) :
    FVoxelUtilities.VariadicMin v vs ∈ v :: vs ∧
    ∀ w ∈ v :: vs, FVoxelUtilities.VariadicMin v vs ≤ w := by
  induction vs generalizing v with
  | nil =>
    simp only [FVoxelUtilities.VariadicMin, List.mem_singleton, forall_eq, true_and]
    exact le_refl_of_number (h v (List.mem_singleton.mpr rfl))
  | cons u us ih =>
    have hv : v.IsNumber = true := h v (List.mem_cons_self _ _)
    have hrest : ∀ w ∈ u :: us, w.IsNumber = true := fun w hw => h w (List.mem_cons_of_mem _ hw)
    obtain ⟨hmem, hle⟩ := ih u hrest
    have hm : (FVoxelUtilities.VariadicMin u us).IsNumber = true := hrest _ hmem
    simp only [FVoxelUtilities.VariadicMin]
    refine ⟨?_, ?_⟩
    · unfold FMath.Min
      split
      · exact List.mem_cons_self _ _
      · exact List.mem_cons_of_mem _ hmem
    · intro w hw
      rcases List.mem_cons.mp hw with rfl | hw
      · exact Min_le_left hv hm
      · exact le_trans' (Min_le_right hm) (hle w hw)

/-- The maximum of a list of numbers is a number of the list, above every number of the list. -/
theorem VariadicMax_spec (v : v_flt) (vs : List v_flt) (h : ∀ w ∈ v :: vs, w.IsNumber = true) :
    FVoxelUtilities.VariadicMax v vs ∈ v :: vs ∧
    ∀ w ∈ v :: vs, w ≤ FVoxelUtilities.VariadicMax v vs := by
  induction vs generalizing v with
  | nil =>
    simp only [FVoxelUtilities.VariadicMax, List.mem_singleton, forall_eq, true_and]
    exact le_refl_of_number (h v (List.mem_singleton.mpr rfl))
  | cons u us ih =>
    have hv : v.IsNumber = true := h v (List.mem_cons_self _ _)
    have hrest : ∀ w ∈ u :: us, w.IsNumber = true := fun w hw => h w (List.mem_cons_of_mem _ hw)
    obtain ⟨hmem, hle⟩ := ih u hrest
    have hm : (FVoxelUtilities.VariadicMax u us).IsNumber = true := hrest _ hmem
    simp only [FVoxelUtilities.VariadicMax]
    refine ⟨?_, ?_⟩
    · unfold FMath.Max
      split
      · exact List.mem_cons_self _ _
      · exact List.mem_cons_of_mem _ hmem
    · intro w hw
      rcases List.mem_cons.mp hw with rfl | hw
      · exact le_Max_left hv hm
      · exact le_trans' (hle w hw) (le_Max_right hm)

/-- A number divided by a finite value other than zero is a number. -/
theorem div_fin_number {a : v_flt} {r : ℚ} (ha : a.IsNumber = true) (hr : r ≠ 0) :
    (a / fin r).IsNumber = true := by
  cases a with
  | nan => simp [IsNumber] at ha
  | ninf => by_cases h : r < 0 <;> simp [h, IsNumber]
  | fin q => simp [hr, IsNumber]
  | pinf => by_cases h : r < 0 <;> simp [h, IsNumber]

/-- Division by a positive finite value is monotone. -/
theorem div_fin_mono {a b : v_flt} {r : ℚ} (h : a ≤ b) (hr : 0 < r) : a / fin r ≤ b / fin r := by
  have hr0 : r ≠ 0 := ne_of_gt hr
  have hr1 : ¬ r < 0 := not_lt.mpr (le_of_lt hr)
  cases a <;> cases b <;> simp [hr0, hr1] at h ⊢
  exact div_le_div_of_nonneg_right h (le_of_lt hr)

/-- Division by a negative finite value is antitone. -/
theorem div_fin_anti {a b : v_flt} {r : ℚ} (h : a ≤ b) (hr : r < 0) : b / fin r ≤ a / fin r := by
  have hr0 : r ≠ 0 := ne_of_lt hr
  cases a <;> cases b <;> simp [hr0, hr] at h ⊢
  exact div_le_div_of_nonpos_of_le (le_of_lt hr) h

/-- For rationals: a divisor `r` between `p` and `q`, all positive, gives a quotient `s / r`
between `s / p` and `s / q`, in one order or the other. -/
theorem rat_div_between_pos {s p q r : ℚ} (hp : 0 < p) (hpr : p ≤ r) (hrq : r ≤ q) :
    (s / p ≤ s / r ∨ s / q ≤ s / r) ∧ (s / r ≤ s / p ∨ s / r ≤ s / q) := by
  have hr : 0 < r := lt_of_lt_of_le hp hpr
  rcases le_total 0 s with hs | hs
  · exact ⟨Or.inr (div_le_div_of_nonneg_left hs hr hrq),
      Or.inl (div_le_div_of_nonneg_left hs hp hpr)⟩
  · have h1 := div_le_div_of_nonneg_left (neg_nonneg.mpr hs) hp hpr
    have h2 := div_le_div_of_nonneg_left (neg_nonneg.mpr hs) hr hrq
    rw [neg_div, neg_div, neg_le_neg_iff] at h1 h2
    exact ⟨Or.inl h1, Or.inr h2⟩

/-- The same for a divisor between `p` and `q`, all negative. -/
theorem rat_div_between_neg {s p q r : ℚ} (hq : q < 0) (hpr : p ≤ r) (hrq : r ≤ q) :
    (s / p ≤ s / r ∨ s / q ≤ s / r) ∧ (s / r ≤ s / p ∨ s / r ≤ s / q) := by
  have h := rat_div_between_pos (s := -s) (p := -q) (q := -p) (r := -r) (neg_pos.mpr hq)
    (neg_le_neg hrq) (neg_le_neg hpr)
  simp only [neg_div_neg_eq] at h
  exact ⟨h.1.symm, h.2.symm⟩

/-- For a number `c` and a finite divisor `r` between `p` and `q`, a range without zero, the
quotient `c / r` lies between `c / p` and `c / q`, in one order or the other. -/
theorem div_between {c : v_flt} {p q r : ℚ} (hc : c.IsNumber = true) (h0 : 0 < p ∨ q < 0)
    (hpr : p ≤ r) (hrq : r ≤ q) :
    (c / fin p ≤ c / fin r ∨ c / fin q ≤ c / fin r) ∧
    (c / fin r ≤ c / fin p ∨ c / fin r ≤ c / fin q) := by
  rcases h0 with hp | hq
  · have hr : 0 < r := lt_of_lt_of_le hp hpr
    have hq : 0 < q := lt_of_lt_of_le hr hrq
    have np : ¬ p < 0 := not_lt.mpr (le_of_lt hp)
    have nr : ¬ r < 0 := not_lt.mpr (le_of_lt hr)
    have nq : ¬ q < 0 := not_lt.mpr (le_of_lt hq)
    cases c with
    | nan => simp [IsNumber] at hc
    | ninf => simp [np, nr, nq]
    | pinf => simp [np, nr, nq]
    | fin s =>
      simp only [fin_div_fin, ne_of_gt hp, ne_of_gt hr, ne_of_gt hq, if_false, fin_le_fin]
      exact rat_div_between_pos hp hpr hrq
  · have hr : r < 0 := lt_of_le_of_lt hrq hq
    have hp : p < 0 := lt_of_le_of_lt hpr hr
    cases c with
    | nan => simp [IsNumber] at hc
    | ninf => simp [hp, hr, hq]
    | pinf => simp [hp, hr, hq]
    | fin s =>
      simp only [fin_div_fin, ne_of_lt hp, ne_of_lt hr, ne_of_lt hq, if_false, fin_le_fin]
      exact rat_div_between_neg hq hpr hrq

end v_flt


/-! ## Division of float ranges -/

namespace TVoxelRange

/-- A valid float range that does not contain zero and has no infinite bound has two finite
bounds, both positive or both negative. -/
theorem finite_nonzero_bounds (B : TVoxelRange v_flt) (hB : B.IsValid)
    (h0 : B.Contains 0 = false) (hfin : B.IsInfinity = false) :
    ∃ p q : ℚ, B = { Min := v_flt.fin p, Max := v_flt.fin q } ∧ p ≤ q ∧ (0 < p ∨ q < 0) := by
  obtain ⟨bp, bq⟩ := B
  have h0' : ¬ (bp ≤ 0 ∧ 0 ≤ bq) := by
    intro h
    have := (Contains_iff (⟨bp, bq⟩ : TVoxelRange v_flt) 0).mpr h
    rw [h0] at this
    exact Bool.false_ne_true this
  cases bp <;> cases bq <;>
    simp [IsValid, IsInfinity, IsNegativeInfinity, IsPositiveInfinity] at hB hfin h0'
  rename_i p q
  refine ⟨p, q, rfl, hB, ?_⟩
  by_cases hp : 0 < p
  · exact Or.inl hp
  · exact Or.inr (h0' (not_lt.mp hp))

/-- The branch of `operator/` taken for a finite divisor range without zero: the four corner
quotients, the fail status untouched. -/
theorem div_finite_nonzero (A : TVoxelRange v_flt) (p q : ℚ) (Status : FVoxelRangeFailStatus)
    (h0 : 0 < p ∨ q < 0) (hpq : p ≤ q) :
    A.div { Min := v_flt.fin p, Max := v_flt.fin q } Status =
      (FromList (A.Min / v_flt.fin p)
        [A.Min / v_flt.fin q, A.Max / v_flt.fin p, A.Max / v_flt.fin q], Status) := by
  have hz : ¬ (p = q ∧ p = 0) := by
    rintro ⟨rfl, rfl⟩
    rcases h0 with h | h <;> exact lt_irrefl _ h
  have hc : ¬ (p ≤ 0 ∧ 0 ≤ q) := by
    rintro ⟨h1, h2⟩
    rcases h0 with h | h
    · exact absurd h (not_lt.mpr h1)
    · exact absurd h (not_lt.mpr h2)
  simp only [div, IsSingleValue, GetSingleValue, Contains, IsInfinity, IsNegativeInfinity,
    IsPositiveInfinity, v_flt.zero_def, v_flt.posInf_def, v_flt.negInf_def, v_flt.isInteger_def,
    v_flt.fin_beq_fin, v_flt.fin_beq_ninf, v_flt.fin_beq_pinf, v_flt.fin_le_fin, Bool.and_eq_true,
    decide_eq_true_eq, Bool.or_self, Bool.not_eq_true', Bool.false_eq_true, if_false]
  rw [if_neg hz]
  have hcb : (decide (p ≤ 0) && decide (0 ≤ q)) = false := by
    simpa using fun h1 => lt_of_not_ge (fun h2 => hc ⟨h1, h2⟩)
  simp [hcb]

end TVoxelRange

/-- Claim C3. For a valid dividend range `A` and a valid divisor range `B` that does not contain
zero and has finite bounds, over `v_flt`: `A / B` is made of the four corner quotients
`A.Min / B.Min`, `A.Min / B.Max`, `A.Max / B.Min`, `A.Max / B.Max`, its `Min` the least of them
and its `Max` the greatest, the fail status is not touched, and `A / B` contains `a / b` for every
`a` in `A` and `b` in `B`. -/
theorem div_corner_quotients (A B : TVoxelRange v_flt) (Status : FVoxelRangeFailStatus)
    (a b : v_flt) (hA : A.IsValid) (hB : B.IsValid) (h0 : B.Contains 0 = false)
    (hfin : B.IsInfinity = false) (ha : A.Contains a = true) (hb : B.Contains b = true) :
    A.div B Status =
      (TVoxelRange.FromList (A.Min / B.Min) [A.Min / B.Max, A.Max / B.Min, A.Max / B.Max],
        Status) ∧
    ((A.div B Status).1.Min ∈ [A.Min / B.Min, A.Min / B.Max, A.Max / B.Min, A.Max / B.Max] ∧
      ∀ c ∈ [A.Min / B.Min, A.Min / B.Max, A.Max / B.Min, A.Max / B.Max],
        (A.div B Status).1.Min ≤ c) ∧
    ((A.div B Status).1.Max ∈ [A.Min / B.Min, A.Min / B.Max, A.Max / B.Min, A.Max / B.Max] ∧
      ∀ c ∈ [A.Min / B.Min, A.Min / B.Max, A.Max / B.Min, A.Max / B.Max],
        c ≤ (A.div B Status).1.Max) ∧
    (A.div B Status).1.Contains (a / b) = true := by
  obtain ⟨p, q, rfl, hpq, hsign⟩ := TVoxelRange.finite_nonzero_bounds B hB h0 hfin
  have hdiv := TVoxelRange.div_finite_nonzero A p q Status hsign hpq
  rw [TVoxelRange.Contains_iff] at ha hb
  obtain ⟨ha1, ha2⟩ := ha
  obtain ⟨hb1, hb2⟩ := hb
  have hp0 : p ≠ 0 := by
    rintro rfl
    rcases hsign with h | h
    · exact lt_irrefl _ h
    · exact absurd (lt_of_le_of_lt hpq h) (lt_irrefl _)
  have hq0 : q ≠ 0 := by
    rintro rfl
    rcases hsign with h | h
    · exact absurd (lt_of_lt_of_le h hpq) (lt_irrefl _)
    · exact lt_irrefl _ h
  have hmin : A.Min.IsNumber = true := v_flt.number_of_le_left hA
  have hmax : A.Max.IsNumber = true := v_flt.number_of_le_right hA
  have hnum : ∀ w ∈ [A.Min / v_flt.fin p, A.Min / v_flt.fin q, A.Max / v_flt.fin p,
      A.Max / v_flt.fin q], w.IsNumber = true := by
    intro w hw
    simp only [List.mem_cons, List.mem_singleton, List.not_mem_nil, or_false] at hw
    rcases hw with rfl | rfl | rfl | rfl
    · exact v_flt.div_fin_number hmin hp0
    · exact v_flt.div_fin_number hmin hq0
    · exact v_flt.div_fin_number hmax hp0
    · exact v_flt.div_fin_number hmax hq0
  obtain ⟨hminmem, hminle⟩ := v_flt.VariadicMin_spec _ _ hnum
  obtain ⟨hmaxmem, hmaxle⟩ := v_flt.VariadicMax_spec _ _ hnum
  rw [hdiv]
  refine ⟨rfl, ⟨hminmem, hminle⟩, ⟨hmaxmem, hmaxle⟩, ?_⟩
  -- the divisor is a finite value between `p` and `q`
  obtain ⟨r, rfl⟩ : ∃ r, b = v_flt.fin r := by
    cases b <;> simp at hb1 hb2
    exact ⟨_, rfl⟩
  rw [v_flt.fin_le_fin] at hb1 hb2
  obtain ⟨lo1, hi1⟩ := v_flt.div_between hmin hsign hb1 hb2
  obtain ⟨lo2, hi2⟩ := v_flt.div_between hmax hsign hb1 hb2
  rw [TVoxelRange.Contains_iff]
  simp only [TVoxelRange.FromList]
  rcases hsign with hp | hq
  · have hr : 0 < r := lt_of_lt_of_le hp hb1
    have hlow := v_flt.div_fin_mono ha1 hr
    have hupp := v_flt.div_fin_mono ha2 hr
    constructor
    · rcases lo1 with h | h
      · exact v_flt.le_trans' (hminle _ (by simp)) (v_flt.le_trans' h hlow)
      · exact v_flt.le_trans' (hminle _ (by simp)) (v_flt.le_trans' h hlow)
    · rcases hi2 with h | h
      · exact v_flt.le_trans' hupp (v_flt.le_trans' h (hmaxle _ (by simp)))
      · exact v_flt.le_trans' hupp (v_flt.le_trans' h (hmaxle _ (by simp)))
  · have hr : r < 0 := lt_of_le_of_lt hb2 hq
    have hlow := v_flt.div_fin_anti ha2 hr
    have hupp := v_flt.div_fin_anti ha1 hr
    constructor
    · rcases lo2 with h | h
      · exact v_flt.le_trans' (hminle _ (by simp)) (v_flt.le_trans' h hlow)
      · exact v_flt.le_trans' (hminle _ (by simp)) (v_flt.le_trans' h hlow)
    · rcases hi1 with h | h
      · exact v_flt.le_trans' hupp (v_flt.le_trans' h (hmaxle _ (by simp)))
      · exact v_flt.le_trans' hupp (v_flt.le_trans' h (hmaxle _ (by simp)))

/-- Claim C3 at `A = exampleFltA = [-2, 3]`, `B = exampleFltB = [2, 4]`, `a = 1`, `b = 2` and the
initial fail status. -/
theorem div_corner_quotients_witness :
    exampleFltA.IsValid ∧ exampleFltB.IsValid ∧ exampleFltB.Contains 0 = false ∧
    exampleFltB.IsInfinity = false ∧ exampleFltA.Contains (v_flt.fin 1) = true ∧
    exampleFltB.Contains (v_flt.fin 2) = true ∧
    (exampleFltA.div exampleFltB {} =
      (TVoxelRange.FromList (exampleFltA.Min / exampleFltB.Min) [exampleFltA.Min / exampleFltB.Max, exampleFltA.Max / exampleFltB.Min, exampleFltA.Max / exampleFltB.Max],
        {}) ∧
    ((exampleFltA.div exampleFltB {}).1.Min ∈ [exampleFltA.Min / exampleFltB.Min, exampleFltA.Min / exampleFltB.Max, exampleFltA.Max / exampleFltB.Min, exampleFltA.Max / exampleFltB.Max] ∧
      ∀ c ∈ [exampleFltA.Min / exampleFltB.Min, exampleFltA.Min / exampleFltB.Max, exampleFltA.Max / exampleFltB.Min, exampleFltA.Max / exampleFltB.Max],
        (exampleFltA.div exampleFltB {}).1.Min ≤ c) ∧
    ((exampleFltA.div exampleFltB {}).1.Max ∈ [exampleFltA.Min / exampleFltB.Min, exampleFltA.Min / exampleFltB.Max, exampleFltA.Max / exampleFltB.Min, exampleFltA.Max / exampleFltB.Max] ∧
      ∀ c ∈ [exampleFltA.Min / exampleFltB.Min, exampleFltA.Min / exampleFltB.Max, exampleFltA.Max / exampleFltB.Min, exampleFltA.Max / exampleFltB.Max],
        c ≤ (exampleFltA.div exampleFltB {}).1.Max) ∧
    (exampleFltA.div exampleFltB {}).1.Contains ((v_flt.fin 1) / (v_flt.fin 2)) = true) :=
  ⟨by decide, by decide, by decide, by decide, by decide, by decide,
    div_corner_quotients exampleFltA exampleFltB {} (v_flt.fin 1) (v_flt.fin 2)
      (by decide) (by decide) (by decide) (by decide) (by decide) (by decide)⟩


namespace TVoxelRange

/-- The three outcomes of `ExtendToInfinity` on a valid float range. -/
theorem ExtendToInfinity_cases (A : TVoxelRange v_flt) (hA : A.IsValid) :
    A.ExtendToInfinity = { Min := v_flt.ninf, Max := v_flt.pinf } ∨
    (A.ExtendToInfinity = { Min := v_flt.ninf, Max := v_flt.fin 0 } ∧ A.Max ≤ 0) ∨
    (A.ExtendToInfinity = { Min := v_flt.fin 0, Max := v_flt.pinf } ∧ 0 ≤ A.Min) := by
  obtain ⟨x, y⟩ := A
  cases x <;> cases y <;> simp [IsValid] at hA <;> simp [ExtendToInfinity]
  · rename_i q
    by_cases h : 0 < q
    · simp [h]
    · simp [h, not_lt.mp h]
  · rename_i p q
    by_cases h1 : p < 0
    · by_cases h2 : 0 < q
      · simp [h1, h2]
      · simp [h1, h2, not_lt.mp h2]
    · simp [h1, not_lt.mp h1]
  · rename_i p
    by_cases h1 : p < 0
    · simp [h1]
    · simp [h1, not_lt.mp h1]

end TVoxelRange


namespace TVoxelRange

/-- A valid float divisor range that contains zero and is not the single value zero either has
values of both signs, or starts at zero and has sign `1`, or ends at zero and has sign `-1`. -/
theorem zero_divisor_cases (B : TVoxelRange v_flt) (hB : B.IsValid) (h0 : B.Contains 0 = true)
    (hnz : B ≠ ofValue 0) :
    (B.Min < 0 ∧ 0 < B.Max ∧ B.IsSingleSign = false) ∨
    (B.Min = 0 ∧ 0 < B.Max ∧ B.IsSingleSign = true ∧ B.GetSign = 1) ∨
    (B.Max = 0 ∧ B.Min < 0 ∧ B.IsSingleSign = true ∧ B.GetSign = -1) := by
  obtain ⟨x, y⟩ := B
  rw [Contains_iff] at h0
  obtain ⟨h1, h2⟩ := h0
  cases x <;> cases y <;> simp [IsValid, ofValue] at hB h1 h2 hnz <;>
    simp [IsSingleSign, GetSign, FMath.Sign]
  · rename_i q
    rcases lt_or_eq_of_le h2 with h | h
    · simp [h, ne_of_gt h, h2]
    · simp [← h]
  · rename_i p q
    rcases lt_or_eq_of_le h1 with hp | hp
    · rcases lt_or_eq_of_le h2 with hq | hq
      · simp [hp, hq, ne_of_lt hp, ne_of_gt hq, h2]
      · simp [hp, ← hq, ne_of_lt hp, not_lt.mpr h1]
    · subst hp
      have hq : 0 < q := lt_of_le_of_ne h2 (fun h => hnz rfl h.symm)
      simp [hq]
  · rename_i p
    rcases lt_or_eq_of_le h1 with hp | hp
    · simp [hp, ne_of_lt hp]
    · simp [hp]

/-- The branch of `operator/` taken for a divisor range that contains zero and is not the single
value zero. -/
theorem div_zero_divisor (A B : TVoxelRange v_flt) (Status : FVoxelRangeFailStatus)
    (h0 : B.Contains 0 = true) (hnz : B ≠ ofValue 0) :
    A.div B Status =
      if B.IsSingleSign = true then
        (FromList (A.ExtendToInfinity.Min / B.GetSign) [A.ExtendToInfinity.Max / B.GetSign],
          Status)
      else (Infinite, Status) := by
  have hz : (B.IsSingleValue && B.GetSingleValue == 0) = false := by
    obtain ⟨x, y⟩ := B
    cases x <;> cases y <;> simp [IsSingleValue, GetSingleValue, ofValue] at hnz ⊢
    intro h
    exact fun h2 => hnz h2 (h ▸ h2)
  simp only [div, hz, h0, Bool.false_eq_true, if_false, Bool.not_true]

end TVoxelRange


namespace v_flt

theorem ninf_le_of_number {x : v_flt} (h : x.IsNumber = true) : ninf ≤ x := by
  cases x <;> simp_all [IsNumber]

theorem le_pinf_of_number {x : v_flt} (h : x.IsNumber = true) : x ≤ pinf := by
  cases x <;> simp_all [IsNumber]

theorem pos_of_nonneg_of_ne_zero {b : v_flt} (h : 0 ≤ b) (hb : (b == 0) = false) : 0 < b := by
  cases b <;> simp_all
  exact lt_of_le_of_ne h (fun h2 => hb h2.symm)

theorem neg_of_nonpos_of_ne_zero {b : v_flt} (h : b ≤ 0) (hb : (b == 0) = false) : b < 0 := by
  cases b <;> simp_all
  exact lt_of_le_of_ne h hb

/-- The sign of a quotient by a positive divisor, one of the two operands finite. -/
theorem div_sign_of_pos {a b : v_flt} (ha : a.IsNumber = true) (hb : 0 < b)
    (hfin : a.IsFinite = true ∨ b.IsFinite = true) :
    (a / b).IsNumber = true ∧ (a ≤ 0 → a / b ≤ 0) ∧ (0 ≤ a → 0 ≤ a / b) := by
  cases b with
  | nan => simp at hb
  | ninf => simp at hb
  | pinf => cases a <;> simp [IsNumber, IsFinite] at ha hfin ⊢
  | fin r =>
    have hr : 0 < r := by simpa using hb
    have hr0 : r ≠ 0 := ne_of_gt hr
    have hrn : ¬ r < 0 := not_lt.mpr (le_of_lt hr)
    cases a with
    | nan => simp [IsNumber] at ha
    | ninf => simp [IsNumber, hrn]
    | pinf => simp [IsNumber, hrn]
    | fin s =>
      simp only [fin_div_fin, hr0, if_false, IsNumber, zero_def, fin_le_fin, true_and]
      exact ⟨fun h => div_nonpos_of_nonpos_of_nonneg h (le_of_lt hr),
        fun h => div_nonneg h (le_of_lt hr)⟩

/-- The sign of a quotient by a negative divisor, one of the two operands finite. -/
theorem div_sign_of_neg {a b : v_flt} (ha : a.IsNumber = true) (hb : b < 0)
    (hfin : a.IsFinite = true ∨ b.IsFinite = true) :
    (a / b).IsNumber = true ∧ (a ≤ 0 → 0 ≤ a / b) ∧ (0 ≤ a → a / b ≤ 0) := by
  cases b with
  | nan => simp at hb
  | pinf => simp at hb
  | ninf => cases a <;> simp [IsNumber, IsFinite] at ha hfin ⊢
  | fin r =>
    have hr : r < 0 := by simpa using hb
    have hr0 : r ≠ 0 := ne_of_lt hr
    cases a with
    | nan => simp [IsNumber] at ha
    | ninf => simp [IsNumber, hr]
    | pinf => simp [IsNumber, hr]
    | fin s =>
      simp only [fin_div_fin, hr0, if_false, IsNumber, zero_def, fin_le_fin, true_and]
      exact ⟨fun h => div_nonneg_of_nonpos h (le_of_lt hr),
        fun h => div_nonpos_of_nonneg_of_nonpos h (le_of_lt hr)⟩

end v_flt

namespace TVoxelRange

/-- The range `ExtendToInfinity(A)` divided by the sign `1` contains every number that has the sign of a
value of `A`. -/
theorem extend_div_one_contains (A : TVoxelRange v_flt) (a x : v_flt) (hA : A.IsValid)
    (ha : A.Contains a = true) (hx : x.IsNumber = true) (h1 : a ≤ 0 → x ≤ 0)
    (h2 : 0 ≤ a → 0 ≤ x) :
    (FromList (A.ExtendToInfinity.Min / 1) [A.ExtendToInfinity.Max / 1]).Contains x = true := by
  rw [Contains_iff] at ha ⊢
  rcases ExtendToInfinity_cases A hA with h | ⟨h, hm⟩ | ⟨h, hm⟩ <;> rw [h]
  · simpa [FromList, FVoxelUtilities.VariadicMin, FVoxelUtilities.VariadicMax, FMath.Min,
      FMath.Max] using ⟨v_flt.ninf_le_of_number hx, v_flt.le_pinf_of_number hx⟩
  · simpa [FromList, FVoxelUtilities.VariadicMin, FVoxelUtilities.VariadicMax, FMath.Min,
      FMath.Max] using ⟨v_flt.ninf_le_of_number hx, h1 (v_flt.le_trans' ha.2 hm)⟩
  · simpa [FromList, FVoxelUtilities.VariadicMin, FVoxelUtilities.VariadicMax, FMath.Min,
      FMath.Max] using ⟨h2 (v_flt.le_trans' hm ha.1), v_flt.le_pinf_of_number hx⟩

/-- The range `ExtendToInfinity(A)` divided by the sign `-1` contains every number that has the opposite
sign of a value of `A`. -/
theorem extend_div_neg_one_contains (A : TVoxelRange v_flt) (a x : v_flt) (hA : A.IsValid)
    (ha : A.Contains a = true) (hx : x.IsNumber = true) (h1 : a ≤ 0 → 0 ≤ x)
    (h2 : 0 ≤ a → x ≤ 0) :
    (FromList (A.ExtendToInfinity.Min / -1) [A.ExtendToInfinity.Max / -1]).Contains x = true := by
  rw [Contains_iff] at ha ⊢
  rcases ExtendToInfinity_cases A hA with h | ⟨h, hm⟩ | ⟨h, hm⟩ <;> rw [h]
  · simpa [FromList, FVoxelUtilities.VariadicMin, FVoxelUtilities.VariadicMax, FMath.Min,
      FMath.Max] using ⟨v_flt.ninf_le_of_number hx, v_flt.le_pinf_of_number hx⟩
  · simpa [FromList, FVoxelUtilities.VariadicMin, FVoxelUtilities.VariadicMax, FMath.Min,
      FMath.Max] using ⟨h1 (v_flt.le_trans' ha.2 hm), v_flt.le_pinf_of_number hx⟩
  · simpa [FromList, FVoxelUtilities.VariadicMin, FVoxelUtilities.VariadicMax, FMath.Min,
      FMath.Max] using ⟨v_flt.ninf_le_of_number hx, h2 (v_flt.le_trans' hm ha.1)⟩

end TVoxelRange

/-- Claim C4, amended. For a valid dividend range `A` and a valid divisor range `B` that contains
zero but is not the single value zero, over `v_flt`: if `B` has values of both signs, `A / B` is
`Infinite()`; otherwise one bound of `B` is zero, `B` is single-signed with sign `1` or `-1`, and
`A / B` is `ExtendToInfinity(A)` divided by that sign; the fail status is not touched. For `a` in
`A` and a non-zero `b` in `B` the result contains `a / b` exactly if `a` or `b` is finite: an
infinity over an infinity is not a number and lies in no range. -/
theorem div_divisor_with_zero (A B : TVoxelRange v_flt) (Status : FVoxelRangeFailStatus)
    (hA : A.IsValid) (hB : B.IsValid) (h0 : B.Contains 0 = true)
    (hnz : B ≠ TVoxelRange.ofValue 0) :
    (B.Min < 0 ∧ 0 < B.Max → A.div B Status = (TVoxelRange.Infinite, Status)) ∧
    (¬ (B.Min < 0 ∧ 0 < B.Max) →
      (B.Min = 0 ∨ B.Max = 0) ∧ B.IsSingleSign = true ∧ (B.GetSign = 1 ∨ B.GetSign = -1) ∧
      A.div B Status = (A.ExtendToInfinity.divScalar B.GetSign, Status)) ∧
    (∀ a b : v_flt, A.Contains a = true → B.Contains b = true → (b == 0) = false →
      ((A.div B Status).1.Contains (a / b) = true ↔
        (a.IsFinite = true ∨ b.IsFinite = true))) := by
  have hold : (B.Min < 0 ∧ 0 < B.Max → A.div B Status = (TVoxelRange.Infinite, Status)) ∧
      (¬ (B.Min < 0 ∧ 0 < B.Max) →
        (B.Min = 0 ∨ B.Max = 0) ∧ B.IsSingleSign = true ∧ (B.GetSign = 1 ∨ B.GetSign = -1) ∧
        A.div B Status = (A.ExtendToInfinity.divScalar B.GetSign, Status)) ∧
      (∀ a b : v_flt, A.Contains a = true → B.Contains b = true → (b == 0) = false →
        (a.IsFinite = true ∨ b.IsFinite = true) →
        (A.div B Status).1.Contains (a / b) = true) := by
    have hdiv := TVoxelRange.div_zero_divisor A B Status h0 hnz
    rcases TVoxelRange.zero_divisor_cases B hB h0 hnz with
      ⟨hmin, hmax, hs⟩ | ⟨hmin, hmax, hs, hsign⟩ | ⟨hmax, hmin, hs, hsign⟩
    · rw [hs] at hdiv
      refine ⟨fun _ => hdiv, fun h => absurd ⟨hmin, hmax⟩ h, ?_⟩
      intro a b ha hb hb0 hfin
      rw [hdiv, TVoxelRange.Contains_iff] at *
      have hanum : a.IsNumber = true := v_flt.number_of_le_left ha.2
      have hnum : (a / b).IsNumber = true := by
        rcases v_flt.le_total' (a := 0) (b := b) rfl (v_flt.number_of_le_left hb.2) with h | h
        · exact (v_flt.div_sign_of_pos hanum (v_flt.pos_of_nonneg_of_ne_zero h hb0) hfin).1
        · exact (v_flt.div_sign_of_neg hanum (v_flt.neg_of_nonpos_of_ne_zero h hb0) hfin).1
      exact ⟨v_flt.ninf_le_of_number hnum, v_flt.le_pinf_of_number hnum⟩
    · rw [hs, if_pos rfl] at hdiv
      refine ⟨fun h => ?_, fun _ => ⟨Or.inl hmin, hs, Or.inl hsign, hdiv⟩, ?_⟩
      · have h1 := h.1
        rw [hmin] at h1
        simp at h1
      · intro a b ha hb hb0 hfin
        rw [hdiv, hsign]
        have hbpos : 0 < b := by
          rw [TVoxelRange.Contains_iff, hmin] at hb
          exact v_flt.pos_of_nonneg_of_ne_zero hb.1 hb0
        have hanum : a.IsNumber = true :=
          v_flt.number_of_le_left ((TVoxelRange.Contains_iff A a).mp ha).2
        obtain ⟨hn, s1, s2⟩ := v_flt.div_sign_of_pos hanum hbpos hfin
        exact TVoxelRange.extend_div_one_contains A a _ hA ha hn s1 s2
    · rw [hs, if_pos rfl] at hdiv
      refine ⟨fun h => ?_, fun _ => ⟨Or.inr hmax, hs, Or.inr hsign, hdiv⟩, ?_⟩
      · have h2 := h.2
        rw [hmax] at h2
        simp at h2
      · intro a b ha hb hb0 hfin
        rw [hdiv, hsign]
        have hbneg : b < 0 := by
          rw [TVoxelRange.Contains_iff, hmax] at hb
          exact v_flt.neg_of_nonpos_of_ne_zero hb.2 hb0
        have hanum : a.IsNumber = true :=
          v_flt.number_of_le_left ((TVoxelRange.Contains_iff A a).mp ha).2
        obtain ⟨hn, s1, s2⟩ := v_flt.div_sign_of_neg hanum hbneg hfin
        exact TVoxelRange.extend_div_neg_one_contains A a _ hA ha hn s1 s2
  refine ⟨hold.1, hold.2.1, ?_⟩
  intro a b ha hb hb0
  refine ⟨?_, hold.2.2 a b ha hb hb0⟩
  intro hc
  by_contra hfin
  have hanum : a.IsNumber = true :=
    v_flt.number_of_le_left ((TVoxelRange.Contains_iff A a).mp ha).2
  have hbnum : b.IsNumber = true :=
    v_flt.number_of_le_left ((TVoxelRange.Contains_iff B b).mp hb).2
  have hnan : a / b = v_flt.nan := by
    cases a <;> cases b <;> simp_all [v_flt.IsFinite, v_flt.IsNumber]
  rw [hnan, TVoxelRange.Contains_iff] at hc
  exact v_flt.not_le_nan _ hc.1

/-- Claim C4 as stated fails for an infinite `a` and an infinite `b`: `A = [1, +inf]` and
`B = [0, +inf]` are valid, `B` contains zero and is not the single value zero, `+inf` lies in
both and is not zero, but `+inf / +inf` is not a number and the quotient `A / B` does not
contain it. -/
theorem div_infinity_by_infinity_not_contained :
    ({ Min := v_flt.fin 1, Max := v_flt.pinf } : TVoxelRange v_flt).IsValid ∧
    ({ Min := v_flt.fin 0, Max := v_flt.pinf } : TVoxelRange v_flt).IsValid ∧
    ({ Min := v_flt.fin 0, Max := v_flt.pinf } : TVoxelRange v_flt).Contains 0 = true ∧
    ({ Min := v_flt.fin 0, Max := v_flt.pinf } : TVoxelRange v_flt) ≠ TVoxelRange.ofValue 0 ∧
    ({ Min := v_flt.fin 1, Max := v_flt.pinf } : TVoxelRange v_flt).Contains v_flt.pinf = true ∧
    ({ Min := v_flt.fin 0, Max := v_flt.pinf } : TVoxelRange v_flt).Contains v_flt.pinf = true ∧
    (v_flt.pinf == 0) = false ∧
    v_flt.pinf / v_flt.pinf = v_flt.nan ∧
    (({ Min := v_flt.fin 1, Max := v_flt.pinf } : TVoxelRange v_flt).div
      { Min := v_flt.fin 0, Max := v_flt.pinf } {}).1.Contains (v_flt.pinf / v_flt.pinf) =
      false := by
  decide

/-- Claim C4 at `A = exampleFltC = [-2, 2]`, `B = exampleFltD = [-1, 1]` and the initial fail
status. -/
theorem div_divisor_with_zero_witness :
    (exampleFltC.IsValid) ∧
    (exampleFltD.IsValid) ∧
    (exampleFltD.Contains 0 = true) ∧
    (exampleFltD ≠ TVoxelRange.ofValue 0) ∧
    ((exampleFltD.Min < 0 ∧ 0 < exampleFltD.Max → exampleFltC.div exampleFltD {} = (TVoxelRange.Infinite, {})) ∧
    (¬ (exampleFltD.Min < 0 ∧ 0 < exampleFltD.Max) →
      (exampleFltD.Min = 0 ∨ exampleFltD.Max = 0) ∧ exampleFltD.IsSingleSign = true ∧ (exampleFltD.GetSign = 1 ∨ exampleFltD.GetSign = -1) ∧
      exampleFltC.div exampleFltD {} = (exampleFltC.ExtendToInfinity.divScalar exampleFltD.GetSign, {})) ∧
    (∀ a b : v_flt, exampleFltC.Contains a = true → exampleFltD.Contains b = true → (b == 0) = false →
      ((exampleFltC.div exampleFltD {}).1.Contains (a / b) = true ↔
        (a.IsFinite = true ∨ b.IsFinite = true)))) :=
  ⟨by decide, by decide, by decide, by decide,
    div_divisor_with_zero exampleFltC exampleFltD {} (by decide) (by decide) (by decide) (by decide)⟩

/-! ## Division by the single value zero -/

namespace v_flt

theorem not_lt_of_le' {a b : v_flt} (h : a ≤ b) : ¬ b < a := by
  cases a <;> cases b <;> simp_all

theorem beq_eq_true_iff {a b : v_flt} : (a == b) = true ↔ a = b ∧ a.IsNumber = true := by
  cases a <;> cases b <;> simp [IsNumber]

theorem lt_trans_le {a b c : v_flt} (h1 : a ≤ b) (h2 : b < c) : a < c := by
  cases a <;> cases b <;> cases c <;> simp_all
  exact lt_of_le_of_lt h1 h2

theorem ne_of_lt' {a b : v_flt} (h : a < b) : (a == b) = false ∧ (b == a) = false := by
  cases a <;> cases b <;> simp_all
  exact ⟨ne_of_lt h, ne_of_gt h⟩

theorem le_of_lt' {a b : v_flt} (h : a < b) : a ≤ b := by
  cases a <;> cases b <;> simp_all
  exact le_of_lt h

end v_flt

namespace TVoxelRange

/-- The branch of `operator/` taken for the divisor `TVoxelRange(0)`, over `v_flt`. -/
theorem div_ofValue_zero (A : TVoxelRange v_flt) (Status : FVoxelRangeFailStatus) :
    A.div (ofValue 0) Status =
      if (A.Min == A.Max && A.Min == 0) = true then (Infinite, Status.Warning divWarning)
      else if 0 < A.Min then (ofValue v_flt.pinf, Status)
      else if A.Max < 0 then (ofValue v_flt.ninf, Status)
      else (Infinite, Status) := by
  simp [div, ofValue, IsSingleValue, GetSingleValue]

end TVoxelRange

/-- Claim C5, amended. Dividing by the single-value range zero: for `int32` ranges the result is
the single value `0` and the fail status is not touched. For `v_flt` ranges and a valid `A`: if
`A` is the single value zero, the result is `Infinite()` and the status is passed through
`Warning`, which records the warning when the status has neither failed nor a warning yet and
leaves a failed status as it is; if `A` lies strictly above zero the result is the single value
`+infinity`, so its `Max` is `+infinity` and it contains no negative value; if `A` lies strictly
below zero it is the single value `-infinity`; otherwise the result is `Infinite()`; in these
three cases the status is not touched. -/
theorem div_by_zero_range (I : TVoxelRange ℤ) (A : TVoxelRange v_flt)
    (Status : FVoxelRangeFailStatus) (hA : A.IsValid) :
    I.div (TVoxelRange.ofValue 0) Status = (TVoxelRange.ofValue 0, Status) ∧
    (A = TVoxelRange.ofValue 0 →
      A.div (TVoxelRange.ofValue 0) Status =
        (TVoxelRange.Infinite, Status.Warning TVoxelRange.divWarning) ∧
      (Status.HasFailed = false → Status.HasWarning = false →
        Status.Warning TVoxelRange.divWarning =
          { bHasFailed := false, bHasWarning := true,
            Message := some "0 / 0 encountered, will result in a nan" }) ∧
      (Status.HasFailed = false → (Status.Warning TVoxelRange.divWarning).HasWarning = true) ∧
      (Status.HasFailed = true → Status.Warning TVoxelRange.divWarning = Status)) ∧
    (0 < A.Min →
      A.div (TVoxelRange.ofValue 0) Status = (TVoxelRange.ofValue v_flt.pinf, Status) ∧
      (A.div (TVoxelRange.ofValue 0) Status).1.Max = v_flt.pinf ∧
      ∀ x, (A.div (TVoxelRange.ofValue 0) Status).1.Contains x = true → ¬ x < 0) ∧
    (A.Max < 0 →
      A.div (TVoxelRange.ofValue 0) Status = (TVoxelRange.ofValue v_flt.ninf, Status) ∧
      (A.div (TVoxelRange.ofValue 0) Status).1.Min = v_flt.ninf ∧
      ∀ x, (A.div (TVoxelRange.ofValue 0) Status).1.Contains x = true → ¬ 0 < x) ∧
    (A ≠ TVoxelRange.ofValue 0 → A.Min ≤ 0 → 0 ≤ A.Max →
      A.div (TVoxelRange.ofValue 0) Status = (TVoxelRange.Infinite, Status)) := by
  refine ⟨?_, ?_, ?_, ?_, ?_⟩
  · simp [TVoxelRange.div, TVoxelRange.ofValue, TVoxelRange.IsSingleValue,
      TVoxelRange.GetSingleValue, VoxelScalar.bIsInteger]
  · intro h
    refine ⟨?_, ?_, ?_, ?_⟩
    · rw [TVoxelRange.div_ofValue_zero, h]
      simp [TVoxelRange.ofValue]
    · intro h1 h2
      obtain ⟨f, w, m⟩ := Status
      simp only [FVoxelRangeFailStatus.HasFailed, FVoxelRangeFailStatus.HasWarning] at h1 h2
      subst h1 h2
      rfl
    · intro h1
      obtain ⟨f, w, m⟩ := Status
      simp only [FVoxelRangeFailStatus.HasFailed] at h1
      subst h1
      cases w <;> rfl
    · intro h1
      obtain ⟨f, w, m⟩ := Status
      simp only [FVoxelRangeFailStatus.HasFailed] at h1
      subst h1
      rfl
  · intro h
    have hd : A.div (TVoxelRange.ofValue 0) Status = (TVoxelRange.ofValue v_flt.pinf, Status) := by
      rw [TVoxelRange.div_ofValue_zero, if_pos h, if_neg]
      rw [Bool.and_eq_true, (v_flt.ne_of_lt' h).2]
      simp
    rw [hd]
    refine ⟨rfl, rfl, ?_⟩
    intro v hv
    rw [TVoxelRange.Contains_iff] at hv
    cases v <;> simp [TVoxelRange.ofValue] at hv ⊢
  · intro h
    have hmin : A.Min < 0 := v_flt.lt_trans_le hA h
    have hd : A.div (TVoxelRange.ofValue 0) Status = (TVoxelRange.ofValue v_flt.ninf, Status) := by
      rw [TVoxelRange.div_ofValue_zero, if_neg, if_neg, if_pos h]
      · exact v_flt.not_lt_of_le' (v_flt.le_of_lt' hmin)
      · rw [Bool.and_eq_true, (v_flt.ne_of_lt' hmin).1]
        simp
    rw [hd]
    refine ⟨rfl, rfl, ?_⟩
    intro v hv
    rw [TVoxelRange.Contains_iff] at hv
    cases v <;> simp [TVoxelRange.ofValue] at hv ⊢
  · intro hne h1 h2
    rw [TVoxelRange.div_ofValue_zero, if_neg, if_neg (v_flt.not_lt_of_le' h1),
      if_neg (v_flt.not_lt_of_le' h2)]
    intro hc
    simp only [Bool.and_eq_true, v_flt.beq_eq_true_iff] at hc
    obtain ⟨⟨e1, -⟩, e2, -⟩ := hc
    apply hne
    obtain ⟨x, y⟩ := A
    simp only at e1 e2
    subst e1
    subst e2
    rfl

/-- Claim C5 at the `int32` range `exampleIntA`, the float range `A = exampleFltC = [-2, 2]` and
a fail status on which a failure has been recorded. -/
theorem div_by_zero_range_witness :
    exampleFltC.IsValid ∧
    (exampleIntA.div (TVoxelRange.ofValue 0) exampleFailedStatus = (TVoxelRange.ofValue 0, exampleFailedStatus) ∧
    (exampleFltC = TVoxelRange.ofValue 0 →
      exampleFltC.div (TVoxelRange.ofValue 0) exampleFailedStatus =
        (TVoxelRange.Infinite, exampleFailedStatus.Warning TVoxelRange.divWarning) ∧
      (exampleFailedStatus.HasFailed = false → exampleFailedStatus.HasWarning = false →
        exampleFailedStatus.Warning TVoxelRange.divWarning =
          { bHasFailed := false, bHasWarning := true,
            Message := some "0 / 0 encountered, will result in a nan" }) ∧
      (exampleFailedStatus.HasFailed = false → (exampleFailedStatus.Warning TVoxelRange.divWarning).HasWarning = true) ∧
      (exampleFailedStatus.HasFailed = true → exampleFailedStatus.Warning TVoxelRange.divWarning = exampleFailedStatus)) ∧
    (0 < exampleFltC.Min →
      exampleFltC.div (TVoxelRange.ofValue 0) exampleFailedStatus = (TVoxelRange.ofValue v_flt.pinf, exampleFailedStatus) ∧
      (exampleFltC.div (TVoxelRange.ofValue 0) exampleFailedStatus).1.Max = v_flt.pinf ∧
      ∀ x, (exampleFltC.div (TVoxelRange.ofValue 0) exampleFailedStatus).1.Contains x = true → ¬ x < 0) ∧
    (exampleFltC.Max < 0 →
      exampleFltC.div (TVoxelRange.ofValue 0) exampleFailedStatus = (TVoxelRange.ofValue v_flt.ninf, exampleFailedStatus) ∧
      (exampleFltC.div (TVoxelRange.ofValue 0) exampleFailedStatus).1.Min = v_flt.ninf ∧
      ∀ x, (exampleFltC.div (TVoxelRange.ofValue 0) exampleFailedStatus).1.Contains x = true → ¬ 0 < x) ∧
    (exampleFltC ≠ TVoxelRange.ofValue 0 → exampleFltC.Min ≤ 0 → 0 ≤ exampleFltC.Max →
      exampleFltC.div (TVoxelRange.ofValue 0) exampleFailedStatus = (TVoxelRange.Infinite, exampleFailedStatus))) :=
  ⟨by decide, div_by_zero_range exampleIntA exampleFltC exampleFailedStatus (by decide)⟩

/-- Claim C5 as stated fails on a fail status on which a failure has been recorded: dividing the
single value zero by the single value zero then records no warning, the status is left as it
was. -/
theorem div_zero_by_zero_on_failed_status :
    ((TVoxelRange.ofValue 0 : TVoxelRange v_flt).div (TVoxelRange.ofValue 0)
        exampleFailedStatus).2.HasWarning = false ∧
    ((TVoxelRange.ofValue 0 : TVoxelRange v_flt).div (TVoxelRange.ofValue 0)
        exampleFailedStatus).2 = exampleFailedStatus := by
  decide

/-! ## The invariant `Min <= Max` -/

namespace v_flt

theorem neg_le_neg' {a b : v_flt} (h : a ≤ b) : -b ≤ -a := by
  cases a <;> cases b <;> simp_all

theorem number_of_finite {a : v_flt} (h : a.IsFinite = true) : a.IsNumber = true := by
  cases a <;> simp_all [IsNumber, IsFinite]

end v_flt

namespace TVoxelRange

/-- The range `FromList` of numbers is a valid range. -/
theorem FromList_valid (v : v_flt) (vs : List v_flt) (h : ∀ w ∈ v :: vs, w.IsNumber = true) :
    (FromList v vs).IsValid :=
  v_flt.le_trans' ((v_flt.VariadicMin_spec v vs h).2 v (List.mem_cons_self _ _))
    ((v_flt.VariadicMax_spec v vs h).2 v (List.mem_cons_self _ _))

/-- The bounds of `ExtendToInfinity(A)` are numbers. -/
theorem ExtendToInfinity_numbers (A : TVoxelRange v_flt) (hA : A.IsValid) :
    A.ExtendToInfinity.Min.IsNumber = true ∧ A.ExtendToInfinity.Max.IsNumber = true := by
  rcases ExtendToInfinity_cases A hA with h | ⟨h, -⟩ | ⟨h, -⟩ <;> rw [h] <;> exact ⟨rfl, rfl⟩

/-- The sign of a valid infinite range that does not contain zero is `1` or `-1`. -/
theorem GetSign_of_infinite (B : TVoxelRange v_flt) (hB : B.IsValid) (h0 : B.Contains 0 = false)
    (hinf : B.IsInfinity = true) : B.GetSign = v_flt.fin 1 ∨ B.GetSign = v_flt.fin (-1) := by
  obtain ⟨x, y⟩ := B
  have h0' : ¬ (x ≤ 0 ∧ 0 ≤ y) := by
    intro h
    have := (Contains_iff (⟨x, y⟩ : TVoxelRange v_flt) 0).mpr h
    rw [h0] at this
    exact Bool.false_ne_true this
  cases x <;> cases y <;>
    simp [IsValid, IsInfinity, IsNegativeInfinity, IsPositiveInfinity] at hB hinf h0' <;>
    simp [GetSign, FMath.Sign]
  rename_i p
  simp [h0', ne_of_gt h0']

theorem Infinite_valid : (Infinite : TVoxelRange v_flt).IsValid := by decide

theorem ofValue_pinf_valid : (ofValue v_flt.pinf).IsValid := by decide

theorem ofValue_ninf_valid : (ofValue v_flt.ninf).IsValid := by decide

/-- The range `operator/` returns is valid, for valid float operands. -/
theorem div_valid (A B : TVoxelRange v_flt) (Status : FVoxelRangeFailStatus) (hA : A.IsValid)
    (hB : B.IsValid) : (A.div B Status).1.IsValid := by
  have hInf := ExtendToInfinity_numbers A hA
  have hsignValid : ∀ s : v_flt, s = v_flt.fin 1 ∨ s = v_flt.fin (-1) →
      (FromList (A.ExtendToInfinity.Min / s) [A.ExtendToInfinity.Max / s]).IsValid := by
    intro s hs
    apply FromList_valid
    intro w hw
    simp only [List.mem_cons, List.mem_singleton, List.not_mem_nil, or_false] at hw
    rcases hs with rfl | rfl <;> rcases hw with rfl | rfl
    · exact v_flt.div_fin_number hInf.1 (by norm_num)
    · exact v_flt.div_fin_number hInf.2 (by norm_num)
    · exact v_flt.div_fin_number hInf.1 (by norm_num)
    · exact v_flt.div_fin_number hInf.2 (by norm_num)
  by_cases hz : B = ofValue 0
  · rw [hz, div_ofValue_zero]
    split
    · exact Infinite_valid
    · split
      · exact ofValue_pinf_valid
      · split
        · exact ofValue_ninf_valid
        · exact Infinite_valid
  · cases h0 : B.Contains 0
    · cases hinf : B.IsInfinity
      · obtain ⟨p, q, rfl, hpq, hsign⟩ := finite_nonzero_bounds B hB h0 hinf
        rw [div_finite_nonzero A p q Status hsign hpq]
        have hp0 : p ≠ 0 := by
          rintro rfl
          rcases hsign with h | h
          · exact lt_irrefl _ h
          · exact absurd (lt_of_le_of_lt hpq h) (lt_irrefl _)
        have hq0 : q ≠ 0 := by
          rintro rfl
          rcases hsign with h | h
          · exact absurd (lt_of_lt_of_le h hpq) (lt_irrefl _)
          · exact lt_irrefl _ h
        apply FromList_valid
        intro w hw
        simp only [List.mem_cons, List.mem_singleton, List.not_mem_nil, or_false] at hw
        rcases hw with rfl | rfl | rfl | rfl
        · exact v_flt.div_fin_number (v_flt.number_of_le_left hA) hp0
        · exact v_flt.div_fin_number (v_flt.number_of_le_left hA) hq0
        · exact v_flt.div_fin_number (v_flt.number_of_le_right hA) hp0
        · exact v_flt.div_fin_number (v_flt.number_of_le_right hA) hq0
      · have hd : A.div B Status =
            (FromList (A.ExtendToInfinity.Min / B.GetSign) [A.ExtendToInfinity.Max / B.GetSign],
              Status) := by
          have hz2 : (B.IsSingleValue && B.GetSingleValue == 0) = false := by
            cases hc : (B.IsSingleValue && B.GetSingleValue == 0)
            · rfl
            · exfalso
              simp only [Bool.and_eq_true, IsSingleValue, GetSingleValue,
                v_flt.beq_eq_true_iff] at hc
              obtain ⟨x, y⟩ := B
              obtain ⟨⟨e1, -⟩, e2, -⟩ := hc
              simp only at e1 e2
              subst e1
              subst e2
              exact hz rfl
          simp only [div, hz2, h0, hinf, Bool.false_eq_true, if_false, Bool.not_false, if_true]
        rw [hd]
        exact hsignValid _ (GetSign_of_infinite B hB h0 hinf)
    · rw [div_zero_divisor A B Status h0 hz]
      rcases zero_divisor_cases B hB h0 hz with ⟨-, -, hs⟩ | ⟨-, -, hs, hsign⟩ | ⟨-, -, hs, hsign⟩
      · rw [hs]
        exact Infinite_valid
      · rw [hs, if_pos rfl]
        exact hsignValid _ (Or.inl hsign)
      · rw [hs, if_pos rfl]
        exact hsignValid _ (Or.inr hsign)

end TVoxelRange

/-- Where `Min <= Max` is kept. Over `v_flt`, for valid ranges `A` and `B` (`Min <= Max`):
`Union`, `Intersection` (also for disjoint operands), `ExtendToInfinity`, the unary minus and
the range `/` return a valid range, whatever the bounds; `FromList` of numbers returns a valid range; the
range `+`, `-`, `*` and the scalar `*` return a valid range when all bounds and the scalar are
finite; the scalar `/` returns a valid range when the scalar is finite and not zero. -/
theorem operations_keep_min_le_max (A B : TVoxelRange v_flt) (Status : FVoxelRangeFailStatus)
    (c v : v_flt) (vs : List v_flt) (hA : A.IsValid) (hB : B.IsValid) :
    (TVoxelRange.Union A B).IsValid ∧
    (TVoxelRange.Intersection A B).IsValid ∧
    A.ExtendToInfinity.IsValid ∧
    A.neg.IsValid ∧
    (A.div B Status).1.IsValid ∧
    ((∀ w ∈ v :: vs, w.IsNumber = true) → (TVoxelRange.FromList v vs).IsValid) ∧
    (A.Min.IsFinite = true → A.Max.IsFinite = true → B.Min.IsFinite = true →
      B.Max.IsFinite = true → (A.add B).IsValid ∧ (A.sub B).IsValid ∧ (A.mul B).IsValid) ∧
    (A.Min.IsFinite = true → A.Max.IsFinite = true → c.IsFinite = true →
      (A.mulScalar c).IsValid) ∧
    (c.IsFinite = true → (c == 0) = false → (A.divScalar c).IsValid) := by
  have hmin : A.Min.IsNumber = true := v_flt.number_of_le_left hA
  have hmax : A.Max.IsNumber = true := v_flt.number_of_le_right hA
  have hbmin : B.Min.IsNumber = true := v_flt.number_of_le_left hB
  have hbmax : B.Max.IsNumber = true := v_flt.number_of_le_right hB
  have hU : (TVoxelRange.Union A B).IsValid :=
    v_flt.le_trans' (v_flt.Min_le_left hmin hbmin) (v_flt.le_trans' hA (v_flt.le_Max_left hmax hbmax))
  refine ⟨hU, ?_, ?_, v_flt.neg_le_neg' hA, TVoxelRange.div_valid A B Status hA hB,
    TVoxelRange.FromList_valid v vs, ?_, ?_, ?_⟩
  · unfold TVoxelRange.Intersection
    simp only
    split
    · assumption
    · exact hU
  · rcases TVoxelRange.ExtendToInfinity_cases A hA with h | ⟨h, -⟩ | ⟨h, -⟩ <;> rw [h] <;> decide
  · intro h1 h2 h3 h4
    obtain ⟨x, y⟩ := A
    obtain ⟨z, w⟩ := B
    cases x <;> simp [v_flt.IsFinite] at h1
    cases y <;> simp [v_flt.IsFinite] at h2
    cases z <;> simp [v_flt.IsFinite] at h3
    cases w <;> simp [v_flt.IsFinite] at h4
    simp only [TVoxelRange.IsValid, v_flt.fin_le_fin] at hA hB
    refine ⟨?_, ?_, ?_⟩
    · simpa [TVoxelRange.IsValid, TVoxelRange.add] using add_le_add hA hB
    · simpa [TVoxelRange.IsValid, TVoxelRange.sub, v_flt.sub_def, sub_eq_add_neg] using
        add_le_add hA (neg_le_neg hB)
    · apply TVoxelRange.FromList_valid
      intro u hu
      simp only [List.mem_cons, List.mem_singleton, List.not_mem_nil, or_false] at hu
      rcases hu with rfl | rfl | rfl | rfl <;> rfl
  · intro h1 h2 h3
    obtain ⟨x, y⟩ := A
    cases x <;> simp [v_flt.IsFinite] at h1
    cases y <;> simp [v_flt.IsFinite] at h2
    cases c <;> simp [v_flt.IsFinite] at h3
    apply TVoxelRange.FromList_valid _ [_]
    intro u hu
    simp only [List.mem_cons, List.mem_singleton, List.not_mem_nil, or_false] at hu
    rcases hu with rfl | rfl <;> rfl
  · intro h1 h2
    cases c <;> simp [v_flt.IsFinite] at h1
    rename_i r
    have hr : r ≠ 0 := by simpa using h2
    apply TVoxelRange.FromList_valid _ [_]
    intro u hu
    simp only [List.mem_cons, List.mem_singleton, List.not_mem_nil, or_false] at hu
    rcases hu with rfl | rfl
    · exact v_flt.div_fin_number hmin hr
    · exact v_flt.div_fin_number hmax hr

/-- The operations at `A = exampleFltA = [-2, 3]`, `B = exampleFltB = [2, 4]`, the scalar `2`,
the list `1, 0` and the initial fail status. -/
theorem operations_keep_min_le_max_witness :
    exampleFltA.IsValid ∧ exampleFltB.IsValid ∧
    ((TVoxelRange.Union exampleFltA exampleFltB).IsValid ∧
    (TVoxelRange.Intersection exampleFltA exampleFltB).IsValid ∧
    exampleFltA.ExtendToInfinity.IsValid ∧
    exampleFltA.neg.IsValid ∧
    (exampleFltA.div exampleFltB {}).1.IsValid ∧
    ((∀ w ∈ (v_flt.fin 1) :: [v_flt.fin 0], w.IsNumber = true) → (TVoxelRange.FromList (v_flt.fin 1) [v_flt.fin 0]).IsValid) ∧
    (exampleFltA.Min.IsFinite = true → exampleFltA.Max.IsFinite = true → exampleFltB.Min.IsFinite = true →
      exampleFltB.Max.IsFinite = true → (exampleFltA.add exampleFltB).IsValid ∧ (exampleFltA.sub exampleFltB).IsValid ∧ (exampleFltA.mul exampleFltB).IsValid) ∧
    (exampleFltA.Min.IsFinite = true → exampleFltA.Max.IsFinite = true → (v_flt.fin 2).IsFinite = true →
      (exampleFltA.mulScalar (v_flt.fin 2)).IsValid) ∧
    ((v_flt.fin 2).IsFinite = true → ((v_flt.fin 2) == 0) = false → (exampleFltA.divScalar (v_flt.fin 2)).IsValid)) :=
  ⟨by decide, by decide,
    operations_keep_min_le_max exampleFltA exampleFltB {} (v_flt.fin 2) (v_flt.fin 1) [v_flt.fin 0]
      (by decide) (by decide)⟩

/-- Claim C9 fails in the code where a bound or a quotient is not a number. The scalar `/` by
zero of the single value zero has the bounds `0 / 0`; and `Infinite()` plus the single value
`+infinity` (what `Range(1) / Range(0)` returns), two valid ranges, has `Min = -inf + +inf`.
Neither result satisfies `Min <= Max`, which is the condition `IsValid` of the `ensure` in the
two-argument constructor that both operators return through: the code fails its own check. -/
theorem scalar_div_zero_and_infinite_sum_not_valid :
    (TVoxelRange.ofValue 0 : TVoxelRange v_flt).IsValid ∧
    ((TVoxelRange.ofValue 0 : TVoxelRange v_flt).divScalar 0) =
      { Min := v_flt.nan, Max := v_flt.nan } ∧
    ¬ ((TVoxelRange.ofValue 0 : TVoxelRange v_flt).divScalar 0).IsValid ∧
    (TVoxelRange.Infinite : TVoxelRange v_flt).IsValid ∧
    (TVoxelRange.ofValue v_flt.pinf).IsValid ∧
    ((TVoxelRange.ofValue 1 : TVoxelRange v_flt).div (TVoxelRange.ofValue 0) {}).1 =
      TVoxelRange.ofValue v_flt.pinf ∧
    ((TVoxelRange.Infinite : TVoxelRange v_flt).add (TVoxelRange.ofValue v_flt.pinf)).Min =
      v_flt.nan ∧
    ¬ ((TVoxelRange.Infinite : TVoxelRange v_flt).add (TVoxelRange.ofValue v_flt.pinf)).IsValid := by
  decide

/-! ## The range of the transformable world generator helper -/

namespace v_flt

theorem Max_le {a b c : v_flt} (h1 : a ≤ c) (h2 : b ≤ c) : FMath.Max a b ≤ c := by
  unfold FMath.Max
  split <;> assumption

theorem le_Min {a b c : v_flt} (h1 : c ≤ a) (h2 : c ≤ b) : c ≤ FMath.Min a b := by
  unfold FMath.Min
  split <;> assumption

/-- The function `FMath::Max` is monotone in both arguments. -/
theorem Max_mono {a b c d : v_flt} (h1 : a ≤ b) (h2 : c ≤ d) : FMath.Max a c ≤ FMath.Max b d :=
  Max_le (le_trans' h1 (le_Max_left (number_of_le_right h1) (number_of_le_right h2)))
    (le_trans' h2 (le_Max_right (number_of_le_right h2)))

/-- The function `FMath::Min` is monotone in both arguments. -/
theorem Min_mono {a b c d : v_flt} (h1 : a ≤ b) (h2 : c ≤ d) : FMath.Min a c ≤ FMath.Min b d :=
  le_Min (le_trans' (Min_le_left (number_of_le_left h1) (number_of_le_left h2)) h1)
    (le_trans' (Min_le_right (number_of_le_left h2)) h2)

end v_flt

namespace TVoxelTransformableWorldGeneratorHelper

/-- The range `GetNextRange` returns has numbers as bounds, and contains the next value when the
stack is not empty and the range of the next stack contains the next value. -/
theorem GetNextRange_spec {Box : Type} (This : TVoxelTransformableWorldGeneratorHelper Box)
    (WorldBounds : Box) (LOD : Int) (Items : FVoxelItemStack Box) (n : v_flt)
    (hNext : Items.IsEmpty = false → (Items.NextValueRange WorldBounds LOD).Contains n = true) :
    (This.GetNextRange WorldBounds LOD Items).Min.IsNumber = true ∧
    (This.GetNextRange WorldBounds LOD Items).Max.IsNumber = true ∧
    (Items.IsEmpty = false → (This.GetNextRange WorldBounds LOD Items).Contains n = true) := by
  unfold GetNextRange
  cases hE : Items.IsEmpty
  · have hn := (TVoxelRange.Contains_iff _ _).mp (hNext hE)
    cases hV : Items.NextIsValid WorldBounds
    · simp only [Bool.false_eq_true, if_false]
      refine ⟨rfl, rfl, fun _ => ?_⟩
      rw [TVoxelRange.Contains_iff]
      exact ⟨v_flt.ninf_le_of_number (v_flt.number_of_le_right hn.1),
        v_flt.le_pinf_of_number (v_flt.number_of_le_right hn.1)⟩
    · simp only [Bool.false_eq_true, if_false, if_true]
      exact ⟨v_flt.number_of_le_left hn.1, v_flt.number_of_le_right hn.2, fun _ => hNext hE⟩
  · simp only [if_true]
    cases This.bSubtractiveAsset <;> exact ⟨rfl, rfl, fun h => absurd h (by simp)⟩

end TVoxelTransformableWorldGeneratorHelper

/-- Claim C1, amended. For the helper with the identity transform, subtractive or additive, the
item stack empty or not: let the range of the wrapped generator over the bounds contain every
value the wrapped generator returns inside the bounds and, for a stack that is not empty, let the
range of the next stack contain the values of the next stack. Then at every point of the bounds:
where the helper merges (the stack is not empty and the own value is not extremal), the range of
`GetValueRangeImpl` contains the value of `GetValueImpl`; where the helper returns the own value
unmerged (empty stack, or extremal own value), the range contains it exactly when the own value is
at least the `Min` of the next range for a subtractive helper (`-1` for an empty stack), at most
the `Max` of the next range for an additive one (`1` for an empty stack). -/
theorem helper_range_contains_value {Box V : Type}
    (This : TVoxelTransformableWorldGeneratorHelper Box) (Ops : FVoxelValueOps V)
    (WorldBounds : Box) (LOD : Int) (Items : FVoxelItemStack Box)
    (Inside : v_flt → v_flt → v_flt → Prop)
    (hOwn : ∀ X Y Z, Inside X Y Z →
      (This.WorldGenerator.GetValueRangeImpl WorldBounds LOD Items).Contains
        (This.WorldGenerator.GetValueImpl X Y Z LOD Items) = true)
    (hNext : Items.IsEmpty = false → ∀ X Y Z, Inside X Y Z →
      (Items.NextValueRange WorldBounds LOD).Contains (Items.NextValue X Y Z LOD) = true) :
    ∀ X Y Z, Inside X Y Z →
      (Items.IsEmpty = false →
        Ops.eq (Ops.ofFloat (This.WorldGenerator.GetValueImpl X Y Z LOD Items))
          (if This.bSubtractiveAsset then Ops.Empty else Ops.Full) = false →
        This.GetValueImpl Ops X Y Z LOD Items =
          FVoxelUtilities.MergeAsset (This.WorldGenerator.GetValueImpl X Y Z LOD Items)
            (Items.NextValue X Y Z LOD) This.bSubtractiveAsset ∧
        (This.GetValueRangeImpl WorldBounds LOD Items).Contains
          (This.GetValueImpl Ops X Y Z LOD Items) = true) ∧
      (Items.IsEmpty = true ∨
        Ops.eq (Ops.ofFloat (This.WorldGenerator.GetValueImpl X Y Z LOD Items))
          (if This.bSubtractiveAsset then Ops.Empty else Ops.Full) = true →
        This.GetValueImpl Ops X Y Z LOD Items =
          This.WorldGenerator.GetValueImpl X Y Z LOD Items ∧
        ((This.GetValueRangeImpl WorldBounds LOD Items).Contains
            (This.GetValueImpl Ops X Y Z LOD Items) = true ↔
          if This.bSubtractiveAsset then
            (This.GetNextRange WorldBounds LOD Items).Min ≤
              This.WorldGenerator.GetValueImpl X Y Z LOD Items
          else
            This.WorldGenerator.GetValueImpl X Y Z LOD Items ≤
              (This.GetNextRange WorldBounds LOD Items).Max)) := by
  intro X Y Z hIn
  have hv := (TVoxelRange.Contains_iff _ _).mp (hOwn X Y Z hIn)
  obtain ⟨hNmin, hNmax, hNn⟩ := TVoxelTransformableWorldGeneratorHelper.GetNextRange_spec This
    WorldBounds LOD Items (Items.NextValue X Y Z LOD) (fun h => hNext h X Y Z hIn)
  have hvnum : (This.WorldGenerator.GetValueImpl X Y Z LOD Items).IsNumber = true :=
    v_flt.number_of_le_left hv.2
  have hRmin := v_flt.number_of_le_left hv.1
  have hRmax := v_flt.number_of_le_right hv.2
  constructor
  · intro hE hX
    have hval : This.GetValueImpl Ops X Y Z LOD Items =
        FVoxelUtilities.MergeAsset (This.WorldGenerator.GetValueImpl X Y Z LOD Items)
          (Items.NextValue X Y Z LOD) This.bSubtractiveAsset := by
      simp only [TVoxelTransformableWorldGeneratorHelper.GetValueImpl, hE, hX, Bool.or_self,
        Bool.false_eq_true, if_false]
    refine ⟨hval, ?_⟩
    have hn := (TVoxelRange.Contains_iff _ _).mp (hNn hE)
    rw [hval, TVoxelRange.Contains_iff]
    unfold TVoxelTransformableWorldGeneratorHelper.GetValueRangeImpl FVoxelUtilities.MergeAsset
    cases This.bSubtractiveAsset
    · exact ⟨v_flt.Min_mono hv.1 hn.1, v_flt.Min_mono hv.2 hn.2⟩
    · exact ⟨v_flt.Max_mono hv.1 hn.1, v_flt.Max_mono hv.2 hn.2⟩
  · intro hC
    have hval : This.GetValueImpl Ops X Y Z LOD Items =
        This.WorldGenerator.GetValueImpl X Y Z LOD Items := by
      unfold TVoxelTransformableWorldGeneratorHelper.GetValueImpl
      simp only
      rw [if_pos]
      rcases hC with h | h <;> simp [h]
    refine ⟨hval, ?_⟩
    rw [hval, TVoxelRange.Contains_iff]
    unfold TVoxelTransformableWorldGeneratorHelper.GetValueRangeImpl
    cases This.bSubtractiveAsset
    · simp only [Bool.false_eq_true, if_false, FVoxelRangeUtilities.Min]
      constructor
      · intro h
        exact v_flt.le_trans' h.2 (v_flt.Min_le_right hNmax)
      · intro h
        exact ⟨v_flt.le_trans' (v_flt.Min_le_left hRmin hNmin) hv.1, v_flt.le_Min hv.2 h⟩
    · simp only [if_true, FVoxelRangeUtilities.Max]
      constructor
      · intro h
        exact v_flt.le_trans' (v_flt.le_Max_right hNmin) h.1
      · intro h
        exact ⟨v_flt.Max_le hv.1 h, v_flt.le_trans' hv.2 (v_flt.le_Max_left hRmax hNmax)⟩

/-- Claim C1 at the subtractive helper around the constant generator of value `0`, over a stack
whose next value is `1` everywhere, every position taken as inside the bounds. -/
theorem helper_range_contains_value_witness :
    (∀ X Y Z, (fun _ _ _ => True) X Y Z →
      ((exampleSubtractiveHelper 0).WorldGenerator.GetValueRangeImpl () 0 (exampleStack 1)).Contains
        ((exampleSubtractiveHelper 0).WorldGenerator.GetValueImpl X Y Z 0 (exampleStack 1)) = true) ∧
    ((exampleStack 1).IsEmpty = false → ∀ X Y Z, (fun _ _ _ => True) X Y Z →
      ((exampleStack 1).NextValueRange () 0).Contains ((exampleStack 1).NextValue X Y Z 0) = true) ∧
    (∀ X Y Z, (fun _ _ _ => True) X Y Z →
      ((exampleStack 1).IsEmpty = false →
        exampleValueOps.eq (exampleValueOps.ofFloat ((exampleSubtractiveHelper 0).WorldGenerator.GetValueImpl X Y Z 0 (exampleStack 1)))
          (if (exampleSubtractiveHelper 0).bSubtractiveAsset then exampleValueOps.Empty else exampleValueOps.Full) = false →
        (exampleSubtractiveHelper 0).GetValueImpl exampleValueOps X Y Z 0 (exampleStack 1) =
          FVoxelUtilities.MergeAsset ((exampleSubtractiveHelper 0).WorldGenerator.GetValueImpl X Y Z 0 (exampleStack 1))
            ((exampleStack 1).NextValue X Y Z 0) (exampleSubtractiveHelper 0).bSubtractiveAsset ∧
        ((exampleSubtractiveHelper 0).GetValueRangeImpl () 0 (exampleStack 1)).Contains
          ((exampleSubtractiveHelper 0).GetValueImpl exampleValueOps X Y Z 0 (exampleStack 1)) = true) ∧
      ((exampleStack 1).IsEmpty = true ∨
        exampleValueOps.eq (exampleValueOps.ofFloat ((exampleSubtractiveHelper 0).WorldGenerator.GetValueImpl X Y Z 0 (exampleStack 1)))
          (if (exampleSubtractiveHelper 0).bSubtractiveAsset then exampleValueOps.Empty else exampleValueOps.Full) = true →
        (exampleSubtractiveHelper 0).GetValueImpl exampleValueOps X Y Z 0 (exampleStack 1) =
          (exampleSubtractiveHelper 0).WorldGenerator.GetValueImpl X Y Z 0 (exampleStack 1) ∧
        (((exampleSubtractiveHelper 0).GetValueRangeImpl () 0 (exampleStack 1)).Contains
            ((exampleSubtractiveHelper 0).GetValueImpl exampleValueOps X Y Z 0 (exampleStack 1)) = true ↔
          if (exampleSubtractiveHelper 0).bSubtractiveAsset then
            ((exampleSubtractiveHelper 0).GetNextRange () 0 (exampleStack 1)).Min ≤
              (exampleSubtractiveHelper 0).WorldGenerator.GetValueImpl X Y Z 0 (exampleStack 1)
          else
            (exampleSubtractiveHelper 0).WorldGenerator.GetValueImpl X Y Z 0 (exampleStack 1) ≤
              ((exampleSubtractiveHelper 0).GetNextRange () 0 (exampleStack 1)).Max))) :=
  ⟨fun _ _ _ _ => rfl, fun _ _ _ _ _ => rfl,
    helper_range_contains_value (exampleSubtractiveHelper 0) exampleValueOps () 0
      (exampleStack 1) (fun _ _ _ => True) (fun _ _ _ _ => rfl)
      (fun _ _ _ _ _ => rfl)⟩

/-- Claim C1 as stated fails for an empty stack: the subtractive helper around the constant
generator of value `-5`, whose range `[-5, -5]` contains its value at every position, returns
the value `-5` and the range `[-1, -1]`, which does not contain `-5`. -/
theorem helper_range_misses_value_below_minus_one :
    (∀ X Y Z : v_flt,
      ((exampleSubtractiveHelper (v_flt.fin (-5))).WorldGenerator.GetValueRangeImpl () 0
          exampleEmptyStack).Contains
        ((exampleSubtractiveHelper (v_flt.fin (-5))).WorldGenerator.GetValueImpl X Y Z 0
          exampleEmptyStack) = true) ∧
    (exampleSubtractiveHelper (v_flt.fin (-5))).GetValueImpl exampleValueOps 0 0 0 0
      exampleEmptyStack = v_flt.fin (-5) ∧
    (exampleSubtractiveHelper (v_flt.fin (-5))).GetValueRangeImpl () 0 exampleEmptyStack =
      TVoxelRange.ofValue (v_flt.fin (-1)) ∧
    ((exampleSubtractiveHelper (v_flt.fin (-5))).GetValueRangeImpl () 0 exampleEmptyStack).Contains
      ((exampleSubtractiveHelper (v_flt.fin (-5))).GetValueImpl exampleValueOps 0 0 0 0
        exampleEmptyStack) = false :=
  ⟨fun _ _ _ => rfl, by decide, by decide, by decide⟩

/-! ## Conditions on a bool range -/

/-- Claim C11. Called on a fail status that has not failed, `If(Condition, Default)` returns
`true` for the condition `True` and `false` for the condition `False`, the status left as it
was, and `Default` for the condition `TrueOrFalse`, the failure raised by the conversion to
`bool` reset with the rest of the status; in the three cases the status has not failed on
return. The function is total: it raises nothing. -/
theorem If_on_status_not_failed (bDefaultValue : Bool) (Status : FVoxelRangeFailStatus)
    (h : Status.HasFailed = false) :
    FVoxelBoolRange.If FVoxelBoolRange.True bDefaultValue Status = (true, Status) ∧
    FVoxelBoolRange.If FVoxelBoolRange.False bDefaultValue Status = (false, Status) ∧
    (FVoxelBoolRange.TrueOrFalse.toBool Status).2.HasFailed = true ∧
    FVoxelBoolRange.If FVoxelBoolRange.TrueOrFalse bDefaultValue Status =
      (bDefaultValue, { bHasFailed := false, bHasWarning := false, Message := none }) ∧
    ∀ Condition : FVoxelBoolRange,
      (FVoxelBoolRange.If Condition bDefaultValue Status).2.HasFailed = false := by
  obtain ⟨f, w, m⟩ := Status
  simp only [FVoxelRangeFailStatus.HasFailed] at h
  subst h
  refine ⟨rfl, rfl, rfl, rfl, ?_⟩
  rintro ⟨t, e⟩
  cases t <;> cases e <;> rfl

/-- Claim C11 at the default `true` and the initial fail status. -/
theorem If_on_status_not_failed_witness :
    ({} : FVoxelRangeFailStatus).HasFailed = false ∧
    (FVoxelBoolRange.If FVoxelBoolRange.True true {} = (true, {}) ∧
    FVoxelBoolRange.If FVoxelBoolRange.False true {} = (false, {}) ∧
    (FVoxelBoolRange.TrueOrFalse.toBool {}).2.HasFailed = true ∧
    FVoxelBoolRange.If FVoxelBoolRange.TrueOrFalse true {} =
      (true, { bHasFailed := false, bHasWarning := false, Message := none }) ∧
    ∀ Condition : FVoxelBoolRange,
      (FVoxelBoolRange.If Condition true {}).2.HasFailed = false) :=
  ⟨rfl, If_on_status_not_failed true {} rfl⟩

/-! ## The helper: short circuit, merge policy and materials -/

namespace TVoxelTransformableWorldGeneratorHelper

/-- With a next stack whose query succeeds with the value `Items.NextValue`, the helper with
checked queries returns what `GetValueImpl` returns. -/
theorem GetValueImplChecked_of_total {Box V : Type}
    (This : TVoxelTransformableWorldGeneratorHelper Box) (Ops : FVoxelValueOps V)
    (X Y Z : v_flt) (LOD : Int) (Items : FVoxelItemStack Box) :
    This.GetValueImplChecked Ops X Y Z LOD Items
        (fun x y z l => some (Items.NextValue x y z l)) =
      some (This.GetValueImpl Ops X Y Z LOD Items) := by
  unfold GetValueImplChecked GetValueImpl
  simp only
  by_cases hc : (Items.IsEmpty ||
      Ops.eq (Ops.ofFloat (This.WorldGenerator.GetValueImpl X Y Z LOD Items))
        (if This.bSubtractiveAsset then Ops.Empty else Ops.Full)) = true
  · rw [if_pos hc, if_pos hc]
  · rw [if_neg hc, if_neg hc]

/-- Where the helper merges, a next stack whose query fails makes the helper fail: the query is
made. -/
theorem GetValueImplChecked_fails_on_merge {Box V : Type}
    (This : TVoxelTransformableWorldGeneratorHelper Box) (Ops : FVoxelValueOps V)
    (X Y Z : v_flt) (LOD : Int) (Items : FVoxelItemStack Box)
    (hE : Items.IsEmpty = false)
    (hX : Ops.eq (Ops.ofFloat (This.WorldGenerator.GetValueImpl X Y Z LOD Items))
      (if This.bSubtractiveAsset then Ops.Empty else Ops.Full) = false) :
    This.GetValueImplChecked Ops X Y Z LOD Items (fun _ _ _ _ => none) = none := by
  simp only [GetValueImplChecked, hE, hX, Bool.or_self, Bool.false_eq_true, if_false]

end TVoxelTransformableWorldGeneratorHelper

/-- Claim C12. For a subtractive helper whose wrapped value converts to `FVoxelValue::Empty` (an
additive one: `FVoxelValue::Full`), or for an empty item stack, `GetValueImpl` returns exactly the
value of the wrapped generator, and the next stack is not queried: the helper with checked
queries returns that value for every outcome of the query of the next stack, also for a next
stack whose query fails. -/
theorem GetValueImpl_short_circuit {Box V : Type}
    (This : TVoxelTransformableWorldGeneratorHelper Box) (Ops : FVoxelValueOps V)
    (X Y Z : v_flt) (LOD : Int) (Items : FVoxelItemStack Box)
    (h : Items.IsEmpty = true ∨
      Ops.eq (Ops.ofFloat (This.WorldGenerator.GetValueImpl X Y Z LOD Items))
        (if This.bSubtractiveAsset then Ops.Empty else Ops.Full) = true) :
    This.GetValueImpl Ops X Y Z LOD Items = This.WorldGenerator.GetValueImpl X Y Z LOD Items ∧
    (∀ NextGet : v_flt → v_flt → v_flt → Int → Option v_flt,
      This.GetValueImplChecked Ops X Y Z LOD Items NextGet =
        some (This.WorldGenerator.GetValueImpl X Y Z LOD Items)) ∧
    This.GetValueImplChecked Ops X Y Z LOD Items (fun _ _ _ _ => none) =
      some (This.WorldGenerator.GetValueImpl X Y Z LOD Items) := by
  have hc : (Items.IsEmpty ||
      Ops.eq (Ops.ofFloat (This.WorldGenerator.GetValueImpl X Y Z LOD Items))
        (if This.bSubtractiveAsset then Ops.Empty else Ops.Full)) = true := by
    rcases h with h | h <;> simp [h]
  have hchecked : ∀ NextGet : v_flt → v_flt → v_flt → Int → Option v_flt,
      This.GetValueImplChecked Ops X Y Z LOD Items NextGet =
        some (This.WorldGenerator.GetValueImpl X Y Z LOD Items) := by
    intro NextGet
    unfold TVoxelTransformableWorldGeneratorHelper.GetValueImplChecked
    simp only
    rw [if_pos hc]
  refine ⟨?_, hchecked, hchecked _⟩
  unfold TVoxelTransformableWorldGeneratorHelper.GetValueImpl
  simp only
  rw [if_pos hc]

/-- Claim C12 at the subtractive helper around the constant generator of value `1`, which
converts to `Empty`, over a stack that is not empty. -/
theorem GetValueImpl_short_circuit_witness :
    ((exampleStack 0).IsEmpty = true ∨
      exampleValueOps.eq
        (exampleValueOps.ofFloat
          ((exampleSubtractiveHelper 1).WorldGenerator.GetValueImpl 0 0 0 0 (exampleStack 0)))
        (if (exampleSubtractiveHelper 1).bSubtractiveAsset then exampleValueOps.Empty
          else exampleValueOps.Full) = true) ∧
    ((exampleSubtractiveHelper 1).GetValueImpl exampleValueOps 0 0 0 0 (exampleStack 0) =
      (exampleSubtractiveHelper 1).WorldGenerator.GetValueImpl 0 0 0 0 (exampleStack 0) ∧
    (∀ NextGet : v_flt → v_flt → v_flt → Int → Option v_flt,
      (exampleSubtractiveHelper 1).GetValueImplChecked exampleValueOps 0 0 0 0 (exampleStack 0)
          NextGet =
        some ((exampleSubtractiveHelper 1).WorldGenerator.GetValueImpl 0 0 0 0
          (exampleStack 0))) ∧
    (exampleSubtractiveHelper 1).GetValueImplChecked exampleValueOps 0 0 0 0 (exampleStack 0)
        (fun _ _ _ _ => none) =
      some ((exampleSubtractiveHelper 1).WorldGenerator.GetValueImpl 0 0 0 0
        (exampleStack 0))) :=
  ⟨Or.inr (by decide),
    GetValueImpl_short_circuit (exampleSubtractiveHelper 1) exampleValueOps 0 0 0 0
      (exampleStack 0) (Or.inr (by decide))⟩

/-- Claim C13. Where the item stack is not empty and the own value is not extremal,
`GetValueImpl` of a subtractive helper returns the maximum of the own value and the next value,
of an additive helper their minimum (for values that are numbers: one of the two, above both,
resp. below both); `GetValueRangeImpl` over a stack that is not empty returns, for the own range
`R` and the next range `N` (the range of the next stack if it is valid, `Infinite()` otherwise),
`[max(R.Min, N.Min), max(R.Max, N.Max)]` for a subtractive helper and
`[min(R.Min, N.Min), min(R.Max, N.Max)]` for an additive one. -/
theorem merge_is_max_for_subtractive_min_for_additive {Box V : Type}
    (This : TVoxelTransformableWorldGeneratorHelper Box) (Ops : FVoxelValueOps V)
    (WorldBounds : Box) (X Y Z : v_flt) (LOD : Int) (Items : FVoxelItemStack Box)
    (hE : Items.IsEmpty = false)
    (hX : Ops.eq (Ops.ofFloat (This.WorldGenerator.GetValueImpl X Y Z LOD Items))
      (if This.bSubtractiveAsset then Ops.Empty else Ops.Full) = false) :
    This.GetValueImpl Ops X Y Z LOD Items =
      (if This.bSubtractiveAsset then
        FMath.Max (This.WorldGenerator.GetValueImpl X Y Z LOD Items) (Items.NextValue X Y Z LOD)
      else
        FMath.Min (This.WorldGenerator.GetValueImpl X Y Z LOD Items)
          (Items.NextValue X Y Z LOD)) ∧
    (∀ a b : v_flt, a.IsNumber = true → b.IsNumber = true →
      (a ≤ FMath.Max a b ∧ b ≤ FMath.Max a b ∧ (FMath.Max a b = a ∨ FMath.Max a b = b)) ∧
      (FMath.Min a b ≤ a ∧ FMath.Min a b ≤ b ∧ (FMath.Min a b = a ∨ FMath.Min a b = b))) ∧
    This.GetNextRange WorldBounds LOD Items =
      (if Items.NextIsValid WorldBounds then Items.NextValueRange WorldBounds LOD
        else TVoxelRange.Infinite) ∧
    This.GetValueRangeImpl WorldBounds LOD Items =
      (if This.bSubtractiveAsset then
        { Min := FMath.Max (This.WorldGenerator.GetValueRangeImpl WorldBounds LOD Items).Min
            (This.GetNextRange WorldBounds LOD Items).Min,
          Max := FMath.Max (This.WorldGenerator.GetValueRangeImpl WorldBounds LOD Items).Max
            (This.GetNextRange WorldBounds LOD Items).Max }
      else
        { Min := FMath.Min (This.WorldGenerator.GetValueRangeImpl WorldBounds LOD Items).Min
            (This.GetNextRange WorldBounds LOD Items).Min,
          Max := FMath.Min (This.WorldGenerator.GetValueRangeImpl WorldBounds LOD Items).Max
            (This.GetNextRange WorldBounds LOD Items).Max }) := by
  refine ⟨?_, ?_, ?_, ?_⟩
  · simp only [TVoxelTransformableWorldGeneratorHelper.GetValueImpl, hE, hX, Bool.or_self,
      Bool.false_eq_true, if_false, FVoxelUtilities.MergeAsset]
  · intro a b ha hb
    refine ⟨⟨v_flt.le_Max_left ha hb, v_flt.le_Max_right hb, ?_⟩,
      ⟨v_flt.Min_le_left ha hb, v_flt.Min_le_right hb, ?_⟩⟩
    · unfold FMath.Max
      split
      · exact Or.inl rfl
      · exact Or.inr rfl
    · unfold FMath.Min
      split
      · exact Or.inl rfl
      · exact Or.inr rfl
  · simp only [TVoxelTransformableWorldGeneratorHelper.GetNextRange, hE, Bool.false_eq_true,
      if_false]
  · unfold TVoxelTransformableWorldGeneratorHelper.GetValueRangeImpl
    cases This.bSubtractiveAsset <;> rfl

/-- Claim C13 at the subtractive helper around the constant generator of value `0`, over a stack
whose next stack has the value `1`. -/
theorem merge_is_max_for_subtractive_min_for_additive_witness :
    ((exampleStack 1).IsEmpty = false) ∧
    (exampleValueOps.eq (exampleValueOps.ofFloat ((exampleSubtractiveHelper 0).WorldGenerator.GetValueImpl 0 0 0 0 (exampleStack 1)))
      (if (exampleSubtractiveHelper 0).bSubtractiveAsset then exampleValueOps.Empty else exampleValueOps.Full) = false) ∧
    ((exampleSubtractiveHelper 0).GetValueImpl exampleValueOps 0 0 0 0 (exampleStack 1) =
      (if (exampleSubtractiveHelper 0).bSubtractiveAsset then
        FMath.Max ((exampleSubtractiveHelper 0).WorldGenerator.GetValueImpl 0 0 0 0 (exampleStack 1)) ((exampleStack 1).NextValue 0 0 0 0)
      else
        FMath.Min ((exampleSubtractiveHelper 0).WorldGenerator.GetValueImpl 0 0 0 0 (exampleStack 1))
          ((exampleStack 1).NextValue 0 0 0 0)) ∧
    (∀ a b : v_flt, a.IsNumber = true → b.IsNumber = true →
      (a ≤ FMath.Max a b ∧ b ≤ FMath.Max a b ∧ (FMath.Max a b = a ∨ FMath.Max a b = b)) ∧
      (FMath.Min a b ≤ a ∧ FMath.Min a b ≤ b ∧ (FMath.Min a b = a ∨ FMath.Min a b = b))) ∧
    (exampleSubtractiveHelper 0).GetNextRange () 0 (exampleStack 1) =
      (if (exampleStack 1).NextIsValid () then (exampleStack 1).NextValueRange () 0
        else TVoxelRange.Infinite) ∧
    (exampleSubtractiveHelper 0).GetValueRangeImpl () 0 (exampleStack 1) =
      (if (exampleSubtractiveHelper 0).bSubtractiveAsset then
        { Min := FMath.Max ((exampleSubtractiveHelper 0).WorldGenerator.GetValueRangeImpl () 0 (exampleStack 1)).Min
            ((exampleSubtractiveHelper 0).GetNextRange () 0 (exampleStack 1)).Min,
          Max := FMath.Max ((exampleSubtractiveHelper 0).WorldGenerator.GetValueRangeImpl () 0 (exampleStack 1)).Max
            ((exampleSubtractiveHelper 0).GetNextRange () 0 (exampleStack 1)).Max }
      else
        { Min := FMath.Min ((exampleSubtractiveHelper 0).WorldGenerator.GetValueRangeImpl () 0 (exampleStack 1)).Min
            ((exampleSubtractiveHelper 0).GetNextRange () 0 (exampleStack 1)).Min,
          Max := FMath.Min ((exampleSubtractiveHelper 0).WorldGenerator.GetValueRangeImpl () 0 (exampleStack 1)).Max
            ((exampleSubtractiveHelper 0).GetNextRange () 0 (exampleStack 1)).Max })) :=
  ⟨rfl, by decide,
    merge_is_max_for_subtractive_min_for_additive (exampleSubtractiveHelper 0) exampleValueOps () 0 0 0 0 (exampleStack 1) (rfl) (by decide)⟩

/-- Claim C14, amended. Where the item stack is not empty and the own value is not extremal, and
the values and range bounds involved are numbers: a subtractive helper keeps the maximum of the
own value and the next value (the result is one of the two and at least both), an additive
helper keeps their minimum; and over a stack that is not empty the range query uses the same
policy on each bound of the own range and the next range. -/
theorem merge_keeps_maximum_for_subtractive {Box V : Type}
    (This : TVoxelTransformableWorldGeneratorHelper Box) (Ops : FVoxelValueOps V)
    (WorldBounds : Box) (X Y Z : v_flt) (LOD : Int) (Items : FVoxelItemStack Box)
    (hE : Items.IsEmpty = false)
    (hX : Ops.eq (Ops.ofFloat (This.WorldGenerator.GetValueImpl X Y Z LOD Items))
      (if This.bSubtractiveAsset then Ops.Empty else Ops.Full) = false)
    (hOwn : (This.WorldGenerator.GetValueImpl X Y Z LOD Items).IsNumber = true)
    (hNext : (Items.NextValue X Y Z LOD).IsNumber = true)
    (hR : (This.WorldGenerator.GetValueRangeImpl WorldBounds LOD Items).IsValid)
    (hN : (This.GetNextRange WorldBounds LOD Items).IsValid) :
    (This.bSubtractiveAsset = true →
      (This.WorldGenerator.GetValueImpl X Y Z LOD Items ≤ This.GetValueImpl Ops X Y Z LOD Items ∧
        Items.NextValue X Y Z LOD ≤ This.GetValueImpl Ops X Y Z LOD Items ∧
        (This.GetValueImpl Ops X Y Z LOD Items =
            This.WorldGenerator.GetValueImpl X Y Z LOD Items ∨
          This.GetValueImpl Ops X Y Z LOD Items = Items.NextValue X Y Z LOD)) ∧
      ((This.WorldGenerator.GetValueRangeImpl WorldBounds LOD Items).Min ≤
          (This.GetValueRangeImpl WorldBounds LOD Items).Min ∧
        (This.GetNextRange WorldBounds LOD Items).Min ≤
          (This.GetValueRangeImpl WorldBounds LOD Items).Min ∧
        (This.WorldGenerator.GetValueRangeImpl WorldBounds LOD Items).Max ≤
          (This.GetValueRangeImpl WorldBounds LOD Items).Max ∧
        (This.GetNextRange WorldBounds LOD Items).Max ≤
          (This.GetValueRangeImpl WorldBounds LOD Items).Max)) ∧
    (This.bSubtractiveAsset = false →
      (This.GetValueImpl Ops X Y Z LOD Items ≤ This.WorldGenerator.GetValueImpl X Y Z LOD Items ∧
        This.GetValueImpl Ops X Y Z LOD Items ≤ Items.NextValue X Y Z LOD ∧
        (This.GetValueImpl Ops X Y Z LOD Items =
            This.WorldGenerator.GetValueImpl X Y Z LOD Items ∨
          This.GetValueImpl Ops X Y Z LOD Items = Items.NextValue X Y Z LOD)) ∧
      ((This.GetValueRangeImpl WorldBounds LOD Items).Min ≤
          (This.WorldGenerator.GetValueRangeImpl WorldBounds LOD Items).Min ∧
        (This.GetValueRangeImpl WorldBounds LOD Items).Min ≤
          (This.GetNextRange WorldBounds LOD Items).Min ∧
        (This.GetValueRangeImpl WorldBounds LOD Items).Max ≤
          (This.WorldGenerator.GetValueRangeImpl WorldBounds LOD Items).Max ∧
        (This.GetValueRangeImpl WorldBounds LOD Items).Max ≤
          (This.GetNextRange WorldBounds LOD Items).Max)) ∧
    ((This.GetValueRangeImpl WorldBounds LOD Items).Min =
        (This.WorldGenerator.GetValueRangeImpl WorldBounds LOD Items).Min ∨
      (This.GetValueRangeImpl WorldBounds LOD Items).Min =
        (This.GetNextRange WorldBounds LOD Items).Min) ∧
    ((This.GetValueRangeImpl WorldBounds LOD Items).Max =
        (This.WorldGenerator.GetValueRangeImpl WorldBounds LOD Items).Max ∨
      (This.GetValueRangeImpl WorldBounds LOD Items).Max =
        (This.GetNextRange WorldBounds LOD Items).Max) := by
  have hval : This.GetValueImpl Ops X Y Z LOD Items =
      FVoxelUtilities.MergeAsset (This.WorldGenerator.GetValueImpl X Y Z LOD Items)
        (Items.NextValue X Y Z LOD) This.bSubtractiveAsset := by
    simp only [TVoxelTransformableWorldGeneratorHelper.GetValueImpl, hE, hX, Bool.or_self,
      Bool.false_eq_true, if_false]
  have hRmin := v_flt.number_of_le_left hR
  have hRmax := v_flt.number_of_le_right hR
  have hNmin := v_flt.number_of_le_left hN
  have hNmax := v_flt.number_of_le_right hN
  have hMaxOr : ∀ a b : v_flt, FMath.Max a b = a ∨ FMath.Max a b = b := by
    intro a b
    unfold FMath.Max
    split
    · exact Or.inl rfl
    · exact Or.inr rfl
  have hMinOr : ∀ a b : v_flt, FMath.Min a b = a ∨ FMath.Min a b = b := by
    intro a b
    unfold FMath.Min
    split
    · exact Or.inl rfl
    · exact Or.inr rfl
  rw [hval]
  unfold TVoxelTransformableWorldGeneratorHelper.GetValueRangeImpl FVoxelUtilities.MergeAsset
  cases This.bSubtractiveAsset
  · simp only [Bool.false_eq_true, if_false, FVoxelRangeUtilities.Min, false_implies, true_and,
      true_implies]
    exact ⟨⟨⟨v_flt.Min_le_left hOwn hNext, v_flt.Min_le_right hNext, hMinOr _ _⟩,
      v_flt.Min_le_left hRmin hNmin, v_flt.Min_le_right hNmin, v_flt.Min_le_left hRmax hNmax,
      v_flt.Min_le_right hNmax⟩, hMinOr _ _, hMinOr _ _⟩
  · simp only [if_true, FVoxelRangeUtilities.Max, true_implies, Bool.true_eq_false,
      false_implies, true_and, and_true]
    exact ⟨⟨⟨v_flt.le_Max_left hOwn hNext, v_flt.le_Max_right hNext, hMaxOr _ _⟩,
      v_flt.le_Max_left hRmin hNmin, v_flt.le_Max_right hNmin, v_flt.le_Max_left hRmax hNmax,
      v_flt.le_Max_right hNmax⟩, hMaxOr _ _, hMaxOr _ _⟩

/-- Claim C14 as stated fails: the subtractive helper around the constant generator of value `0`,
over a stack that is not empty and has the next value `1` everywhere, merges (the own value is
not extremal) and returns `1`, the maximum, not the minimum `0`; its range is `[1, 1]`, the
bound-wise maximum of `[0, 0]` and `[1, 1]`, not their bound-wise minimum `[0, 0]`. -/
theorem subtractive_helper_keeps_maximum_not_minimum :
    (exampleStack 1).IsEmpty = false ∧
    exampleValueOps.eq
      (exampleValueOps.ofFloat
        ((exampleSubtractiveHelper 0).WorldGenerator.GetValueImpl 0 0 0 0 (exampleStack 1)))
      exampleValueOps.Empty = false ∧
    (exampleSubtractiveHelper 0).GetValueImpl exampleValueOps 0 0 0 0 (exampleStack 1) = 1 ∧
    FMath.Min ((exampleSubtractiveHelper 0).WorldGenerator.GetValueImpl 0 0 0 0 (exampleStack 1))
      ((exampleStack 1).NextValue 0 0 0 0) = 0 ∧
    (exampleSubtractiveHelper 0).GetValueImpl exampleValueOps 0 0 0 0 (exampleStack 1) ≠
      FMath.Min
        ((exampleSubtractiveHelper 0).WorldGenerator.GetValueImpl 0 0 0 0 (exampleStack 1))
        ((exampleStack 1).NextValue 0 0 0 0) ∧
    (exampleSubtractiveHelper 0).GetValueRangeImpl () 0 (exampleStack 1) =
      TVoxelRange.ofValue 1 ∧
    (exampleSubtractiveHelper 0).GetValueRangeImpl () 0 (exampleStack 1) ≠
      FVoxelRangeUtilities.Min
        ((exampleSubtractiveHelper 0).WorldGenerator.GetValueRangeImpl () 0 (exampleStack 1))
        ((exampleStack 1).NextValueRange () 0) := by
  decide

/-- Claim C14, amended, at the subtractive helper around the constant generator of value `0`, over
a stack whose next stack has the value `1`. -/
theorem merge_keeps_maximum_for_subtractive_witness :
    ((exampleStack 1).IsEmpty = false) ∧
    (exampleValueOps.eq (exampleValueOps.ofFloat ((exampleSubtractiveHelper 0).WorldGenerator.GetValueImpl 0 0 0 0 (exampleStack 1)))
      (if (exampleSubtractiveHelper 0).bSubtractiveAsset then exampleValueOps.Empty else exampleValueOps.Full) = false) ∧
    (((exampleSubtractiveHelper 0).WorldGenerator.GetValueImpl 0 0 0 0 (exampleStack 1)).IsNumber = true) ∧
    (((exampleStack 1).NextValue 0 0 0 0).IsNumber = true) ∧
    (((exampleSubtractiveHelper 0).WorldGenerator.GetValueRangeImpl () 0 (exampleStack 1)).IsValid) ∧
    (((exampleSubtractiveHelper 0).GetNextRange () 0 (exampleStack 1)).IsValid) ∧
    (((exampleSubtractiveHelper 0).bSubtractiveAsset = true →
      ((exampleSubtractiveHelper 0).WorldGenerator.GetValueImpl 0 0 0 0 (exampleStack 1) ≤ (exampleSubtractiveHelper 0).GetValueImpl exampleValueOps 0 0 0 0 (exampleStack 1) ∧
        (exampleStack 1).NextValue 0 0 0 0 ≤ (exampleSubtractiveHelper 0).GetValueImpl exampleValueOps 0 0 0 0 (exampleStack 1) ∧
        ((exampleSubtractiveHelper 0).GetValueImpl exampleValueOps 0 0 0 0 (exampleStack 1) =
            (exampleSubtractiveHelper 0).WorldGenerator.GetValueImpl 0 0 0 0 (exampleStack 1) ∨
          (exampleSubtractiveHelper 0).GetValueImpl exampleValueOps 0 0 0 0 (exampleStack 1) = (exampleStack 1).NextValue 0 0 0 0)) ∧
      (((exampleSubtractiveHelper 0).WorldGenerator.GetValueRangeImpl () 0 (exampleStack 1)).Min ≤
          ((exampleSubtractiveHelper 0).GetValueRangeImpl () 0 (exampleStack 1)).Min ∧
        ((exampleSubtractiveHelper 0).GetNextRange () 0 (exampleStack 1)).Min ≤
          ((exampleSubtractiveHelper 0).GetValueRangeImpl () 0 (exampleStack 1)).Min ∧
        ((exampleSubtractiveHelper 0).WorldGenerator.GetValueRangeImpl () 0 (exampleStack 1)).Max ≤
          ((exampleSubtractiveHelper 0).GetValueRangeImpl () 0 (exampleStack 1)).Max ∧
        ((exampleSubtractiveHelper 0).GetNextRange () 0 (exampleStack 1)).Max ≤
          ((exampleSubtractiveHelper 0).GetValueRangeImpl () 0 (exampleStack 1)).Max)) ∧
    ((exampleSubtractiveHelper 0).bSubtractiveAsset = false →
      ((exampleSubtractiveHelper 0).GetValueImpl exampleValueOps 0 0 0 0 (exampleStack 1) ≤ (exampleSubtractiveHelper 0).WorldGenerator.GetValueImpl 0 0 0 0 (exampleStack 1) ∧
        (exampleSubtractiveHelper 0).GetValueImpl exampleValueOps 0 0 0 0 (exampleStack 1) ≤ (exampleStack 1).NextValue 0 0 0 0 ∧
        ((exampleSubtractiveHelper 0).GetValueImpl exampleValueOps 0 0 0 0 (exampleStack 1) =
            (exampleSubtractiveHelper 0).WorldGenerator.GetValueImpl 0 0 0 0 (exampleStack 1) ∨
          (exampleSubtractiveHelper 0).GetValueImpl exampleValueOps 0 0 0 0 (exampleStack 1) = (exampleStack 1).NextValue 0 0 0 0)) ∧
      (((exampleSubtractiveHelper 0).GetValueRangeImpl () 0 (exampleStack 1)).Min ≤
          ((exampleSubtractiveHelper 0).WorldGenerator.GetValueRangeImpl () 0 (exampleStack 1)).Min ∧
        ((exampleSubtractiveHelper 0).GetValueRangeImpl () 0 (exampleStack 1)).Min ≤
          ((exampleSubtractiveHelper 0).GetNextRange () 0 (exampleStack 1)).Min ∧
        ((exampleSubtractiveHelper 0).GetValueRangeImpl () 0 (exampleStack 1)).Max ≤
          ((exampleSubtractiveHelper 0).WorldGenerator.GetValueRangeImpl () 0 (exampleStack 1)).Max ∧
        ((exampleSubtractiveHelper 0).GetValueRangeImpl () 0 (exampleStack 1)).Max ≤
          ((exampleSubtractiveHelper 0).GetNextRange () 0 (exampleStack 1)).Max)) ∧
    (((exampleSubtractiveHelper 0).GetValueRangeImpl () 0 (exampleStack 1)).Min =
        ((exampleSubtractiveHelper 0).WorldGenerator.GetValueRangeImpl () 0 (exampleStack 1)).Min ∨
      ((exampleSubtractiveHelper 0).GetValueRangeImpl () 0 (exampleStack 1)).Min =
        ((exampleSubtractiveHelper 0).GetNextRange () 0 (exampleStack 1)).Min) ∧
    (((exampleSubtractiveHelper 0).GetValueRangeImpl () 0 (exampleStack 1)).Max =
        ((exampleSubtractiveHelper 0).WorldGenerator.GetValueRangeImpl () 0 (exampleStack 1)).Max ∨
      ((exampleSubtractiveHelper 0).GetValueRangeImpl () 0 (exampleStack 1)).Max =
        ((exampleSubtractiveHelper 0).GetNextRange () 0 (exampleStack 1)).Max)) :=
  ⟨rfl, by decide, by decide, by decide, by decide, by decide,
    merge_keeps_maximum_for_subtractive (exampleSubtractiveHelper 0) exampleValueOps () 0 0 0 0 (exampleStack 1) (rfl) (by decide) (by decide) (by decide) (by decide) (by decide)⟩

/-- Claim C15. Over voxel values in a linear order: `GetMaterialImpl` returns the material of the
next stack where the item stack is not empty, the own value is not extremal (`Empty` for a
subtractive helper, `Full` for an additive one) and the value of the next stack strictly wins
the merge (it is above the own value for a subtractive helper, below it for an additive one);
in every other case, a tie included, it returns the own material of the wrapped generator,
whatever the material of the next stack, which is not queried. -/
theorem GetMaterialImpl_next_material_iff_next_wins {Box V M : Type} [LinearOrder V]
    (This : TVoxelTransformableWorldGeneratorHelper Box) (Ops : FVoxelValueOps V)
    (Queries : FVoxelMaterialQueries Box V M) (X Y Z : v_flt) (LOD : Int)
    (Items : FVoxelItemStack Box) :
    This.GetMaterialImpl Ops Queries X Y Z LOD Items =
      (if Items.IsEmpty = false ∧
          Ops.eq (Ops.ofFloat (This.WorldGenerator.GetValueImpl X Y Z LOD Items))
            (if This.bSubtractiveAsset then Ops.Empty else Ops.Full) = false ∧
          (if This.bSubtractiveAsset then
            Ops.ofFloat (This.WorldGenerator.GetValueImpl X Y Z LOD Items) <
              Queries.NextVoxelValue X Y Z LOD
          else
            Queries.NextVoxelValue X Y Z LOD <
              Ops.ofFloat (This.WorldGenerator.GetValueImpl X Y Z LOD Items))
        then Queries.NextMaterial X Y Z LOD
        else Queries.GetMaterialImpl X Y Z LOD Items) ∧
    (¬ (Items.IsEmpty = false ∧
          Ops.eq (Ops.ofFloat (This.WorldGenerator.GetValueImpl X Y Z LOD Items))
            (if This.bSubtractiveAsset then Ops.Empty else Ops.Full) = false ∧
          (if This.bSubtractiveAsset then
            Ops.ofFloat (This.WorldGenerator.GetValueImpl X Y Z LOD Items) <
              Queries.NextVoxelValue X Y Z LOD
          else
            Queries.NextVoxelValue X Y Z LOD <
              Ops.ofFloat (This.WorldGenerator.GetValueImpl X Y Z LOD Items))) →
      ∀ NextMaterial : v_flt → v_flt → v_flt → Int → M,
        This.GetMaterialImpl Ops { Queries with NextMaterial := NextMaterial } X Y Z LOD Items =
          Queries.GetMaterialImpl X Y Z LOD Items) := by
  have key : ∀ Q : FVoxelMaterialQueries Box V M,
      This.GetMaterialImpl Ops Q X Y Z LOD Items =
      (if Items.IsEmpty = false ∧
          Ops.eq (Ops.ofFloat (This.WorldGenerator.GetValueImpl X Y Z LOD Items))
            (if This.bSubtractiveAsset then Ops.Empty else Ops.Full) = false ∧
          (if This.bSubtractiveAsset then
            Ops.ofFloat (This.WorldGenerator.GetValueImpl X Y Z LOD Items) <
              Q.NextVoxelValue X Y Z LOD
          else
            Q.NextVoxelValue X Y Z LOD <
              Ops.ofFloat (This.WorldGenerator.GetValueImpl X Y Z LOD Items))
        then Q.NextMaterial X Y Z LOD
        else Q.GetMaterialImpl X Y Z LOD Items) := by
    intro Q
    unfold TVoxelTransformableWorldGeneratorHelper.GetMaterialImpl
    cases hE : Items.IsEmpty
    · cases hS : This.bSubtractiveAsset
      · cases hX : Ops.eq (Ops.ofFloat (This.WorldGenerator.GetValueImpl X Y Z LOD Items))
          Ops.Full
        · simp only [hX, Bool.false_eq_true, if_false, Bool.not_false, Bool.true_and,
            Bool.false_and, Bool.or_self, Bool.false_or, true_and]
          by_cases hle : Ops.ofFloat (This.WorldGenerator.GetValueImpl X Y Z LOD Items) ≤
              Q.NextVoxelValue X Y Z LOD
          · rw [if_pos hle, if_neg (not_lt.mpr hle)]
          · rw [if_neg hle, if_pos (not_le.mp hle)]
        · simp [hX]
      · cases hX : Ops.eq (Ops.ofFloat (This.WorldGenerator.GetValueImpl X Y Z LOD Items))
          Ops.Empty
        · simp only [hX, Bool.false_eq_true, if_false, if_true, Bool.not_true, Bool.true_and,
            Bool.false_and, Bool.or_self, Bool.or_false, true_and]
          by_cases hle : Q.NextVoxelValue X Y Z LOD ≤
              Ops.ofFloat (This.WorldGenerator.GetValueImpl X Y Z LOD Items)
          · rw [if_pos hle, if_neg (not_lt.mpr hle)]
          · rw [if_neg hle, if_pos (not_le.mp hle)]
        · simp [hX]
    · simp
  refine ⟨key Queries, ?_⟩
  intro hno NextMaterial
  rw [key]
  exact if_neg hno

/-- Claim C15 at a tie: a subtractive helper of own voxel value `0` over a stack whose next stack
has the voxel value `0` too returns the own material `7`, not the material `9` of the next stack;
against a next voxel value of `1` it returns the material `9`. -/
theorem GetMaterialImpl_next_material_iff_next_wins_witness :
    ((exampleSubtractiveHelper 0).GetMaterialImpl exampleIntValueOps (exampleMaterialQueries 0)
        0 0 0 0 (exampleStack 0) = 7 ∧
      (exampleSubtractiveHelper 0).GetMaterialImpl exampleIntValueOps (exampleMaterialQueries 1)
        0 0 0 0 (exampleStack 0) = 9) ∧
    ((exampleSubtractiveHelper 0).GetMaterialImpl exampleIntValueOps (exampleMaterialQueries 0) 0 0 0 0 (exampleStack 0) =
      (if (exampleStack 0).IsEmpty = false ∧
          exampleIntValueOps.eq (exampleIntValueOps.ofFloat ((exampleSubtractiveHelper 0).WorldGenerator.GetValueImpl 0 0 0 0 (exampleStack 0)))
            (if (exampleSubtractiveHelper 0).bSubtractiveAsset then exampleIntValueOps.Empty else exampleIntValueOps.Full) = false ∧
          (if (exampleSubtractiveHelper 0).bSubtractiveAsset then
            exampleIntValueOps.ofFloat ((exampleSubtractiveHelper 0).WorldGenerator.GetValueImpl 0 0 0 0 (exampleStack 0)) <
              (exampleMaterialQueries 0).NextVoxelValue 0 0 0 0
          else
            (exampleMaterialQueries 0).NextVoxelValue 0 0 0 0 <
              exampleIntValueOps.ofFloat ((exampleSubtractiveHelper 0).WorldGenerator.GetValueImpl 0 0 0 0 (exampleStack 0)))
        then (exampleMaterialQueries 0).NextMaterial 0 0 0 0
        else (exampleMaterialQueries 0).GetMaterialImpl 0 0 0 0 (exampleStack 0)) ∧
    (¬ ((exampleStack 0).IsEmpty = false ∧
          exampleIntValueOps.eq (exampleIntValueOps.ofFloat ((exampleSubtractiveHelper 0).WorldGenerator.GetValueImpl 0 0 0 0 (exampleStack 0)))
            (if (exampleSubtractiveHelper 0).bSubtractiveAsset then exampleIntValueOps.Empty else exampleIntValueOps.Full) = false ∧
          (if (exampleSubtractiveHelper 0).bSubtractiveAsset then
            exampleIntValueOps.ofFloat ((exampleSubtractiveHelper 0).WorldGenerator.GetValueImpl 0 0 0 0 (exampleStack 0)) <
              (exampleMaterialQueries 0).NextVoxelValue 0 0 0 0
          else
            (exampleMaterialQueries 0).NextVoxelValue 0 0 0 0 <
              exampleIntValueOps.ofFloat ((exampleSubtractiveHelper 0).WorldGenerator.GetValueImpl 0 0 0 0 (exampleStack 0)))) →
      ∀ NextMaterial : v_flt → v_flt → v_flt → Int → ℕ,
        (exampleSubtractiveHelper 0).GetMaterialImpl exampleIntValueOps { (exampleMaterialQueries 0) with NextMaterial := NextMaterial } 0 0 0 0 (exampleStack 0) =
          (exampleMaterialQueries 0).GetMaterialImpl 0 0 0 0 (exampleStack 0))) :=
  ⟨by decide,
    GetMaterialImpl_next_material_iff_next_wins (exampleSubtractiveHelper 0) exampleIntValueOps (exampleMaterialQueries 0) 0 0 0 0 (exampleStack 0) ⟩

/-! ## The distance field: recorded bounds and 8-bit quantisation -/

namespace FVoxelChunkMesh

/-- The loop divides every distance by `Size`, only widens the two bounds, and ends with bounds
that hold every divided distance. -/
theorem NormalizeLoop_spec (Size : Int) (Distances : List ℚ) (MinMax : ℚ × ℚ) :
    (NormalizeLoop Size Distances MinMax).1 = Distances.map (fun d => d / (Size : ℚ)) ∧
    (NormalizeLoop Size Distances MinMax).2.1 ≤ MinMax.1 ∧
    MinMax.2 ≤ (NormalizeLoop Size Distances MinMax).2.2 ∧
    ∀ d ∈ (NormalizeLoop Size Distances MinMax).1,
      (NormalizeLoop Size Distances MinMax).2.1 ≤ d ∧
      d ≤ (NormalizeLoop Size Distances MinMax).2.2 := by
  induction Distances generalizing MinMax with
  | nil => simp [NormalizeLoop]
  | cons D Rest ih =>
    obtain ⟨mn, mx⟩ := MinMax
    obtain ⟨h1, h2, h3, h4⟩ := ih (FMath.Min mn (D / (Size : ℚ)), FMath.Max mx (D / (Size : ℚ)))
    simp only [FMath.Min_eq_min, FMath.Max_eq_max] at h1 h2 h3 h4
    simp only [NormalizeLoop, FMath.Min_eq_min, FMath.Max_eq_max, List.map_cons, List.mem_cons,
      forall_eq_or_imp]
    refine ⟨by rw [h1], le_trans h2 (min_le_left _ _), le_trans (le_max_left _ _) h3,
      ⟨le_trans h2 (min_le_right _ _), le_trans (le_max_right _ _) h3⟩, h4⟩

/-- The byte of a distance between the two bounds is the floor itself, between `0` and `255`,
and is within one half of the rescaled distance times `255`. -/
theorem QuantizeEightBit_spec (d mn mx : ℚ) (hlt : mn < mx) (h1 : mn ≤ d) (h2 : d ≤ mx) :
    0 ≤ QuantizeEightBit d mn mx ∧ QuantizeEightBit d mn mx ≤ 255 ∧
    ((QuantizeEightBit d mn mx : ℤ) : ℚ) - 1 / 2 ≤ (d - mn) / (mx - mn) * 255 ∧
    (d - mn) / (mx - mn) * 255 < ((QuantizeEightBit d mn mx : ℤ) : ℚ) + 1 / 2 := by
  have hw : 0 < mx - mn := sub_pos.mpr hlt
  have hr0 : 0 ≤ (d - mn) / (mx - mn) := div_nonneg (sub_nonneg.mpr h1) (le_of_lt hw)
  have hr1 : (d - mn) / (mx - mn) ≤ 1 := by
    rw [div_le_one hw]
    linarith
  have hx : (d - mn) * (1 / (mx - mn)) * 255 + 1 / 2 = (d - mn) / (mx - mn) * 255 + 1 / 2 := by
    rw [mul_one_div]
  have hfl := Int.floor_le ((d - mn) / (mx - mn) * 255 + 1 / 2)
  have hfu := Int.lt_floor_add_one ((d - mn) / (mx - mn) * 255 + 1 / 2)
  have hq0 : 0 ≤ Int.floor ((d - mn) / (mx - mn) * 255 + 1 / 2) := by
    apply Int.floor_nonneg.mpr
    linarith
  have hq1 : Int.floor ((d - mn) / (mx - mn) * 255 + 1 / 2) ≤ 255 := by
    have : Int.floor ((d - mn) / (mx - mn) * 255 + 1 / 2) < 256 := by
      apply Int.floor_lt.mpr
      push_cast
      linarith
    omega
  have hq : QuantizeEightBit d mn mx = Int.floor ((d - mn) / (mx - mn) * 255 + 1 / 2) := by
    unfold QuantizeEightBit FMath.Clamp
    simp only [hx]
    rw [if_neg (not_lt.mpr hq0)]
    split
    · rfl
    · omega
  rw [hq]
  refine ⟨hq0, hq1, ?_, ?_⟩
  · linarith
  · linarith

end FVoxelChunkMesh

/-- Claim C16. Over exact arithmetic, in the 8-bit path of `BuildDistanceField`: for the
distances after the loop and the recorded bounds `Min < Max`, the byte `q` written for a
distance `d` lies between `0` and `255` and decodes to `Min + q / 255 * (Max - Min)` within one
quantisation step `(Max - Min) / 255` of `d` (within half a step, even); the byte of `Min` is `0`
and the byte of `Max` is `255`. -/
theorem eight_bit_quantization_round_trip (Distances : List ℚ) (Size : Int)
    (Normalized : List ℚ) (Min Max d : ℚ)
    (hrun : FVoxelChunkMesh.NormalizeDistances Distances Size = some (Normalized, Min, Max))
    (hlt : Min < Max) (hd : d ∈ Normalized) :
    0 ≤ FVoxelChunkMesh.QuantizeEightBit d Min Max ∧
    FVoxelChunkMesh.QuantizeEightBit d Min Max ≤ 255 ∧
    |Min + ((FVoxelChunkMesh.QuantizeEightBit d Min Max : ℤ) : ℚ) / 255 * (Max - Min) - d| ≤
      (Max - Min) / 255 ∧
    |Min + ((FVoxelChunkMesh.QuantizeEightBit d Min Max : ℤ) : ℚ) / 255 * (Max - Min) - d| ≤
      (Max - Min) / 255 / 2 ∧
    FVoxelChunkMesh.QuantizeEightBit Min Min Max = 0 ∧
    FVoxelChunkMesh.QuantizeEightBit Max Min Max = 255 := by
  have hw : 0 < Max - Min := sub_pos.mpr hlt
  have hbounds : Min ≤ d ∧ d ≤ Max := by
    cases Distances with
    | nil => simp [FVoxelChunkMesh.NormalizeDistances] at hrun
    | cons D0 Rest =>
      simp only [FVoxelChunkMesh.NormalizeDistances, Option.some.injEq] at hrun
      have h := (FVoxelChunkMesh.NormalizeLoop_spec Size (D0 :: Rest) (D0, D0)).2.2.2
      rw [hrun] at h
      exact h d hd
  obtain ⟨q0, q1, qlo, qhi⟩ := FVoxelChunkMesh.QuantizeEightBit_spec d Min Max hlt hbounds.1
    hbounds.2
  have hhalf : |Min + ((FVoxelChunkMesh.QuantizeEightBit d Min Max : ℤ) : ℚ) / 255 *
      (Max - Min) - d| ≤ (Max - Min) / 255 / 2 := by
    have hd' : d = Min + (d - Min) / (Max - Min) * (Max - Min) := by
      field_simp
    have e : Min + ((FVoxelChunkMesh.QuantizeEightBit d Min Max : ℤ) : ℚ) / 255 * (Max - Min) - d
        = (((FVoxelChunkMesh.QuantizeEightBit d Min Max : ℤ) : ℚ) -
            (d - Min) / (Max - Min) * 255) * ((Max - Min) / 255) := by
      field_simp
      ring
    rw [e, abs_mul, abs_of_pos (div_pos hw (by norm_num : (0 : ℚ) < 255))]
    have habs : |((FVoxelChunkMesh.QuantizeEightBit d Min Max : ℤ) : ℚ) -
        (d - Min) / (Max - Min) * 255| ≤ 1 / 2 := by
      rw [abs_le]
      constructor <;> linarith
    calc |((FVoxelChunkMesh.QuantizeEightBit d Min Max : ℤ) : ℚ) -
          (d - Min) / (Max - Min) * 255| * ((Max - Min) / 255)
        ≤ 1 / 2 * ((Max - Min) / 255) :=
          mul_le_mul_of_nonneg_right habs (le_of_lt (div_pos hw (by norm_num)))
      _ = (Max - Min) / 255 / 2 := by ring
  refine ⟨q0, q1, ?_, hhalf, ?_, ?_⟩
  · refine le_trans hhalf ?_
    have : 0 < (Max - Min) / 255 := div_pos hw (by norm_num)
    linarith
  · obtain ⟨a0, a1, alo, ahi⟩ := FVoxelChunkMesh.QuantizeEightBit_spec Min Min Max hlt
      (le_refl _) (le_of_lt hlt)
    simp only [sub_self, zero_div, zero_mul] at alo ahi
    have h1 : ((FVoxelChunkMesh.QuantizeEightBit Min Min Max : ℤ) : ℚ) < 1 := by linarith
    have h2 : FVoxelChunkMesh.QuantizeEightBit Min Min Max < 1 := by exact_mod_cast h1
    omega
  · obtain ⟨a0, a1, alo, ahi⟩ := FVoxelChunkMesh.QuantizeEightBit_spec Max Min Max hlt
      (le_of_lt hlt) (le_refl _)
    rw [div_self (ne_of_gt hw)] at alo ahi
    have h1 : (254 : ℚ) < ((FVoxelChunkMesh.QuantizeEightBit Max Min Max : ℤ) : ℚ) := by linarith
    have h2 : (254 : ℤ) < FVoxelChunkMesh.QuantizeEightBit Max Min Max := by exact_mod_cast h1
    omega

/-- Claim C16 at the grid `exampleDistances = [0, 1, 2, 2, 2, 2, 2, 2]` of size `2`: the
distances after the loop are `[0, 1/2, 1, 1, 1, 1, 1, 1]` with recorded bounds `0` and `1`, and
the sample `d = 1/2`. -/
theorem eight_bit_quantization_round_trip_witness :
    (FVoxelChunkMesh.NormalizeDistances exampleDistances 2 =
      some ([0, 1 / 2, 1, 1, 1, 1, 1, 1], 0, 1)) ∧
    ((0 : ℚ) < 1) ∧
    ((1 / 2 : ℚ) ∈ [(0 : ℚ), 1 / 2, 1, 1, 1, 1, 1, 1]) ∧
    (0 ≤ FVoxelChunkMesh.QuantizeEightBit (1 / 2) 0 1 ∧
    FVoxelChunkMesh.QuantizeEightBit (1 / 2) 0 1 ≤ 255 ∧
    |(0 : ℚ) + ((FVoxelChunkMesh.QuantizeEightBit (1 / 2) 0 1 : ℤ) : ℚ) / 255 * (1 - 0) - 1 / 2| ≤
      (1 - 0) / 255 ∧
    |(0 : ℚ) + ((FVoxelChunkMesh.QuantizeEightBit (1 / 2) 0 1 : ℤ) : ℚ) / 255 * (1 - 0) - 1 / 2| ≤
      (1 - 0) / 255 / 2 ∧
    FVoxelChunkMesh.QuantizeEightBit 0 0 1 = 0 ∧
    FVoxelChunkMesh.QuantizeEightBit 1 0 1 = 255) :=
  ⟨by norm_num [exampleDistances, FVoxelChunkMesh.NormalizeDistances,
      FVoxelChunkMesh.NormalizeLoop, FMath.Min, FMath.Max],
    by norm_num, by simp,
    eight_bit_quantization_round_trip exampleDistances 2 [0, 1 / 2, 1, 1, 1, 1, 1, 1] 0 1 (1 / 2)
      (by norm_num [exampleDistances, FVoxelChunkMesh.NormalizeDistances,
        FVoxelChunkMesh.NormalizeLoop, FMath.Min, FMath.Max])
      (by norm_num) (by simp)⟩

/-! ## The distance field: what the recorded bounds are -/

namespace FVoxelChunkMesh

/-- The recorded bounds of `BuildDistanceField` are the least and the greatest of the first
distance before its division by `Size` and all distances after their division. -/
theorem NormalizeDistances_recorded (Distance0 : ℚ) (Rest : List ℚ) (Size : Int)
    (Normalized : List ℚ) (Min Max : ℚ)
    (hrun : FVoxelChunkMesh.NormalizeDistances (Distance0 :: Rest) Size =
      some (Normalized, Min, Max)) :
    Normalized = (Distance0 :: Rest).map (fun d => d / (Size : ℚ)) ∧
    Min ≤ Distance0 ∧ (∀ d ∈ Normalized, Min ≤ d) ∧ (Min = Distance0 ∨ Min ∈ Normalized) ∧
    Distance0 ≤ Max ∧ (∀ d ∈ Normalized, d ≤ Max) ∧ (Max = Distance0 ∨ Max ∈ Normalized) := by
  have hgen : ∀ (Ds : List ℚ) (mn mx : ℚ),
      ((FVoxelChunkMesh.NormalizeLoop Size Ds (mn, mx)).2.1 = mn ∨
        (FVoxelChunkMesh.NormalizeLoop Size Ds (mn, mx)).2.1 ∈
          (FVoxelChunkMesh.NormalizeLoop Size Ds (mn, mx)).1) ∧
      ((FVoxelChunkMesh.NormalizeLoop Size Ds (mn, mx)).2.2 = mx ∨
        (FVoxelChunkMesh.NormalizeLoop Size Ds (mn, mx)).2.2 ∈
          (FVoxelChunkMesh.NormalizeLoop Size Ds (mn, mx)).1) := by
    intro Ds
    induction Ds with
    | nil => intro mn mx; simp [FVoxelChunkMesh.NormalizeLoop]
    | cons D Rest ih =>
      intro mn mx
      obtain ⟨h1, h2⟩ := ih (FMath.Min mn (D / (Size : ℚ))) (FMath.Max mx (D / (Size : ℚ)))
      simp only [FVoxelChunkMesh.NormalizeLoop, List.mem_cons]
      constructor
      · rcases h1 with h | h
        · rw [h, FMath.Min_eq_min]
          rcases min_choice mn (D / (Size : ℚ)) with e | e
          · exact Or.inl e
          · exact Or.inr (Or.inl e)
        · exact Or.inr (Or.inr h)
      · rcases h2 with h | h
        · rw [h, FMath.Max_eq_max]
          rcases max_choice mx (D / (Size : ℚ)) with e | e
          · exact Or.inl e
          · exact Or.inr (Or.inl e)
        · exact Or.inr (Or.inr h)
  simp only [FVoxelChunkMesh.NormalizeDistances, Option.some.injEq] at hrun
  obtain ⟨s1, s2, s3, s4⟩ := FVoxelChunkMesh.NormalizeLoop_spec Size (Distance0 :: Rest)
    (Distance0, Distance0)
  obtain ⟨g1, g2⟩ := hgen (Distance0 :: Rest) Distance0 Distance0
  rw [hrun] at s1 s2 s3 s4 g1 g2
  exact ⟨s1, s2, fun d hd => (s4 d hd).1, g1, s3, fun d hd => (s4 d hd).2, g2⟩

end FVoxelChunkMesh

/-- Claim C17 fails at `Size = 2` on the grid of eight distances that are all `1`: each distance
after the loop is `1/2`, so the smallest and the largest normalised distance are both `1/2`; the
recorded minimum is `1/2`, but the recorded maximum is `1`, the first distance as it was before
its division by `Size`, and `1` is none of the normalised distances. -/
theorem recorded_maximum_is_first_distance_before_division :
    FVoxelChunkMesh.NormalizeDistances [1, 1, 1, 1, 1, 1, 1, 1] 2 =
      some ([1 / 2, 1 / 2, 1 / 2, 1 / 2, 1 / 2, 1 / 2, 1 / 2, 1 / 2], 1 / 2, 1) ∧
    (∀ d ∈ [(1 / 2 : ℚ), 1 / 2, 1 / 2, 1 / 2, 1 / 2, 1 / 2, 1 / 2, 1 / 2], d = 1 / 2) ∧
    (1 : ℚ) ∉ [(1 / 2 : ℚ), 1 / 2, 1 / 2, 1 / 2, 1 / 2, 1 / 2, 1 / 2, 1 / 2] := by
  refine ⟨?_, ?_, ?_⟩
  · norm_num [FVoxelChunkMesh.NormalizeDistances, FVoxelChunkMesh.NormalizeLoop, FMath.Min,
      FMath.Max]
  · simp
  · norm_num

/-! ## `FVoxelChunkMeshBuffers::ComputeBounds` -/

namespace FBox

variable {T : Type}

/-- Folding `+=` over points from a valid box: the box stays valid, each corner coordinate only
moves outwards, bounds every point added, and is the old coordinate or that of a point added. -/
theorem foldl_addPoint_valid [LinearOrder T] (Points : List (FVector T)) (B : FBox T)
    (hB : B.IsValid = true) :
    (Points.foldl addPoint B).IsValid = true ∧
    ((Points.foldl addPoint B).Min.X ≤ B.Min.X ∧ (Points.foldl addPoint B).Min.Y ≤ B.Min.Y ∧
      (Points.foldl addPoint B).Min.Z ≤ B.Min.Z ∧ B.Max.X ≤ (Points.foldl addPoint B).Max.X ∧
      B.Max.Y ≤ (Points.foldl addPoint B).Max.Y ∧ B.Max.Z ≤ (Points.foldl addPoint B).Max.Z) ∧
    (∀ P ∈ Points,
      (Points.foldl addPoint B).Min.X ≤ P.X ∧ (Points.foldl addPoint B).Min.Y ≤ P.Y ∧
      (Points.foldl addPoint B).Min.Z ≤ P.Z ∧ P.X ≤ (Points.foldl addPoint B).Max.X ∧
      P.Y ≤ (Points.foldl addPoint B).Max.Y ∧ P.Z ≤ (Points.foldl addPoint B).Max.Z) ∧
    (((Points.foldl addPoint B).Min.X = B.Min.X ∨
        ∃ P ∈ Points, (Points.foldl addPoint B).Min.X = P.X) ∧
      ((Points.foldl addPoint B).Min.Y = B.Min.Y ∨
        ∃ P ∈ Points, (Points.foldl addPoint B).Min.Y = P.Y) ∧
      ((Points.foldl addPoint B).Min.Z = B.Min.Z ∨
        ∃ P ∈ Points, (Points.foldl addPoint B).Min.Z = P.Z) ∧
      ((Points.foldl addPoint B).Max.X = B.Max.X ∨
        ∃ P ∈ Points, (Points.foldl addPoint B).Max.X = P.X) ∧
      ((Points.foldl addPoint B).Max.Y = B.Max.Y ∨
        ∃ P ∈ Points, (Points.foldl addPoint B).Max.Y = P.Y) ∧
      ((Points.foldl addPoint B).Max.Z = B.Max.Z ∨
        ∃ P ∈ Points, (Points.foldl addPoint B).Max.Z = P.Z)) := by
  induction Points generalizing B with
  | nil => simp [hB]
  | cons Q Rest ih =>
    have hv : (addPoint B Q).IsValid = true := by simp [addPoint, hB]
    obtain ⟨i1, ⟨a1, a2, a3, a4, a5, a6⟩, i3, ⟨c1, c2, c3, c4, c5, c6⟩⟩ := ih (addPoint B Q) hv
    have e : addPoint B Q =
        { Min := { X := min B.Min.X Q.X, Y := min B.Min.Y Q.Y, Z := min B.Min.Z Q.Z },
          Max := { X := max B.Max.X Q.X, Y := max B.Max.Y Q.Y, Z := max B.Max.Z Q.Z },
          IsValid := true } := by
      simp [addPoint, hB, FMath.Min_eq_min, FMath.Max_eq_max]
    simp only [List.foldl_cons, List.mem_cons, forall_eq_or_imp, exists_eq_or_imp]
    have e1 : (addPoint B Q).Min.X = min B.Min.X Q.X := by rw [e]
    have e2 : (addPoint B Q).Min.Y = min B.Min.Y Q.Y := by rw [e]
    have e3 : (addPoint B Q).Min.Z = min B.Min.Z Q.Z := by rw [e]
    have e4 : (addPoint B Q).Max.X = max B.Max.X Q.X := by rw [e]
    have e5 : (addPoint B Q).Max.Y = max B.Max.Y Q.Y := by rw [e]
    have e6 : (addPoint B Q).Max.Z = max B.Max.Z Q.Z := by rw [e]
    simp only [e1, e2, e3, e4, e5, e6] at a1 a2 a3 a4 a5 a6 c1 c2 c3 c4 c5 c6
    refine ⟨i1, ⟨le_trans a1 (min_le_left _ _), le_trans a2 (min_le_left _ _),
        le_trans a3 (min_le_left _ _), le_trans (le_max_left _ _) a4,
        le_trans (le_max_left _ _) a5, le_trans (le_max_left _ _) a6⟩,
      ⟨⟨le_trans a1 (min_le_right _ _), le_trans a2 (min_le_right _ _),
        le_trans a3 (min_le_right _ _), le_trans (le_max_right _ _) a4,
        le_trans (le_max_right _ _) a5, le_trans (le_max_right _ _) a6⟩, i3⟩, ?_, ?_, ?_, ?_, ?_,
      ?_⟩
    · rcases c1 with h | h
      · rcases min_choice B.Min.X Q.X with m | m
        · exact Or.inl (h.trans m)
        · exact Or.inr (Or.inl (h.trans m))
      · exact Or.inr (Or.inr h)
    · rcases c2 with h | h
      · rcases min_choice B.Min.Y Q.Y with m | m
        · exact Or.inl (h.trans m)
        · exact Or.inr (Or.inl (h.trans m))
      · exact Or.inr (Or.inr h)
    · rcases c3 with h | h
      · rcases min_choice B.Min.Z Q.Z with m | m
        · exact Or.inl (h.trans m)
        · exact Or.inr (Or.inl (h.trans m))
      · exact Or.inr (Or.inr h)
    · rcases c4 with h | h
      · rcases max_choice B.Max.X Q.X with m | m
        · exact Or.inl (h.trans m)
        · exact Or.inr (Or.inl (h.trans m))
      · exact Or.inr (Or.inr h)
    · rcases c5 with h | h
      · rcases max_choice B.Max.Y Q.Y with m | m
        · exact Or.inl (h.trans m)
        · exact Or.inr (Or.inl (h.trans m))
      · exact Or.inr (Or.inr h)
    · rcases c6 with h | h
      · rcases max_choice B.Max.Z Q.Z with m | m
        · exact Or.inl (h.trans m)
        · exact Or.inr (Or.inl (h.trans m))
      · exact Or.inr (Or.inr h)

end FBox

/-- Claim C18. Over a linearly ordered scalar, `ComputeBounds` sets `Bounds` to the union of the
positions and changes nothing else. For a position buffer that is not empty the box is valid,
each coordinate of `Bounds.Min` is below and each coordinate of `Bounds.Max` is above that
coordinate of every position and is that coordinate of some position (the component-wise
minimum and maximum), and every position lies in the closed box; the positions
`(0, 0, 0), (1, 2, 3)` give the box from `(0, 0, 0)` to `(1, 2, 3)`. The result is the same
whatever `Bounds` was before. For an empty position buffer `Bounds` is the force-initialised box,
which is not valid. -/
theorem ComputeBounds_is_union_of_positions {T : Type} [LinearOrderedRing T]
    (This : FVoxelChunkMeshBuffers T) (Previous : FBox T) :
    (This.Positions = [] →
      This.ComputeBounds.Bounds = FBox.ForceInit ∧
      This.ComputeBounds.Bounds.IsValid = false) ∧
    (This.Positions ≠ [] →
      This.ComputeBounds.Bounds.IsValid = true ∧
      (∀ P ∈ This.Positions,
        This.ComputeBounds.Bounds.Min.X ≤ P.X ∧ This.ComputeBounds.Bounds.Min.Y ≤ P.Y ∧
        This.ComputeBounds.Bounds.Min.Z ≤ P.Z ∧ P.X ≤ This.ComputeBounds.Bounds.Max.X ∧
        P.Y ≤ This.ComputeBounds.Bounds.Max.Y ∧ P.Z ≤ This.ComputeBounds.Bounds.Max.Z) ∧
      ((∃ P ∈ This.Positions, This.ComputeBounds.Bounds.Min.X = P.X) ∧
        (∃ P ∈ This.Positions, This.ComputeBounds.Bounds.Min.Y = P.Y) ∧
        (∃ P ∈ This.Positions, This.ComputeBounds.Bounds.Min.Z = P.Z) ∧
        (∃ P ∈ This.Positions, This.ComputeBounds.Bounds.Max.X = P.X) ∧
        (∃ P ∈ This.Positions, This.ComputeBounds.Bounds.Max.Y = P.Y) ∧
        (∃ P ∈ This.Positions, This.ComputeBounds.Bounds.Max.Z = P.Z)) ∧
      (∀ P ∈ This.Positions, This.ComputeBounds.Bounds.IsInsideOrOn P = true)) ∧
    ({ This with Bounds := Previous }).ComputeBounds = This.ComputeBounds ∧
    This.ComputeBounds = { This with Bounds := This.ComputeBounds.Bounds } ∧
    ({ This with Positions := [({ X := 0, Y := 0, Z := 0 } : FVector T),
          { X := 1, Y := 2, Z := 3 }] }).ComputeBounds.Bounds =
      ({ Min := { X := 0, Y := 0, Z := 0 }, Max := { X := 1, Y := 2, Z := 3 },
         IsValid := true } : FBox T) := by
  refine ⟨?_, ?_, rfl, rfl, ?_⟩
  · intro h
    simp [FVoxelChunkMeshBuffers.ComputeBounds, h, FBox.ForceInit]
  · intro h
    obtain ⟨P0, Rest, hP⟩ := List.exists_cons_of_ne_nil h
    have hfold : This.ComputeBounds.Bounds =
        Rest.foldl FBox.addPoint { Min := P0, Max := P0, IsValid := true } := by
      simp [FVoxelChunkMeshBuffers.ComputeBounds, hP, FBox.addPoint, FBox.ForceInit]
    obtain ⟨v, ⟨f1, f2, f3, f4, f5, f6⟩, hRest, ⟨c1, c2, c3, c4, c5, c6⟩⟩ :=
      FBox.foldl_addPoint_valid Rest { Min := P0, Max := P0, IsValid := true } rfl
    rw [← hfold] at v f1 f2 f3 f4 f5 f6 hRest c1 c2 c3 c4 c5 c6
    simp only at f1 f2 f3 f4 f5 f6 c1 c2 c3 c4 c5 c6
    have hall : ∀ P ∈ This.Positions,
        This.ComputeBounds.Bounds.Min.X ≤ P.X ∧ This.ComputeBounds.Bounds.Min.Y ≤ P.Y ∧
        This.ComputeBounds.Bounds.Min.Z ≤ P.Z ∧ P.X ≤ This.ComputeBounds.Bounds.Max.X ∧
        P.Y ≤ This.ComputeBounds.Bounds.Max.Y ∧ P.Z ≤ This.ComputeBounds.Bounds.Max.Z := by
      intro P hPmem
      rw [hP, List.mem_cons] at hPmem
      rcases hPmem with rfl | hPmem
      · exact ⟨f1, f2, f3, f4, f5, f6⟩
      · exact hRest P hPmem
    have hex : ∀ {r : T} {f : FVector T → T}, (r = f P0 ∨ ∃ P ∈ Rest, r = f P) →
        ∃ P ∈ This.Positions, r = f P := by
      intro r f hc
      rw [hP]
      rcases hc with hc | ⟨P, hPm, hc⟩
      · exact ⟨P0, List.mem_cons_self _ _, hc⟩
      · exact ⟨P, List.mem_cons_of_mem _ hPm, hc⟩
    refine ⟨v, hall, ⟨hex (f := fun P => P.X) c1, hex (f := fun P => P.Y) c2,
      hex (f := fun P => P.Z) c3, hex (f := fun P => P.X) c4, hex (f := fun P => P.Y) c5,
      hex (f := fun P => P.Z) c6⟩, ?_⟩
    intro P hPmem
    obtain ⟨g1, g2, g3, g4, g5, g6⟩ := hall P hPmem
    simp [FBox.IsInsideOrOn, g1, g2, g3, g4, g5, g6]
  · simp [FVoxelChunkMeshBuffers.ComputeBounds, FBox.addPoint, FBox.ForceInit, FMath.Min,
      FMath.Max]

/-- Claim C18 at the buffer `exampleBuffers`, whose positions are `(0, 0, 0)` and `(1, 2, 3)` and
whose bounds are stale: the bounds computed are the box from `(0, 0, 0)` to `(1, 2, 3)`. -/
theorem ComputeBounds_is_union_of_positions_witness :
    (exampleBuffers.ComputeBounds.Bounds =
      { Min := { X := 0, Y := 0, Z := 0 }, Max := { X := 1, Y := 2, Z := 3 }, IsValid := true }) ∧
    ((exampleBuffers.Positions = [] →
      exampleBuffers.ComputeBounds.Bounds = FBox.ForceInit ∧
      exampleBuffers.ComputeBounds.Bounds.IsValid = false) ∧
    (exampleBuffers.Positions ≠ [] →
      exampleBuffers.ComputeBounds.Bounds.IsValid = true ∧
      (∀ P ∈ exampleBuffers.Positions,
        exampleBuffers.ComputeBounds.Bounds.Min.X ≤ P.X ∧ exampleBuffers.ComputeBounds.Bounds.Min.Y ≤ P.Y ∧
        exampleBuffers.ComputeBounds.Bounds.Min.Z ≤ P.Z ∧ P.X ≤ exampleBuffers.ComputeBounds.Bounds.Max.X ∧
        P.Y ≤ exampleBuffers.ComputeBounds.Bounds.Max.Y ∧ P.Z ≤ exampleBuffers.ComputeBounds.Bounds.Max.Z) ∧
      ((∃ P ∈ exampleBuffers.Positions, exampleBuffers.ComputeBounds.Bounds.Min.X = P.X) ∧
        (∃ P ∈ exampleBuffers.Positions, exampleBuffers.ComputeBounds.Bounds.Min.Y = P.Y) ∧
        (∃ P ∈ exampleBuffers.Positions, exampleBuffers.ComputeBounds.Bounds.Min.Z = P.Z) ∧
        (∃ P ∈ exampleBuffers.Positions, exampleBuffers.ComputeBounds.Bounds.Max.X = P.X) ∧
        (∃ P ∈ exampleBuffers.Positions, exampleBuffers.ComputeBounds.Bounds.Max.Y = P.Y) ∧
        (∃ P ∈ exampleBuffers.Positions, exampleBuffers.ComputeBounds.Bounds.Max.Z = P.Z)) ∧
      (∀ P ∈ exampleBuffers.Positions, exampleBuffers.ComputeBounds.Bounds.IsInsideOrOn P = true)) ∧
    ({ exampleBuffers with Bounds := FBox.ForceInit }).ComputeBounds = exampleBuffers.ComputeBounds ∧
    exampleBuffers.ComputeBounds = { exampleBuffers with Bounds := exampleBuffers.ComputeBounds.Bounds } ∧
    ({ exampleBuffers with Positions := [({ X := 0, Y := 0, Z := 0 } : FVector ℤ),
          { X := 1, Y := 2, Z := 3 }] }).ComputeBounds.Bounds =
      ({ Min := { X := 0, Y := 0, Z := 0 }, Max := { X := 1, Y := 2, Z := 3 },
         IsValid := true } : FBox ℤ)) :=
  ⟨by decide,
    ComputeBounds_is_union_of_positions exampleBuffers FBox.ForceInit ⟩

/-! ## `FVoxelChunkMeshBuffers::OptimizeIndices` -/

namespace FVoxelChunkMeshBuffers

/-- The triangles of an index buffer of `3 * n` indices, by face number. -/
theorem TrianglesOf_eq_map (n : Nat) (Indices : List Nat) (h : Indices.length = 3 * n) :
    TrianglesOf Indices = (List.range n).map fun Face =>
      (Indices.getD (3 * Face) 0, Indices.getD (3 * Face + 1) 0,
        Indices.getD (3 * Face + 2) 0) := by
  induction n generalizing Indices with
  | zero =>
    have : Indices = [] := List.length_eq_zero.mp (by simpa using h)
    subst this
    simp [TrianglesOf]
  | succ n ih =>
    match Indices, h with
    | a :: b :: c :: Rest, h =>
      have hRest : Rest.length = 3 * n := by
        simp only [List.length_cons] at h
        omega
      rw [TrianglesOf, ih Rest hRest, List.range_succ_eq_map, List.map_cons, List.map_map]
      refine congrArg₂ _ ?_ ?_
      · simp
      · apply List.map_congr_left
        intro Face _
        have e1 : 3 * (Face + 1) = 3 * Face + 3 := by ring
        simp only [Function.comp, Nat.succ_eq_add_one, e1]
        rfl
    | [], h => exact absurd h (by simp only [List.length_nil]; omega)
    | [_], h => exact absurd h (by simp only [List.length_cons, List.length_nil]; omega)
    | [_, _], h => exact absurd h (by simp only [List.length_cons, List.length_nil]; omega)

/-- The triangles of the buffer that `Forsyth.WriteFaces` writes, by face number. -/
theorem TrianglesOf_WriteFaces (order Indices : List Nat) :
    TrianglesOf (Forsyth.WriteFaces order Indices) =
      order.map fun Face =>
        (Indices.getD (3 * Face) 0, Indices.getD (3 * Face + 1) 0,
          Indices.getD (3 * Face + 2) 0) := by
  induction order with
  | nil => simp [Forsyth.WriteFaces, TrianglesOf]
  | cons Face Rest ih =>
    have e : Forsyth.WriteFaces (Face :: Rest) Indices =
        Indices.getD (3 * Face) 0 :: Indices.getD (3 * Face + 1) 0 ::
          Indices.getD (3 * Face + 2) 0 :: Forsyth.WriteFaces Rest Indices := rfl
    rw [e, TrianglesOf, ih, List.map_cons]

/-- The buffer that `Forsyth.WriteFaces` writes has three indices for each face written. -/
theorem length_WriteFaces (order Indices : List Nat) :
    (Forsyth.WriteFaces order Indices).length = 3 * order.length := by
  induction order with
  | nil => simp [Forsyth.WriteFaces]
  | cons Face Rest ih =>
    have e : Forsyth.WriteFaces (Face :: Rest) Indices =
        Indices.getD (3 * Face) 0 :: Indices.getD (3 * Face + 1) 0 ::
          Indices.getD (3 * Face + 2) 0 :: Forsyth.WriteFaces Rest Indices := rfl
    rw [e]
    simp only [List.length_cons, ih]
    omega

/-- The order in which `Forsyth.OptimizeFaces` writes the faces is a reordering of the face
numbers, whatever the ranks. -/
theorem OptimizeFaces_order_perm (Rank : Nat → Nat) (indexCount : Nat) :
    ((List.range (indexCount / 3)).insertionSort fun a b => Rank a ≤ Rank b).Perm
      (List.range (indexCount / 3)) :=
  List.perm_insertionSort _ _

end FVoxelChunkMeshBuffers

/-- Claim C19. For an index buffer of whole triangles, and whatever ranks the heuristic of the
optimizer gives the faces: `OptimizeIndices` leaves an index buffer of the same length whose
triangles, each with its three indices in their order, are a reordering of the triangles
before, so that the same triangles are in it, and it changes no vertex buffer and not the
bounds; with the build switch off it changes nothing at all. -/
theorem OptimizeIndices_reorders_triangles {T : Type} (This : FVoxelChunkMeshBuffers T)
    (ENABLE_OPTIMIZE_INDICES : Bool) (Rank : Nat → Nat)
    (hTriangles : This.Indices.length % 3 = 0) :
    (This.OptimizeIndices ENABLE_OPTIMIZE_INDICES Rank).Indices.length = This.Indices.length ∧
    (FVoxelChunkMeshBuffers.TrianglesOf
        (This.OptimizeIndices ENABLE_OPTIMIZE_INDICES Rank).Indices).Perm
      (FVoxelChunkMeshBuffers.TrianglesOf This.Indices) ∧
    (∀ Triangle, Triangle ∈ FVoxelChunkMeshBuffers.TrianglesOf
        (This.OptimizeIndices ENABLE_OPTIMIZE_INDICES Rank).Indices ↔
      Triangle ∈ FVoxelChunkMeshBuffers.TrianglesOf This.Indices) ∧
    (This.OptimizeIndices ENABLE_OPTIMIZE_INDICES Rank).Positions = This.Positions ∧
    (This.OptimizeIndices ENABLE_OPTIMIZE_INDICES Rank).Normals = This.Normals ∧
    (This.OptimizeIndices ENABLE_OPTIMIZE_INDICES Rank).Tangents = This.Tangents ∧
    (This.OptimizeIndices ENABLE_OPTIMIZE_INDICES Rank).Colors = This.Colors ∧
    (This.OptimizeIndices ENABLE_OPTIMIZE_INDICES Rank).TextureCoordinates =
      This.TextureCoordinates ∧
    (This.OptimizeIndices ENABLE_OPTIMIZE_INDICES Rank).Bounds = This.Bounds ∧
    This.OptimizeIndices false Rank = This := by
  have hlen : This.Indices.length = 3 * (This.Indices.length / 3) := by omega
  have hOrder := FVoxelChunkMeshBuffers.OptimizeFaces_order_perm Rank This.Indices.length
  have hperm : (FVoxelChunkMeshBuffers.TrianglesOf
        (This.OptimizeIndices ENABLE_OPTIMIZE_INDICES Rank).Indices).Perm
      (FVoxelChunkMeshBuffers.TrianglesOf This.Indices) := by
    cases ENABLE_OPTIMIZE_INDICES
    · exact List.Perm.refl _
    · simp only [FVoxelChunkMeshBuffers.OptimizeIndices, if_true, Forsyth.OptimizeFaces]
      rw [FVoxelChunkMeshBuffers.TrianglesOf_WriteFaces,
        FVoxelChunkMeshBuffers.TrianglesOf_eq_map _ This.Indices hlen]
      exact hOrder.map _
  refine ⟨?_, hperm, fun Triangle => hperm.mem_iff, ?_, ?_, ?_, ?_, ?_, ?_, rfl⟩
  · cases ENABLE_OPTIMIZE_INDICES
    · rfl
    · simp only [FVoxelChunkMeshBuffers.OptimizeIndices, if_true, Forsyth.OptimizeFaces]
      rw [FVoxelChunkMeshBuffers.length_WriteFaces, hOrder.length_eq, List.length_range]
      omega
  all_goals cases ENABLE_OPTIMIZE_INDICES <;> rfl

/-- Claim C19 at the buffer `exampleBuffers` of the two triangles `(0, 1, 2)` and `(2, 1, 3)`, for
ranks by which the second triangle comes first. -/
theorem OptimizeIndices_reorders_triangles_witness :
    ((exampleBuffers.OptimizeIndices true (fun Face => 1 - Face)).Indices =
      [2, 1, 3, 0, 1, 2]) ∧
    (exampleBuffers.Indices.length % 3 = 0) ∧
    ((exampleBuffers.OptimizeIndices true (fun Face => 1 - Face)).Indices.length = exampleBuffers.Indices.length ∧
    (FVoxelChunkMeshBuffers.TrianglesOf
        (exampleBuffers.OptimizeIndices true (fun Face => 1 - Face)).Indices).Perm
      (FVoxelChunkMeshBuffers.TrianglesOf exampleBuffers.Indices) ∧
    (∀ Triangle, Triangle ∈ FVoxelChunkMeshBuffers.TrianglesOf
        (exampleBuffers.OptimizeIndices true (fun Face => 1 - Face)).Indices ↔
      Triangle ∈ FVoxelChunkMeshBuffers.TrianglesOf exampleBuffers.Indices) ∧
    (exampleBuffers.OptimizeIndices true (fun Face => 1 - Face)).Positions = exampleBuffers.Positions ∧
    (exampleBuffers.OptimizeIndices true (fun Face => 1 - Face)).Normals = exampleBuffers.Normals ∧
    (exampleBuffers.OptimizeIndices true (fun Face => 1 - Face)).Tangents = exampleBuffers.Tangents ∧
    (exampleBuffers.OptimizeIndices true (fun Face => 1 - Face)).Colors = exampleBuffers.Colors ∧
    (exampleBuffers.OptimizeIndices true (fun Face => 1 - Face)).TextureCoordinates =
      exampleBuffers.TextureCoordinates ∧
    (exampleBuffers.OptimizeIndices true (fun Face => 1 - Face)).Bounds = exampleBuffers.Bounds ∧
    exampleBuffers.OptimizeIndices false (fun Face => 1 - Face) = exampleBuffers) :=
  ⟨by decide, by decide,
    OptimizeIndices_reorders_triangles exampleBuffers true (fun Face => 1 - Face) (by decide)⟩

/-! ## `FVoxelSurfaceToolsImpl`: the size of the batch -/

namespace FVoxelSurfaceToolsImpl

variable {K : Type}

/-- After the first `n` passes of the compaction loop the array has its length, the counter is
at most `n`, the first `Num` entries are the voxels kept among the first `n`, and the entries
from `n` on are as they were. -/
theorem CompactStep_foldl (Body : FVoxelSurfaceEditsVoxel K → Option (FVoxelSurfaceEditsVoxel K))
    (Voxels : List (FVoxelSurfaceEditsVoxel K)) (n : Nat) (hn : n ≤ Voxels.length) :
    ((List.range n).foldl (CompactStep Body) (Voxels, 0)).1.length = Voxels.length ∧
    ((List.range n).foldl (CompactStep Body) (Voxels, 0)).2 ≤ n ∧
    ((List.range n).foldl (CompactStep Body) (Voxels, 0)).1.take
        ((List.range n).foldl (CompactStep Body) (Voxels, 0)).2 =
      (Voxels.take n).filterMap Body ∧
    ((List.range n).foldl (CompactStep Body) (Voxels, 0)).1.drop n = Voxels.drop n := by
  induction n with
  | zero => simp
  | succ n ih =>
    obtain ⟨h1, h2, h3, h4⟩ := ih (Nat.le_of_succ_le hn)
    have hlt : n < Voxels.length := hn
    rw [List.range_succ, List.foldl_append, List.foldl_cons, List.foldl_nil]
    generalize (List.range n).foldl (CompactStep Body) (Voxels, 0) = State at h1 h2 h3 h4
    obtain ⟨Array, Num⟩ := State
    simp only at h1 h2 h3 h4
    have hget : Array[n]? = some (Voxels.get ⟨n, hlt⟩) := by
      have e1 : Array[n]? = (Array.drop n)[0]? := by simp
      have e2 : (Voxels.drop n)[0]? = Voxels[n]? := by simp
      rw [e1, h4, e2]
      exact List.getElem?_eq_getElem hlt
    have htake : Voxels.take (n + 1) = Voxels.take n ++ [Voxels.get ⟨n, hlt⟩] := by
      rw [List.take_succ, List.getElem?_eq_getElem hlt]
      rfl
    rw [htake, List.filterMap_append]
    unfold CompactStep
    simp only [hget]
    cases hB : Body (Voxels.get ⟨n, hlt⟩) with
    | none =>
      simp only [List.filterMap_cons, hB, List.filterMap_nil, List.append_nil]
      refine ⟨h1, Nat.le_succ_of_le h2, h3, ?_⟩
      rw [← List.drop_drop 1 n, ← List.drop_drop 1 n Voxels, h4]
    | some NewVoxel =>
      simp only [List.filterMap_cons, hB, List.filterMap_nil, List.length_set]
      have hNum : Num < Array.length := by omega
      refine ⟨h1, Nat.succ_le_succ h2, ?_, ?_⟩
      · rw [← h3, List.take_succ, List.getElem?_set_self hNum]
        simp only [Option.toList_some]
        congr 1
        rw [List.set_take]
        exact List.set_eq_of_length_le (by simp)
      · rw [List.drop_set_of_lt _ _ (Nat.lt_succ_of_le h2), ← List.drop_drop 1 n,
          ← List.drop_drop 1 n Voxels, h4]

/-- The compaction loop keeps, in order, the voxels the body stores. -/
theorem CompactInPlace_eq_filterMap
    (Body : FVoxelSurfaceEditsVoxel K → Option (FVoxelSurfaceEditsVoxel K))
    (Voxels : List (FVoxelSurfaceEditsVoxel K)) :
    CompactInPlace Body Voxels = Voxels.filterMap Body := by
  obtain ⟨-, -, h3, -⟩ := CompactStep_foldl Body Voxels Voxels.length (le_refl _)
  unfold CompactInPlace
  rw [h3, List.take_length]

/-- A body that changes nothing but the strength gives a batch whose positions, normals and
values are a subsequence of those of the input. -/
theorem filterMap_sublist (Body : FVoxelSurfaceEditsVoxel K → Option (FVoxelSurfaceEditsVoxel K))
    (hBody : ∀ Voxel NewVoxel, Body Voxel = some NewVoxel →
      (NewVoxel.Position, NewVoxel.Normal, NewVoxel.Value) =
        (Voxel.Position, Voxel.Normal, Voxel.Value))
    (Voxels : List (FVoxelSurfaceEditsVoxel K)) :
    ((Voxels.filterMap Body).map fun Voxel =>
        (Voxel.Position, Voxel.Normal, Voxel.Value)).Sublist
      (Voxels.map fun Voxel => (Voxel.Position, Voxel.Normal, Voxel.Value)) := by
  induction Voxels with
  | nil => simp
  | cons Voxel Rest ih =>
    cases hB : Body Voxel with
    | none =>
      rw [List.filterMap_cons_none hB, List.map_cons]
      exact List.Sublist.cons _ ih
    | some NewVoxel =>
      rw [List.filterMap_cons_some hB, List.map_cons, List.map_cons, hBody Voxel NewVoxel hB]
      exact List.Sublist.cons₂ _ ih

end FVoxelSurfaceToolsImpl

namespace FVoxelSurfaceToolsImpl

variable {K : Type}

/-- The compaction loop with a body that changes nothing but the strength gives a batch that
is not longer and whose positions, normals and values are a subsequence of those of the
input. -/
theorem CompactInPlace_sublist
    (Body : FVoxelSurfaceEditsVoxel K → Option (FVoxelSurfaceEditsVoxel K))
    (hBody : ∀ Voxel NewVoxel, Body Voxel = some NewVoxel →
      (NewVoxel.Position, NewVoxel.Normal, NewVoxel.Value) =
        (Voxel.Position, Voxel.Normal, Voxel.Value))
    (Voxels : List (FVoxelSurfaceEditsVoxel K)) :
    (CompactInPlace Body Voxels).length ≤ Voxels.length ∧
    ((CompactInPlace Body Voxels).map fun Voxel =>
        (Voxel.Position, Voxel.Normal, Voxel.Value)).Sublist
      (Voxels.map fun Voxel => (Voxel.Position, Voxel.Normal, Voxel.Value)) := by
  rw [CompactInPlace_eq_filterMap]
  exact ⟨List.length_filterMap_le _ _, filterMap_sublist Body hBody Voxels⟩

/-- The batch of `ApplyStrengthFunctionImpl` is not longer than the input, and a subsequence
of it up to the strength. -/
theorem ApplyStrengthFunctionImpl_sublist [Mul K] [Zero K] [BEq K]
    (Voxels : List (FVoxelSurfaceEditsVoxel K)) (GetStrength : FVoxelSurfaceEditsVoxel K → K) :
    (ApplyStrengthFunctionImpl Voxels GetStrength).length ≤ Voxels.length ∧
    ((ApplyStrengthFunctionImpl Voxels GetStrength).map fun Voxel =>
        (Voxel.Position, Voxel.Normal, Voxel.Value)).Sublist
      (Voxels.map fun Voxel => (Voxel.Position, Voxel.Normal, Voxel.Value)) := by
  apply CompactInPlace_sublist
  intro Voxel NewVoxel h
  simp only at h
  split at h
  · cases h
    rfl
  · cases h

/-- The batch of `ApplySDFImpl` has the length, positions, normals and values of the input. -/
theorem ApplySDFImpl_same [Add K] [Sub K] [Mul K] [One K] [Neg K] [IntCast K] [LE K] [LT K]
    [DecidableRel (α := K) (· ≤ ·)] [DecidableRel (α := K) (· < ·)]
    (Info : FVoxelSurfaceEditsVoxelsInfo) (Voxels : List (FVoxelSurfaceEditsVoxel K))
    (MergeMode : EVoxelSDFMergeMode) (GetDistance : FVector K → K) :
    (ApplySDFImpl Info Voxels MergeMode GetDistance).length = Voxels.length ∧
    ((ApplySDFImpl Info Voxels MergeMode GetDistance).map fun Voxel =>
        (Voxel.Position, Voxel.Normal, Voxel.Value)) =
      (Voxels.map fun Voxel => (Voxel.Position, Voxel.Normal, Voxel.Value)) := by
  unfold ApplySDFImpl
  refine ⟨List.length_map _ _, ?_⟩
  rw [List.map_map]
  apply List.map_congr_left
  intro Voxel _
  simp only [Function.comp]
  split <;> rfl

end FVoxelSurfaceToolsImpl

/-- Claim C20. No surface-edit operator grows the batch. `ApplyConstantStrengthImpl`,
`ApplySDFImpl` and `ApplyFlattenImpl` return a batch of the same length with the positions,
normals and values of the input, voxel by voxel. `ApplyStrengthFunctionImpl`,
`ApplyDistanceStrengthFunctionImpl` and `ApplyTerraceImpl` return a batch that is not longer and
whose voxels are, in order and up to the strength, a subsequence of the voxels of the input.
This holds over every scalar type, whatever the weight and distance functions. -/
theorem surface_operators_never_grow_batch {K : Type} [Add K] [Sub K] [Mul K] [Div K] [Zero K]
    [One K] [Neg K] [BEq K] [IntCast K] [LE K] [LT K] [DecidableRel (α := K) (· ≤ ·)]
    [DecidableRel (α := K) (· < ·)]
    (Info : FVoxelSurfaceEditsVoxelsInfo) (Voxels : List (FVoxelSurfaceEditsVoxel K))
    (Strength : K) (GetStrength : FVoxelSurfaceEditsVoxel K → K) (Sqrt : K → K)
    (VoxelDistance : FVector K → FVector K → K) (Center : FVector K) (b2D : Bool)
    (GetStrengthFromDistance : K → K) (MergeMode : EVoxelSDFMergeMode)
    (GetDistance : FVector K → K) (Plane : FPlane K) (PositiveMod : Int → Int → Int)
    (DegreesToRadians Acos : K → K) (TerraceHeightInVoxels : Int) (Angle : K)
    (ImmutableVoxels : Int) :
    (∀ Result ∈ [FVoxelSurfaceToolsImpl.ApplyConstantStrengthImpl Voxels Strength,
        FVoxelSurfaceToolsImpl.ApplySDFImpl Info Voxels MergeMode GetDistance,
        FVoxelSurfaceToolsImpl.ApplyFlattenImpl Info Voxels Plane MergeMode],
      Result.length = Voxels.length ∧
      (Result.map fun Voxel => (Voxel.Position, Voxel.Normal, Voxel.Value)) =
        (Voxels.map fun Voxel => (Voxel.Position, Voxel.Normal, Voxel.Value))) ∧
    (∀ Result ∈ [FVoxelSurfaceToolsImpl.ApplyStrengthFunctionImpl Voxels GetStrength,
        FVoxelSurfaceToolsImpl.ApplyDistanceStrengthFunctionImpl Sqrt VoxelDistance Voxels Center
          b2D GetStrengthFromDistance,
        FVoxelSurfaceToolsImpl.ApplyTerraceImpl PositiveMod DegreesToRadians Acos Voxels
          TerraceHeightInVoxels Angle ImmutableVoxels],
      Result.length ≤ Voxels.length ∧
      (Result.map fun Voxel => (Voxel.Position, Voxel.Normal, Voxel.Value)).Sublist
        (Voxels.map fun Voxel => (Voxel.Position, Voxel.Normal, Voxel.Value))) := by
  constructor
  · intro Result hResult
    simp only [List.mem_cons, List.mem_singleton, List.not_mem_nil, or_false] at hResult
    rcases hResult with rfl | rfl | rfl
    · unfold FVoxelSurfaceToolsImpl.ApplyConstantStrengthImpl
      refine ⟨List.length_map _ _, ?_⟩
      rw [List.map_map]
      rfl
    · exact FVoxelSurfaceToolsImpl.ApplySDFImpl_same Info Voxels MergeMode GetDistance
    · exact FVoxelSurfaceToolsImpl.ApplySDFImpl_same Info Voxels MergeMode _
  · intro Result hResult
    simp only [List.mem_cons, List.mem_singleton, List.not_mem_nil, or_false] at hResult
    rcases hResult with rfl | rfl | rfl
    · exact FVoxelSurfaceToolsImpl.ApplyStrengthFunctionImpl_sublist Voxels GetStrength
    · unfold FVoxelSurfaceToolsImpl.ApplyDistanceStrengthFunctionImpl
      split
      · exact FVoxelSurfaceToolsImpl.ApplyStrengthFunctionImpl_sublist Voxels _
      · exact FVoxelSurfaceToolsImpl.ApplyStrengthFunctionImpl_sublist Voxels _
    · unfold FVoxelSurfaceToolsImpl.ApplyTerraceImpl
      split
      · exact ⟨le_refl _, List.Sublist.refl _⟩
      · apply FVoxelSurfaceToolsImpl.CompactInPlace_sublist
        intro Voxel NewVoxel h
        simp only at h
        split at h
        · cases h
        · split at h
          · cases h
          · cases h
            rfl

/-- Claim C20 at the batch `exampleVoxels` of three voxels at the heights `0`, `1` and `2`: weighting
by the height drops the first voxel and keeps the other two in order, with the strengths `1` and
`2`. -/
theorem surface_operators_never_grow_batch_witness :
    ((FVoxelSurfaceToolsImpl.ApplyStrengthFunctionImpl exampleVoxels exampleGetStrength).map
        (fun Voxel => (Voxel.Position.Z, Voxel.Strength)) = [(1, 1), (2, 2)]) ∧
    ((∀ Result ∈ [FVoxelSurfaceToolsImpl.ApplyConstantStrengthImpl exampleVoxels 2,
        FVoxelSurfaceToolsImpl.ApplySDFImpl { bHasExactDistanceField := true } exampleVoxels EVoxelSDFMergeMode.Union (fun P => P.Z),
        FVoxelSurfaceToolsImpl.ApplyFlattenImpl { bHasExactDistanceField := true } exampleVoxels { X := 0, Y := 0, Z := 1, W := 0 } EVoxelSDFMergeMode.Union],
      Result.length = exampleVoxels.length ∧
      (Result.map fun Voxel => (Voxel.Position, Voxel.Normal, Voxel.Value)) =
        (exampleVoxels.map fun Voxel => (Voxel.Position, Voxel.Normal, Voxel.Value))) ∧
    (∀ Result ∈ [FVoxelSurfaceToolsImpl.ApplyStrengthFunctionImpl exampleVoxels exampleGetStrength,
        FVoxelSurfaceToolsImpl.ApplyDistanceStrengthFunctionImpl id (fun _ _ => 1) exampleVoxels { X := 0, Y := 0, Z := 0 }
          true id,
        FVoxelSurfaceToolsImpl.ApplyTerraceImpl (fun X Y => X % Y) id (fun _ => 0) exampleVoxels
          2 1 1],
      Result.length ≤ exampleVoxels.length ∧
      (Result.map fun Voxel => (Voxel.Position, Voxel.Normal, Voxel.Value)).Sublist
        (exampleVoxels.map fun Voxel => (Voxel.Position, Voxel.Normal, Voxel.Value)))) :=
  ⟨by decide,
    surface_operators_never_grow_batch { bHasExactDistanceField := true } exampleVoxels 2 exampleGetStrength id (fun _ _ => 1)
      { X := 0, Y := 0, Z := 0 } true id EVoxelSDFMergeMode.Union (fun P => P.Z)
      { X := 0, Y := 0, Z := 1, W := 0 } (fun X Y => X % Y) id (fun _ => 0) 2 1 1 ⟩

/-! ## `FVoxelSurfaceToolsImpl`: what the operators keep and how they weigh -/

/-- Claim C21, amended. Over exact arithmetic `ApplyStrengthFunctionImpl` drops exactly the
voxels whose weight `GetStrength(Voxel)` is zero, whatever their strength: the batch returned is
the voxels of non-zero weight, in their order, each with its strength multiplied by its weight.
A voxel that remains has the strength zero exactly if its strength was zero before; so no voxel
of strength zero remains if none was in the batch. -/
theorem ApplyStrengthFunctionImpl_drops_zero_weight {K : Type} [LinearOrderedField K]
    (Voxels : List (FVoxelSurfaceEditsVoxel K)) (GetStrength : FVoxelSurfaceEditsVoxel K → K) :
    FVoxelSurfaceToolsImpl.ApplyStrengthFunctionImpl Voxels GetStrength =
      (Voxels.filter fun Voxel => decide (GetStrength Voxel ≠ 0)).map
        (fun Voxel => { Voxel with Strength := Voxel.Strength * GetStrength Voxel }) ∧
    (∀ Voxel, GetStrength Voxel ≠ 0 →
      (Voxel.Strength * GetStrength Voxel = 0 ↔ Voxel.Strength = 0)) ∧
    ((∀ Voxel ∈ Voxels, Voxel.Strength ≠ 0) →
      ∀ Voxel ∈ FVoxelSurfaceToolsImpl.ApplyStrengthFunctionImpl Voxels GetStrength,
        Voxel.Strength ≠ 0) := by
  have h1 : FVoxelSurfaceToolsImpl.ApplyStrengthFunctionImpl Voxels GetStrength =
      (Voxels.filter fun Voxel => decide (GetStrength Voxel ≠ 0)).map
        (fun Voxel => { Voxel with Strength := Voxel.Strength * GetStrength Voxel }) := by
    unfold FVoxelSurfaceToolsImpl.ApplyStrengthFunctionImpl
    rw [FVoxelSurfaceToolsImpl.CompactInPlace_eq_filterMap]
    induction Voxels with
    | nil => rfl
    | cons Voxel Rest ih =>
      by_cases hw : GetStrength Voxel = 0
      · rw [List.filterMap_cons_none (by simp [hw]), List.filter_cons_of_neg (by simp [hw]), ih]
      · rw [List.filterMap_cons_some (b := { Voxel with
            Strength := Voxel.Strength * GetStrength Voxel }) (by simp [hw]),
          List.filter_cons_of_pos (by simp [hw]), List.map_cons, ih]
  refine ⟨h1, ?_, ?_⟩
  · intro Voxel hw
    constructor
    · intro h
      rcases mul_eq_zero.mp h with h | h
      · exact h
      · exact absurd h hw
    · intro h
      rw [h, zero_mul]
  · intro hall Voxel hmem
    rw [h1, List.mem_map] at hmem
    obtain ⟨Old, hOld, rfl⟩ := hmem
    rw [List.mem_filter] at hOld
    have hw : GetStrength Old ≠ 0 := by simpa using hOld.2
    exact mul_ne_zero (hall Old hOld.1) hw

/-- Claim C21 at the batch `exampleRatVoxels`, weighted by the height. -/
theorem ApplyStrengthFunctionImpl_drops_zero_weight_witness :
    FVoxelSurfaceToolsImpl.ApplyStrengthFunctionImpl exampleRatVoxels exampleRatGetStrength =
      (exampleRatVoxels.filter fun Voxel => decide (exampleRatGetStrength Voxel ≠ 0)).map
        (fun Voxel => { Voxel with Strength := Voxel.Strength * exampleRatGetStrength Voxel }) ∧
    (∀ Voxel, exampleRatGetStrength Voxel ≠ 0 →
      (Voxel.Strength * exampleRatGetStrength Voxel = 0 ↔ Voxel.Strength = 0)) ∧
    ((∀ Voxel ∈ exampleRatVoxels, Voxel.Strength ≠ 0) →
      ∀ Voxel ∈ FVoxelSurfaceToolsImpl.ApplyStrengthFunctionImpl exampleRatVoxels
          exampleRatGetStrength,
        Voxel.Strength ≠ 0) :=
  ApplyStrengthFunctionImpl_drops_zero_weight exampleRatVoxels exampleRatGetStrength

/-- Claim C21 as stated fails on a voxel of strength zero and weight one: its strength times its
weight is zero, yet it is not removed, and a voxel of strength zero remains in the batch. -/
theorem zero_strength_voxel_is_kept :
    FVoxelSurfaceToolsImpl.ApplyStrengthFunctionImpl exampleZeroStrengthVoxels (fun _ => 1) =
      exampleZeroStrengthVoxels ∧
    (∃ Voxel ∈ exampleZeroStrengthVoxels, Voxel.Strength * 1 = 0 ∧
      Voxel ∈ FVoxelSurfaceToolsImpl.ApplyStrengthFunctionImpl exampleZeroStrengthVoxels
        (fun _ => 1)) ∧
    (∃ Voxel ∈ FVoxelSurfaceToolsImpl.ApplyStrengthFunctionImpl exampleZeroStrengthVoxels
        (fun _ => 1), Voxel.Strength = 0) := by
  decide

namespace FMath

/-- Over a linear order `FMath::Clamp(X, Min, Max)` with `Min ≤ Max` is `X` cut to the bounds. -/
theorem Clamp_eq_max_min {T : Type} [LinearOrder T] (X Min Max : T) (h : Min ≤ Max) :
    Clamp X Min Max = max Min (min X Max) := by
  unfold Clamp
  by_cases h1 : X < Min
  · rw [if_pos h1, min_eq_left (le_trans (le_of_lt h1) h), max_eq_left (le_of_lt h1)]
  · rw [if_neg h1]
    by_cases h2 : X < Max
    · rw [if_pos h2, min_eq_left (le_of_lt h2), max_eq_right (not_lt.mp h1)]
    · rw [if_neg h2, min_eq_right (not_lt.mp h2), max_eq_right h]

/-- Over a commutative ring `FMath::Lerp(A, B, Alpha) - A` is `Alpha * (B - A)`. -/
theorem Lerp_sub {T : Type} [CommRing T] (A B Alpha : T) :
    Lerp A B Alpha - A = Alpha * (B - A) := by
  unfold Lerp
  ring

end FMath

/-- Claim C22. Over exact arithmetic `ApplySDFImpl` gives every voxel a new strength and changes
nothing else. The wanted distance is the minimum of the current and the other distance for
`Union`, their maximum for `Intersection`, the other distance for `Override`. With an exact
distance field the new strength is `lerp(current, wanted, strength) - current`, which is
`strength * (wanted - current)`: a voxel of strength `1` gets the strength
`wanted - current`, so that its value plus its strength is the wanted distance, and one of
strength `0` keeps the strength `0`. Without an exact distance field the strength is multiplied
by `wanted - current` cut to `[-1, 1]`. -/
theorem ApplySDFImpl_strength {K : Type} [LinearOrderedField K]
    (Info : FVoxelSurfaceEditsVoxelsInfo) (Voxels : List (FVoxelSurfaceEditsVoxel K))
    (MergeMode : EVoxelSDFMergeMode) (GetDistance : FVector K → K) :
    FVoxelSurfaceToolsImpl.ApplySDFImpl Info Voxels MergeMode GetDistance =
      Voxels.map (fun Voxel =>
        { Voxel with Strength :=
            (if Info.bHasExactDistanceField then
              Voxel.Strength *
                ((match MergeMode with
                  | EVoxelSDFMergeMode.Union =>
                    min Voxel.Value (GetDistance (FVector.ofIntVector Voxel.Position))
                  | EVoxelSDFMergeMode.Intersection =>
                    max Voxel.Value (GetDistance (FVector.ofIntVector Voxel.Position))
                  | EVoxelSDFMergeMode.Override =>
                    GetDistance (FVector.ofIntVector Voxel.Position)) - Voxel.Value)
            else
              Voxel.Strength *
                max (-1) (min
                  ((match MergeMode with
                    | EVoxelSDFMergeMode.Union =>
                      min Voxel.Value (GetDistance (FVector.ofIntVector Voxel.Position))
                    | EVoxelSDFMergeMode.Intersection =>
                      max Voxel.Value (GetDistance (FVector.ofIntVector Voxel.Position))
                    | EVoxelSDFMergeMode.Override =>
                      GetDistance (FVector.ofIntVector Voxel.Position)) - Voxel.Value) 1)) }) ∧
    (∀ Current Wanted Strength : K,
      FMath.Lerp Current Wanted Strength - Current = Strength * (Wanted - Current) ∧
      Current + (FMath.Lerp Current Wanted 1 - Current) = Wanted ∧
      FMath.Lerp Current Wanted 0 - Current = 0) ∧
    (∀ Difference : K,
      FMath.Clamp Difference (-1) 1 = max (-1) (min Difference 1) ∧
      -1 ≤ FMath.Clamp Difference (-1) 1 ∧ FMath.Clamp Difference (-1) 1 ≤ 1) := by
  have hle : (-1 : K) ≤ 1 := by norm_num
  refine ⟨?_, ?_, ?_⟩
  · unfold FVoxelSurfaceToolsImpl.ApplySDFImpl
    apply List.map_congr_left
    intro Voxel _
    cases hExact : Info.bHasExactDistanceField
    · simp only [Bool.false_eq_true, if_false]
      rw [FMath.Clamp_eq_max_min _ _ _ hle]
      cases MergeMode <;>
        simp [FMath.Min_eq_min, FMath.Max_eq_max, max_comm]
    · simp only [if_true]
      rw [FMath.Lerp_sub]
      cases MergeMode <;>
        simp [FMath.Min_eq_min, FMath.Max_eq_max, max_comm]
  · intro Current Wanted Strength
    refine ⟨FMath.Lerp_sub _ _ _, ?_, ?_⟩
    · rw [FMath.Lerp_sub]
      ring
    · rw [FMath.Lerp_sub]
      ring
  · intro Difference
    rw [FMath.Clamp_eq_max_min _ _ _ hle]
    exact ⟨rfl, le_max_left _ _, max_le hle (min_le_right _ _)⟩

/-- Claim C22 at the batch `exampleRatVoxels`, with an exact distance field, the merge mode `Union`
and the height as the other distance. -/
theorem ApplySDFImpl_strength_witness :
    (FVoxelSurfaceToolsImpl.ApplySDFImpl exampleExactInfo exampleRatVoxels EVoxelSDFMergeMode.Union exampleGetDistance =
      exampleRatVoxels.map (fun Voxel =>
        { Voxel with Strength :=
            (if exampleExactInfo.bHasExactDistanceField then
              Voxel.Strength *
                ((match EVoxelSDFMergeMode.Union with
                  | EVoxelSDFMergeMode.Union =>
                    min Voxel.Value (exampleGetDistance (FVector.ofIntVector Voxel.Position))
                  | EVoxelSDFMergeMode.Intersection =>
                    max Voxel.Value (exampleGetDistance (FVector.ofIntVector Voxel.Position))
                  | EVoxelSDFMergeMode.Override =>
                    exampleGetDistance (FVector.ofIntVector Voxel.Position)) - Voxel.Value)
            else
              Voxel.Strength *
                max (-1) (min
                  ((match EVoxelSDFMergeMode.Union with
                    | EVoxelSDFMergeMode.Union =>
                      min Voxel.Value (exampleGetDistance (FVector.ofIntVector Voxel.Position))
                    | EVoxelSDFMergeMode.Intersection =>
                      max Voxel.Value (exampleGetDistance (FVector.ofIntVector Voxel.Position))
                    | EVoxelSDFMergeMode.Override =>
                      exampleGetDistance (FVector.ofIntVector Voxel.Position)) - Voxel.Value) 1)) }) ∧
    (∀ Current Wanted Strength : ℚ,
      FMath.Lerp Current Wanted Strength - Current = Strength * (Wanted - Current) ∧
      Current + (FMath.Lerp Current Wanted 1 - Current) = Wanted ∧
      FMath.Lerp Current Wanted 0 - Current = 0) ∧
    (∀ Difference : ℚ,
      FMath.Clamp Difference (-1) 1 = max (-1) (min Difference 1) ∧
      -1 ≤ FMath.Clamp Difference (-1) 1 ∧ FMath.Clamp Difference (-1) 1 ≤ 1)) :=
  ApplySDFImpl_strength exampleExactInfo exampleRatVoxels EVoxelSDFMergeMode.Union
      exampleGetDistance

/-! ## The texture caches -/

namespace TMap

variable {Tex V : Type}

/-- Removing a key keeps the entries of all other keys. -/
theorem mem_Remove [DecidableEq Tex] (Map : TMap Tex V) (Key : FVoxelTextureCacheKey Tex)
    (Entry : FVoxelTextureCacheKey Tex × V) :
    Entry ∈ Remove Map Key ↔ Entry ∈ Map ∧ Entry.1 ≠ Key := by
  unfold Remove FVoxelTextureCacheKey.eq
  rw [List.mem_filter]
  obtain ⟨⟨t, c⟩, v⟩ := Entry
  obtain ⟨t', c'⟩ := Key
  simp only [Bool.not_eq_true', Bool.and_eq_false_iff, decide_eq_false_iff_not, ne_eq,
    FVoxelTextureCacheKey.mk.injEq, not_and_or]

/-- The keys of a map after `FindOrAdd` are its keys before and the key given. -/
theorem key_of_mem_FindOrAdd [DecidableEq Tex] (Map : TMap Tex V)
    (Key : FVoxelTextureCacheKey Tex) (Default : V) (Entry : FVoxelTextureCacheKey Tex × V)
    (h : Entry ∈ FindOrAdd Map Key Default) : Entry ∈ Map ∨ Entry.1 = Key := by
  unfold FindOrAdd at h
  split at h
  · exact Or.inl h
  · rw [List.mem_append, List.mem_singleton] at h
    rcases h with h | h
    · exact Or.inl h
    · exact Or.inr (by rw [h])

/-- An assignment to the value of a key changes no key. -/
theorem key_of_mem_Assign [DecidableEq Tex] (Map : TMap Tex V)
    (Key : FVoxelTextureCacheKey Tex) (Value : V) (Entry : FVoxelTextureCacheKey Tex × V)
    (h : Entry ∈ Assign Map Key Value) : ∃ Old ∈ Map, Old.1 = Entry.1 := by
  unfold Assign at h
  rw [List.mem_map] at h
  obtain ⟨Old, hOld, hEq⟩ := h
  refine ⟨Old, hOld, ?_⟩
  split at hEq
  · rw [← hEq]
  · rw [hEq]

end TMap

namespace FVoxelTextureUtilities

variable {Tex ColorData FloatData : Type}

/-- The color cache after `CreateFromTexture_Color` has the keys it had before and the key of
the texture without a channel. -/
theorem color_keys_CreateFromTexture_Color [DecidableEq Tex] (bCanCreate : Bool)
    (TextureData : ColorData) (Caches : FVoxelTextureCaches Tex ColorData FloatData)
    (Texture : Tex) (Entry : FVoxelTextureCacheKey Tex × Option ColorData)
    (h : Entry ∈ (CreateFromTexture_Color bCanCreate TextureData Caches Texture).1.Color) :
    (∃ Old ∈ Caches.Color, Old.1 = Entry.1) ∨ Entry.1 = { Texture := Texture } := by
  have hFind : ∀ E ∈ TMap.FindOrAdd Caches.Color { Texture := Texture } none,
      (∃ Old ∈ Caches.Color, Old.1 = E.1) ∨ E.1 = { Texture := Texture } := by
    intro E hE
    rcases TMap.key_of_mem_FindOrAdd _ _ _ _ hE with h1 | h1
    · exact Or.inl ⟨E, h1, rfl⟩
    · exact Or.inr h1
  have hAssign : ∀ E ∈ TMap.Assign (TMap.FindOrAdd Caches.Color { Texture := Texture } none)
        { Texture := Texture } (some TextureData),
      (∃ Old ∈ Caches.Color, Old.1 = E.1) ∨ E.1 = { Texture := Texture } := by
    intro E hE
    obtain ⟨Mid, hMid, hKey⟩ := TMap.key_of_mem_Assign _ _ _ _ hE
    rw [← hKey]
    exact hFind Mid hMid
  unfold CreateFromTexture_Color at h
  simp only at h
  split at h
  · exact hFind Entry h
  · split at h
    · exact hFind Entry h
    · exact hAssign Entry h

/-- The color cache holds only keys without a channel: this is so for the empty caches and is
kept by `CreateFromTexture_Color`, `CreateFromTexture_Float`, `ClearCache` and
`ClearCache(Texture)`, the functions that write to the caches. -/
theorem color_keys_have_no_channel [DecidableEq Tex] (bCanCreate : Bool)
    (TextureData : ColorData) (ToFloat : ColorData → EVoxelRGBA → FloatData)
    (Caches : FVoxelTextureCaches Tex ColorData FloatData) (Texture : Tex)
    (Channel : EVoxelRGBA) (hColor : ∀ Entry ∈ Caches.Color, Entry.1.Channel = none) :
    (∀ Entry ∈ (CreateFromTexture_Color bCanCreate TextureData Caches Texture).1.Color,
      Entry.1.Channel = none) ∧
    (∀ Entry ∈ (CreateFromTexture_Float bCanCreate TextureData ToFloat Caches Texture
        Channel).1.Color, Entry.1.Channel = none) ∧
    (∀ Entry ∈ (ClearCache Caches).Color, Entry.1.Channel = none) ∧
    (∀ Entry ∈ (ClearCacheTexture Caches Texture).Color, Entry.1.Channel = none) := by
  have hCreate : ∀ (C : FVoxelTextureCaches Tex ColorData FloatData),
      (∀ Entry ∈ C.Color, Entry.1.Channel = none) →
      ∀ Entry ∈ (CreateFromTexture_Color bCanCreate TextureData C Texture).1.Color,
        Entry.1.Channel = none := by
    intro C hC Entry hEntry
    rcases color_keys_CreateFromTexture_Color _ _ _ _ _ hEntry with ⟨Old, hOld, hKey⟩ | hKey
    · rw [← hKey]
      exact hC Old hOld
    · rw [hKey]
  refine ⟨hCreate Caches hColor, ?_, ?_, ?_⟩
  · intro Entry hEntry
    have hMid := hCreate
      { Caches with
        Float := (TMap.FindOrAdd Caches.Float
          ({ Texture := Texture, Channel := some Channel } : FVoxelTextureCacheKey Tex) none) }
      hColor
    unfold CreateFromTexture_Float at hEntry
    simp only at hEntry
    split at hEntry
    · exact hColor Entry hEntry
    · split at hEntry
      · exact hColor Entry hEntry
      · split at hEntry
        · exact hMid Entry hEntry
        · exact hMid Entry hEntry
  · intro Entry hEntry
    simp [ClearCache, TMap.Empty] at hEntry
  · intro Entry hEntry
    exact hColor Entry ((TMap.mem_Remove _ _ _).mp hEntry).1

end FVoxelTextureUtilities

/-- Claim C23. For caches whose color cache holds only keys without a channel, the keys that
`CreateFromTexture_Color` makes: after `ClearCache(Texture)` the color cache and the float cache
are what they were without the entries whose key texture is `Texture`, whatever the channel of
the key (none, `R`, `G`, `B` or `A`); so neither cache holds an entry keyed to `Texture`, and
an entry keyed to another texture is in a cache after exactly if it was before, with the value
it had. After `ClearCache()` both caches are empty. -/
theorem ClearCache_drops_every_channel_variant {Tex ColorData FloatData : Type}
    [DecidableEq Tex] (Caches : FVoxelTextureCaches Tex ColorData FloatData) (Texture : Tex)
    (hColor : ∀ Entry ∈ Caches.Color, Entry.1.Channel = none) :
    (FVoxelTextureUtilities.ClearCacheTexture Caches Texture).Color =
      Caches.Color.filter (fun Entry => decide (Entry.1.Texture ≠ Texture)) ∧
    (FVoxelTextureUtilities.ClearCacheTexture Caches Texture).Float =
      Caches.Float.filter (fun Entry => decide (Entry.1.Texture ≠ Texture)) ∧
    (∀ Entry ∈ (FVoxelTextureUtilities.ClearCacheTexture Caches Texture).Color,
      Entry.1.Texture ≠ Texture) ∧
    (∀ Entry ∈ (FVoxelTextureUtilities.ClearCacheTexture Caches Texture).Float,
      Entry.1.Texture ≠ Texture) ∧
    (∀ Entry : FVoxelTextureCacheKey Tex × Option ColorData, Entry.1.Texture ≠ Texture →
      (Entry ∈ (FVoxelTextureUtilities.ClearCacheTexture Caches Texture).Color ↔
        Entry ∈ Caches.Color)) ∧
    (∀ Entry : FVoxelTextureCacheKey Tex × Option FloatData, Entry.1.Texture ≠ Texture →
      (Entry ∈ (FVoxelTextureUtilities.ClearCacheTexture Caches Texture).Float ↔
        Entry ∈ Caches.Float)) ∧
    (FVoxelTextureUtilities.ClearCache Caches).Color = [] ∧
    (FVoxelTextureUtilities.ClearCache Caches).Float = [] := by
  have hC : (FVoxelTextureUtilities.ClearCacheTexture Caches Texture).Color =
      Caches.Color.filter (fun Entry => decide (Entry.1.Texture ≠ Texture)) := by
    simp only [FVoxelTextureUtilities.ClearCacheTexture, TMap.Remove]
    apply List.filter_congr
    intro Entry hEntry
    have hNone := hColor Entry hEntry
    obtain ⟨⟨t, c⟩, v⟩ := Entry
    simp only at hNone
    subst hNone
    simp [FVoxelTextureCacheKey.eq]
  have hF : (FVoxelTextureUtilities.ClearCacheTexture Caches Texture).Float =
      Caches.Float.filter (fun Entry => decide (Entry.1.Texture ≠ Texture)) := by
    simp only [FVoxelTextureUtilities.ClearCacheTexture, TMap.Remove, List.filter_filter]
    apply List.filter_congr
    intro Entry _
    obtain ⟨⟨t, c⟩, v⟩ := Entry
    by_cases ht : t = Texture
    · subst ht
      rcases c with _ | c
      · simp [FVoxelTextureCacheKey.eq]
      · cases c <;> simp [FVoxelTextureCacheKey.eq]
    · simp [FVoxelTextureCacheKey.eq, ht]
  refine ⟨hC, hF, ?_, ?_, ?_, ?_, rfl, rfl⟩
  · intro Entry hEntry
    rw [hC, List.mem_filter] at hEntry
    simpa using hEntry.2
  · intro Entry hEntry
    rw [hF, List.mem_filter] at hEntry
    simpa using hEntry.2
  · intro Entry hNe
    rw [hC, List.mem_filter]
    simp [hNe]
  · intro Entry hNe
    rw [hF, List.mem_filter]
    simp [hNe]

/-- Claim C23 at the caches `exampleCaches` and the texture `1`: only the entries of the texture `2`
are left. -/
theorem ClearCache_drops_every_channel_variant_witness :
    ((FVoxelTextureUtilities.ClearCacheTexture exampleCaches 1).Color =
        [({ Texture := 2 }, some 20)] ∧
      (FVoxelTextureUtilities.ClearCacheTexture exampleCaches 1).Float =
        [({ Texture := 2, Channel := some EVoxelRGBA.G }, some 22)]) ∧
    (∀ Entry ∈ exampleCaches.Color, Entry.1.Channel = none) ∧
    ((FVoxelTextureUtilities.ClearCacheTexture exampleCaches 1).Color =
      exampleCaches.Color.filter (fun Entry => decide (Entry.1.Texture ≠ 1)) ∧
    (FVoxelTextureUtilities.ClearCacheTexture exampleCaches 1).Float =
      exampleCaches.Float.filter (fun Entry => decide (Entry.1.Texture ≠ 1)) ∧
    (∀ Entry ∈ (FVoxelTextureUtilities.ClearCacheTexture exampleCaches 1).Color,
      Entry.1.Texture ≠ 1) ∧
    (∀ Entry ∈ (FVoxelTextureUtilities.ClearCacheTexture exampleCaches 1).Float,
      Entry.1.Texture ≠ 1) ∧
    (∀ Entry : FVoxelTextureCacheKey ℕ × Option ℕ, Entry.1.Texture ≠ 1 →
      (Entry ∈ (FVoxelTextureUtilities.ClearCacheTexture exampleCaches 1).Color ↔
        Entry ∈ exampleCaches.Color)) ∧
    (∀ Entry : FVoxelTextureCacheKey ℕ × Option ℕ, Entry.1.Texture ≠ 1 →
      (Entry ∈ (FVoxelTextureUtilities.ClearCacheTexture exampleCaches 1).Float ↔
        Entry ∈ exampleCaches.Float)) ∧
    (FVoxelTextureUtilities.ClearCache exampleCaches).Color = [] ∧
    (FVoxelTextureUtilities.ClearCache exampleCaches).Float = []) :=
  ⟨by decide, by decide,
    ClearCache_drops_every_channel_variant exampleCaches 1 (by decide)⟩

/-! ## Validation of a texture -/

/-- Claim C24, amended. `CanCreateFromTexture` returns `true` exactly for a `UTexture2D` whose
compression setting is `VectorDisplacementmap` or `EditorIcon`, whose pixel format is
`B8G8R8A8` and, in a build with editor-only data, whose mip generation setting is `NoMipmaps`
(in a build without editor-only data that setting is not looked at), and for a render target
whose format is `R8G8B8A8`, `FloatRGBA` or `B8G8R8A8` and whose resource exists. Where it
returns `false` (null texture, settings not supported, another class of texture) the error
message it sets is not empty; where it returns `true` it leaves the error message as it was.
It is total, it raises nothing. For a render target that it accepts `ExtractTextureData` takes
one of the three cases of its `switch`: if the read succeeds, the data returned is the pixels
read. -/
theorem CanCreateFromTexture_accepts_exactly (WITH_EDITORONLY_DATA : Bool)
    (PixelFormatName : EPixelFormat → String) (Texture : Option UTexture) (OutError : String) :
    ((FVoxelTextureUtilities.CanCreateFromTexture WITH_EDITORONLY_DATA PixelFormatName Texture
        OutError).1 = true ↔
      (∃ MipGenSettings CompressionSettings,
        Texture = some (UTexture.Texture2D MipGenSettings CompressionSettings
          EPixelFormat.PF_B8G8R8A8) ∧
        (WITH_EDITORONLY_DATA = true → MipGenSettings = TextureMipGenSettings.TMGS_NoMipmaps) ∧
        (CompressionSettings = TextureCompressionSettings.TC_VectorDisplacementmap ∨
          CompressionSettings = TextureCompressionSettings.TC_EditorIcon)) ∨
      (∃ Format, Texture = some (UTexture.TextureRenderTarget2D Format true) ∧
        (Format = EPixelFormat.PF_R8G8B8A8 ∨ Format = EPixelFormat.PF_FloatRGBA ∨
          Format = EPixelFormat.PF_B8G8R8A8))) ∧
    ((FVoxelTextureUtilities.CanCreateFromTexture WITH_EDITORONLY_DATA PixelFormatName Texture
        OutError).1 = false →
      0 < (FVoxelTextureUtilities.CanCreateFromTexture WITH_EDITORONLY_DATA PixelFormatName
        Texture OutError).2.length) ∧
    ((FVoxelTextureUtilities.CanCreateFromTexture WITH_EDITORONLY_DATA PixelFormatName Texture
        OutError).1 = true →
      (FVoxelTextureUtilities.CanCreateFromTexture WITH_EDITORONLY_DATA PixelFormatName Texture
        OutError).2 = OutError) ∧
    (∀ Format bHasResource bBulkData bLocked,
      (FVoxelTextureUtilities.CanCreateFromTexture WITH_EDITORONLY_DATA PixelFormatName
        (some (UTexture.TextureRenderTarget2D Format bHasResource)) OutError).1 = true →
      FVoxelTextureUtilities.ExtractTextureData
          (some (UTexture.TextureRenderTarget2D Format bHasResource)) bBulkData bLocked true =
        EExtractedFrom.ReadPixels ∨
      FVoxelTextureUtilities.ExtractTextureData
          (some (UTexture.TextureRenderTarget2D Format bHasResource)) bBulkData bLocked true =
        EExtractedFrom.ReadLinearColorPixels) := by
  have hlen : ∀ Name : String, 0 <
      ("Render Target PixelFormat must be R8G8B8A8, B8G8R8A8 or R8G8B8A8 (is " ++ Name ++
        ")").length := by
    intro Name
    have hlast : 0 < (")" : String).length := by decide
    simp only [String.length_append]
    omega
  refine ⟨?_, ?_, ?_, ?_⟩
  · rcases Texture with _ | ⟨Mip, Comp, Fmt⟩ | ⟨Fmt, bRes⟩ | _
    · simp [FVoxelTextureUtilities.CanCreateFromTexture]
    · cases WITH_EDITORONLY_DATA <;> cases Mip <;> cases Comp <;> cases Fmt <;>
        simp [FVoxelTextureUtilities.CanCreateFromTexture] <;>
        first
        | exact ⟨_, _, ⟨rfl, rfl⟩, Or.inl rfl⟩
        | exact ⟨_, _, ⟨rfl, rfl⟩, Or.inr rfl⟩
        | exact ⟨_, _, ⟨rfl, rfl⟩, rfl, Or.inl rfl⟩
        | exact ⟨_, _, ⟨rfl, rfl⟩, rfl, Or.inr rfl⟩
    · cases bRes <;> cases Fmt <;> simp [FVoxelTextureUtilities.CanCreateFromTexture]
    · simp [FVoxelTextureUtilities.CanCreateFromTexture]
  · rcases Texture with _ | ⟨Mip, Comp, Fmt⟩ | ⟨Fmt, bRes⟩ | _
    · intro _
      simp only [FVoxelTextureUtilities.CanCreateFromTexture]
      decide
    · unfold FVoxelTextureUtilities.CanCreateFromTexture
      simp only
      split
      · intro _
        decide
      · split
        · intro _
          decide
        · split
          · intro _
            decide
          · intro h
            exact absurd h (by simp)
    · unfold FVoxelTextureUtilities.CanCreateFromTexture
      simp only
      split
      · intro _
        exact hlen _
      · split
        · intro _
          decide
        · intro h
          exact absurd h (by simp)
    · intro _
      simp only [FVoxelTextureUtilities.CanCreateFromTexture]
      decide
  · rcases Texture with _ | ⟨Mip, Comp, Fmt⟩ | ⟨Fmt, bRes⟩ | _
    · intro h
      exact absurd h (by simp [FVoxelTextureUtilities.CanCreateFromTexture])
    · unfold FVoxelTextureUtilities.CanCreateFromTexture
      simp only
      split
      · intro h
        exact absurd h (by simp)
      · split
        · intro h
          exact absurd h (by simp)
        · split
          · intro h
            exact absurd h (by simp)
          · intro _
            rfl
    · unfold FVoxelTextureUtilities.CanCreateFromTexture
      simp only
      split
      · intro h
        exact absurd h (by simp)
      · split
        · intro h
          exact absurd h (by simp)
        · intro _
          rfl
    · intro h
      exact absurd h (by simp [FVoxelTextureUtilities.CanCreateFromTexture])
  · intro Fmt bRes bBulkData bLocked
    cases bRes <;> cases Fmt <;>
      simp [FVoxelTextureUtilities.CanCreateFromTexture,
        FVoxelTextureUtilities.ExtractTextureData]

/-- Claim C24 as stated fails in a build without editor-only data: a `UTexture2D` whose mip
generation setting is not `NoMipmaps`, with the compression setting `VectorDisplacementmap` and
the pixel format `B8G8R8A8`, is accepted. -/
theorem texture_with_mipmaps_accepted_without_editor_data :
    (FVoxelTextureUtilities.CanCreateFromTexture false (fun _ => "")
      (some (UTexture.Texture2D (TextureMipGenSettings.Other 0)
        TextureCompressionSettings.TC_VectorDisplacementmap EPixelFormat.PF_B8G8R8A8)) "").1 =
      true ∧
    TextureMipGenSettings.Other 0 ≠ TextureMipGenSettings.TMGS_NoMipmaps := by
  decide

/-- Claim C24 at a render target of the format `FloatRGBA` whose resource exists, in a build with
editor-only data: it is accepted. -/
theorem CanCreateFromTexture_accepts_exactly_witness :
    ((FVoxelTextureUtilities.CanCreateFromTexture true (fun _ => "PF_Unknown")
      (some (UTexture.TextureRenderTarget2D EPixelFormat.PF_FloatRGBA true)) "").1 = true) ∧
    (((FVoxelTextureUtilities.CanCreateFromTexture true (fun _ => "PF_Unknown") (some (UTexture.TextureRenderTarget2D EPixelFormat.PF_FloatRGBA true))
        "").1 = true ↔
      (∃ MipGenSettings CompressionSettings,
        (some (UTexture.TextureRenderTarget2D EPixelFormat.PF_FloatRGBA true)) = some (UTexture.Texture2D MipGenSettings CompressionSettings
          EPixelFormat.PF_B8G8R8A8) ∧
        (true = true → MipGenSettings = TextureMipGenSettings.TMGS_NoMipmaps) ∧
        (CompressionSettings = TextureCompressionSettings.TC_VectorDisplacementmap ∨
          CompressionSettings = TextureCompressionSettings.TC_EditorIcon)) ∨
      (∃ Format, (some (UTexture.TextureRenderTarget2D EPixelFormat.PF_FloatRGBA true)) = some (UTexture.TextureRenderTarget2D Format true) ∧
        (Format = EPixelFormat.PF_R8G8B8A8 ∨ Format = EPixelFormat.PF_FloatRGBA ∨
          Format = EPixelFormat.PF_B8G8R8A8))) ∧
    ((FVoxelTextureUtilities.CanCreateFromTexture true (fun _ => "PF_Unknown") (some (UTexture.TextureRenderTarget2D EPixelFormat.PF_FloatRGBA true))
        "").1 = false →
      0 < (FVoxelTextureUtilities.CanCreateFromTexture true (fun _ => "PF_Unknown")
        (some (UTexture.TextureRenderTarget2D EPixelFormat.PF_FloatRGBA true)) "").2.length) ∧
    ((FVoxelTextureUtilities.CanCreateFromTexture true (fun _ => "PF_Unknown") (some (UTexture.TextureRenderTarget2D EPixelFormat.PF_FloatRGBA true))
        "").1 = true →
      (FVoxelTextureUtilities.CanCreateFromTexture true (fun _ => "PF_Unknown") (some (UTexture.TextureRenderTarget2D EPixelFormat.PF_FloatRGBA true))
        "").2 = "") ∧
    (∀ Format bHasResource bBulkData bLocked,
      (FVoxelTextureUtilities.CanCreateFromTexture true (fun _ => "PF_Unknown")
        (some (UTexture.TextureRenderTarget2D Format bHasResource)) "").1 = true →
      FVoxelTextureUtilities.ExtractTextureData
          (some (UTexture.TextureRenderTarget2D Format bHasResource)) bBulkData bLocked true =
        EExtractedFrom.ReadPixels ∨
      FVoxelTextureUtilities.ExtractTextureData
          (some (UTexture.TextureRenderTarget2D Format bHasResource)) bBulkData bLocked true =
        EExtractedFrom.ReadLinearColorPixels)) :=
  ⟨by decide,
    CanCreateFromTexture_accepts_exactly true (fun _ => "PF_Unknown")
      (some (UTexture.TextureRenderTarget2D EPixelFormat.PF_FloatRGBA true)) ""⟩

/-! ## Normalisation of a float texture -/

namespace FVoxelTextureUtilities

/-- For a texture of finite values with recorded bounds `Min < Max` that bound its values and
with `SizeX * SizeY` values, `Normalize` returns a texture of the same size in which every
value lies in `[0, 1]`; a value equal to `Min` is mapped to `0`, one equal to `Max` to `1`. -/
theorem Normalize_unit_interval (Texture : TVoxelTexture v_flt) (Min Max : ℚ)
    (hMin : Texture.Min = v_flt.fin Min) (hMax : Texture.Max = v_flt.fin Max)
    (hlt : Min < Max)
    (hSize : Texture.TextureData.length = (Texture.SizeX * Texture.SizeY).toNat)
    (hValues : ∀ Value ∈ Texture.TextureData, ∃ q : ℚ, Value = v_flt.fin q ∧ Min ≤ q ∧ q ≤ Max) :
    (Normalize Texture).SizeX = Texture.SizeX ∧
    (Normalize Texture).SizeY = Texture.SizeY ∧
    (Normalize Texture).TextureData.length = Texture.TextureData.length ∧
    (Normalize Texture).TextureData =
      Texture.TextureData.map (fun Value => (Value - Texture.Min) / (Texture.Max - Texture.Min)) ∧
    (∀ Value ∈ (Normalize Texture).TextureData, 0 ≤ Value ∧ Value ≤ 1) ∧
    (Texture.Min - Texture.Min) / (Texture.Max - Texture.Min) = 0 ∧
    (Texture.Max - Texture.Min) / (Texture.Max - Texture.Min) = 1 := by
  have hw : Max - Min ≠ 0 := ne_of_gt (sub_pos.mpr hlt)
  have hw' : Max + -Min ≠ 0 := by rwa [← sub_eq_add_neg]
  have hdata : (Normalize Texture).TextureData =
      Texture.TextureData.map
        (fun Value => (Value - Texture.Min) / (Texture.Max - Texture.Min)) := by
    unfold Normalize
    simp only
    rw [← hSize, List.take_length]
  have hq : ∀ q : ℚ, (v_flt.fin q - Texture.Min) / (Texture.Max - Texture.Min) =
      v_flt.fin ((q - Min) / (Max - Min)) := by
    intro q
    rw [hMin, hMax, v_flt.sub_def, v_flt.sub_def, v_flt.neg_fin, v_flt.fin_add_fin,
      v_flt.fin_add_fin, v_flt.fin_div_fin, if_neg hw', sub_eq_add_neg, sub_eq_add_neg]
  refine ⟨rfl, rfl, ?_, hdata, ?_, ?_, ?_⟩
  · rw [hdata, List.length_map]
  · intro Value hValue
    rw [hdata, List.mem_map] at hValue
    obtain ⟨Old, hOld, rfl⟩ := hValue
    obtain ⟨q, rfl, h1, h2⟩ := hValues Old hOld
    rw [hq, v_flt.zero_def, v_flt.one_def, v_flt.fin_le_fin, v_flt.fin_le_fin]
    constructor
    · exact div_nonneg (sub_nonneg.mpr h1) (le_of_lt (sub_pos.mpr hlt))
    · rw [div_le_one (sub_pos.mpr hlt)]
      linarith
  · nth_rewrite 1 [hMin]
    rw [hq, sub_self, zero_div]
    rfl
  · nth_rewrite 1 [hMax]
    rw [hq, div_self hw]
    rfl

end FVoxelTextureUtilities

/-- Claim C25 fails for a constant texture: for the texture of the single value `5`, with the
recorded bounds `Min = Max = 5` that bound it, `Normalize` computes `(5 - 5) / (5 - 5)`, which
is not a number, so the value returned does not lie in `[0, 1]`, the bounds `0` and `1` that
`Normalize` records for the texture returned. -/
theorem Normalize_constant_texture_not_a_number :
    (FVoxelTextureUtilities.Normalize exampleConstantTexture).TextureData = [v_flt.nan] ∧
    (FVoxelTextureUtilities.Normalize exampleConstantTexture).Min = 0 ∧
    (FVoxelTextureUtilities.Normalize exampleConstantTexture).Max = 1 ∧
    (∀ Value ∈ exampleConstantTexture.TextureData,
      exampleConstantTexture.Min ≤ Value ∧ Value ≤ exampleConstantTexture.Max) ∧
    ¬ ((0 : v_flt) ≤ v_flt.nan) ∧ ¬ (v_flt.nan ≤ (1 : v_flt)) := by
  refine ⟨?_, rfl, rfl, ?_, ?_, ?_⟩
  · simp [FVoxelTextureUtilities.Normalize, exampleConstantTexture, v_flt.sub_def]
  · simp [exampleConstantTexture]
  · simp
  · simp

/-! ## `BuildDistanceField`: the sampled region and the output size -/

namespace FVoxelUtilities

/-- For a positive divisor `DivideCeil` is the ceiling of the quotient. -/
theorem DivideCeil_eq_ceil (Dividend Divisor : Int) (h : 0 < Divisor) :
    DivideCeil Dividend Divisor = Int.ceil ((Dividend : ℚ) / (Divisor : ℚ)) := by
  have hq : (0 : ℚ) < (Divisor : ℚ) := by exact_mod_cast h
  have e := Int.emod_add_ediv (-Dividend) Divisor
  have r0 := Int.emod_nonneg (-Dividend) (ne_of_gt h)
  have r1 := Int.emod_lt_of_pos (-Dividend) h
  symm
  unfold DivideCeil
  rw [Int.ceil_eq_iff]
  constructor
  · rw [lt_div_iff₀ hq]
    have : (-(-Dividend / Divisor) - 1) * Divisor < Dividend := by nlinarith
    exact_mod_cast this
  · rw [div_le_iff₀ hq]
    have : Dividend ≤ -(-Dividend / Divisor) * Divisor := by nlinarith
    exact_mod_cast this

/-- For a dividend and a divisor with `1 ≤ Divisor ≤ Dividend` the result of `DivideCeil` lies
between `1` and the dividend. -/
theorem DivideCeil_bounds (Dividend Divisor : Int) (h1 : 1 ≤ Divisor) (h2 : Divisor ≤ Dividend) :
    1 ≤ DivideCeil Dividend Divisor ∧ DivideCeil Dividend Divisor ≤ Dividend := by
  have hD : 0 < Divisor := by omega
  unfold DivideCeil
  constructor
  · have : -Dividend / Divisor < 0 := by
      rw [Int.ediv_lt_iff_lt_mul hD]
      omega
    omega
  · have : -Dividend ≤ -Dividend / Divisor := by
      rw [Int.le_ediv_iff_mul_le hD]
      nlinarith
    omega

end FVoxelUtilities

namespace int32

/-- An integer in the range of `int32` is wrapped to itself. -/
theorem wrap_eq_self (x : Int) (h1 : -2147483648 ≤ x) (h2 : x < 2147483648) : wrap x = x := by
  unfold wrap
  omega

end int32

/-- Claim C26, amended. For a chunk size that is not negative, `Extension >= 0`,
`0 <= LOD <= 30` and a `Position`, such that `ValuesSize` and the corners of the region are in
the range of `int32`: `RENDER_CHUNK_SIZE + 1 + 2 * Extension + 2` is below `2^31` and, for each
coordinate `c` of `Position`, `c - (Extension + 1) * 2^LOD` is at least `-2^31` and
`c + (RENDER_CHUNK_SIZE + 2 + Extension) * 2^LOD` is below `2^31`. Then `Step = 1 << LOD` is
`2^LOD` and positive; the region that `BuildDistanceField` locks and queries starts at
`Position - (Extension + 1) * Step` and has the side
`(RENDER_CHUNK_SIZE + 1 + 2 * Extension + 2) * Step`, which is `ValuesSize * Step`, so that
along each axis the points of the region at a multiple of `Step` from its start are exactly the
`ValuesSize` points `Min + i * Step`; `NumValues` is `ValuesSize^3` where that is below `2^31`;
and `Divisor` lies between `1` and `HighResSize`, `Size` is the ceiling of
`HighResSize / Divisor` and lies between `1` and `HighResSize`. -/
theorem sampled_region_and_output_size (RENDER_CHUNK_SIZE : Int) (Position : FIntVector)
    (Extension LOD DistanceFieldResolutionDivisor : Int)
    (hChunk : 0 ≤ RENDER_CHUNK_SIZE) (hExtension : 0 ≤ Extension) (hLOD : 0 ≤ LOD)
    (hShift : LOD ≤ 30)
    (hValues : RENDER_CHUNK_SIZE + 1 + 2 * Extension + 2 < 2147483648)
    (hRegion : ∀ c ∈ [Position.X, Position.Y, Position.Z],
      -2147483648 ≤ c - (Extension + 1) * 2 ^ LOD.toNat ∧
      c + (RENDER_CHUNK_SIZE + 2 + Extension) * 2 ^ LOD.toNat < 2147483648) :
    FVoxelChunkMesh.Step LOD = some (2 ^ LOD.toNat) ∧
    (LOD.toNat : Int) = LOD ∧
    (0 : Int) < 2 ^ LOD.toNat ∧
    FVoxelChunkMesh.HighResSize RENDER_CHUNK_SIZE Extension =
      RENDER_CHUNK_SIZE + 1 + 2 * Extension ∧
    FVoxelChunkMesh.ValuesSize RENDER_CHUNK_SIZE Extension =
      RENDER_CHUNK_SIZE + 1 + 2 * Extension + 2 ∧
    FVoxelChunkMesh.Bounds RENDER_CHUNK_SIZE Position Extension LOD =
      some
        { Min :=
            { X := Position.X - (Extension + 1) * 2 ^ LOD.toNat
              Y := Position.Y - (Extension + 1) * 2 ^ LOD.toNat
              Z := Position.Z - (Extension + 1) * 2 ^ LOD.toNat }
          Max :=
            { X := Position.X - (Extension + 1) * 2 ^ LOD.toNat +
                (RENDER_CHUNK_SIZE + 1 + 2 * Extension + 2) * 2 ^ LOD.toNat
              Y := Position.Y - (Extension + 1) * 2 ^ LOD.toNat +
                (RENDER_CHUNK_SIZE + 1 + 2 * Extension + 2) * 2 ^ LOD.toNat
              Z := Position.Z - (Extension + 1) * 2 ^ LOD.toNat +
                (RENDER_CHUNK_SIZE + 1 + 2 * Extension + 2) * 2 ^ LOD.toNat } } ∧
    (RENDER_CHUNK_SIZE + 1 + 2 * Extension + 2) * 2 ^ LOD.toNat =
      FVoxelChunkMesh.ValuesSize RENDER_CHUNK_SIZE Extension * 2 ^ LOD.toNat ∧
    (∀ c ∈ [Position.X, Position.Y, Position.Z], ∀ p : Int,
      (c - (Extension + 1) * 2 ^ LOD.toNat ≤ p ∧
        p < c - (Extension + 1) * 2 ^ LOD.toNat +
          (RENDER_CHUNK_SIZE + 1 + 2 * Extension + 2) * 2 ^ LOD.toNat ∧
        (2 : Int) ^ LOD.toNat ∣ p - (c - (Extension + 1) * 2 ^ LOD.toNat)) ↔
      ∃ i : Int, 0 ≤ i ∧ i < FVoxelChunkMesh.ValuesSize RENDER_CHUNK_SIZE Extension ∧
        p = c - (Extension + 1) * 2 ^ LOD.toNat + i * 2 ^ LOD.toNat) ∧
    ((RENDER_CHUNK_SIZE + 1 + 2 * Extension + 2) * (RENDER_CHUNK_SIZE + 1 + 2 * Extension + 2) *
        (RENDER_CHUNK_SIZE + 1 + 2 * Extension + 2) < 2147483648 →
      FVoxelChunkMesh.NumValues RENDER_CHUNK_SIZE Extension =
        (RENDER_CHUNK_SIZE + 1 + 2 * Extension + 2) * (RENDER_CHUNK_SIZE + 1 + 2 * Extension + 2) *
          (RENDER_CHUNK_SIZE + 1 + 2 * Extension + 2)) ∧
    1 ≤ FVoxelChunkMesh.Divisor RENDER_CHUNK_SIZE Extension DistanceFieldResolutionDivisor ∧
    FVoxelChunkMesh.Divisor RENDER_CHUNK_SIZE Extension DistanceFieldResolutionDivisor ≤
      FVoxelChunkMesh.HighResSize RENDER_CHUNK_SIZE Extension ∧
    FVoxelChunkMesh.Size RENDER_CHUNK_SIZE Extension DistanceFieldResolutionDivisor =
      Int.ceil ((FVoxelChunkMesh.HighResSize RENDER_CHUNK_SIZE Extension : ℚ) /
        (FVoxelChunkMesh.Divisor RENDER_CHUNK_SIZE Extension DistanceFieldResolutionDivisor : ℚ)) ∧
    1 ≤ FVoxelChunkMesh.Size RENDER_CHUNK_SIZE Extension DistanceFieldResolutionDivisor ∧
    FVoxelChunkMesh.Size RENDER_CHUNK_SIZE Extension DistanceFieldResolutionDivisor ≤
      FVoxelChunkMesh.HighResSize RENDER_CHUNK_SIZE Extension := by
  have hPos : (0 : Int) < 2 ^ LOD.toNat := by positivity
  have hle : (2 : Int) ^ LOD.toNat ≤ 1073741824 := by
    have h1 : LOD.toNat ≤ 30 := by omega
    have h2 : (2 : Nat) ^ LOD.toNat ≤ 2 ^ 30 := Nat.pow_le_pow_right (by norm_num) h1
    have h3 : ((2 ^ LOD.toNat : Nat) : Int) ≤ ((2 ^ 30 : Nat) : Int) := by exact_mod_cast h2
    push_cast at h3
    exact h3
  have hStep : FVoxelChunkMesh.Step LOD = some (2 ^ LOD.toNat) := by
    unfold FVoxelChunkMesh.Step int32.shiftLeftOne
    rw [if_pos ⟨hLOD, by omega⟩, int32.wrap_eq_self _ (by omega) (by omega)]
  have hH : FVoxelChunkMesh.HighResSize RENDER_CHUNK_SIZE Extension =
      RENDER_CHUNK_SIZE + 1 + 2 * Extension := by
    unfold FVoxelChunkMesh.HighResSize int32.add int32.mul int32.wrap
    omega
  have hV : FVoxelChunkMesh.ValuesSize RENDER_CHUNK_SIZE Extension =
      RENDER_CHUNK_SIZE + 1 + 2 * Extension + 2 := by
    unfold FVoxelChunkMesh.ValuesSize
    rw [hH]
    unfold int32.add int32.wrap
    omega
  have hcoord : ∀ c : Int,
      -2147483648 ≤ c - (Extension + 1) * 2 ^ LOD.toNat →
      c + (RENDER_CHUNK_SIZE + 2 + Extension) * 2 ^ LOD.toNat < 2147483648 →
      int32.sub (int32.sub c (int32.mul Extension (2 ^ LOD.toNat))) (2 ^ LOD.toNat) =
        c - (Extension + 1) * 2 ^ LOD.toNat ∧
      int32.add
          (int32.add (int32.sub c (int32.mul Extension (2 ^ LOD.toNat)))
            (int32.mul (RENDER_CHUNK_SIZE + 1 + 2 * Extension) (2 ^ LOD.toNat)))
          (2 ^ LOD.toNat) =
        c - (Extension + 1) * 2 ^ LOD.toNat +
          (RENDER_CHUNK_SIZE + 1 + 2 * Extension + 2) * 2 ^ LOD.toNat := by
    intro c h1 h2
    have e1 : (Extension + 1) * (2 : Int) ^ LOD.toNat =
        Extension * 2 ^ LOD.toNat + 2 ^ LOD.toNat := by ring
    have e2 : (RENDER_CHUNK_SIZE + 2 + Extension) * (2 : Int) ^ LOD.toNat =
        RENDER_CHUNK_SIZE * 2 ^ LOD.toNat + 2 * 2 ^ LOD.toNat + Extension * 2 ^ LOD.toNat := by
      ring
    have e3 : (RENDER_CHUNK_SIZE + 1 + 2 * Extension) * (2 : Int) ^ LOD.toNat =
        RENDER_CHUNK_SIZE * 2 ^ LOD.toNat + 2 ^ LOD.toNat + 2 * (Extension * 2 ^ LOD.toNat) := by
      ring
    have e4 : (RENDER_CHUNK_SIZE + 1 + 2 * Extension + 2) * (2 : Int) ^ LOD.toNat =
        RENDER_CHUNK_SIZE * 2 ^ LOD.toNat + 3 * 2 ^ LOD.toNat +
          2 * (Extension * 2 ^ LOD.toNat) := by
      ring
    have hm : 0 ≤ Extension * (2 : Int) ^ LOD.toNat := mul_nonneg hExtension (le_of_lt hPos)
    have hr : 0 ≤ RENDER_CHUNK_SIZE * (2 : Int) ^ LOD.toNat := mul_nonneg hChunk (le_of_lt hPos)
    rw [e1] at h1
    rw [e2] at h2
    unfold int32.sub int32.add int32.mul
    rw [e1, e3, e4]
    generalize Extension * (2 : Int) ^ LOD.toNat = m at *
    generalize RENDER_CHUNK_SIZE * (2 : Int) ^ LOD.toNat = r at *
    generalize (2 : Int) ^ LOD.toNat = S at *
    unfold int32.wrap
    constructor <;> omega
  have hX := hcoord Position.X (hRegion _ (by simp)).1 (hRegion _ (by simp)).2
  have hY := hcoord Position.Y (hRegion _ (by simp)).1 (hRegion _ (by simp)).2
  have hZ := hcoord Position.Z (hRegion _ (by simp)).1 (hRegion _ (by simp)).2
  have hBounds : FVoxelChunkMesh.Bounds RENDER_CHUNK_SIZE Position Extension LOD =
      some
        { Min :=
            { X := Position.X - (Extension + 1) * 2 ^ LOD.toNat
              Y := Position.Y - (Extension + 1) * 2 ^ LOD.toNat
              Z := Position.Z - (Extension + 1) * 2 ^ LOD.toNat }
          Max :=
            { X := Position.X - (Extension + 1) * 2 ^ LOD.toNat +
                (RENDER_CHUNK_SIZE + 1 + 2 * Extension + 2) * 2 ^ LOD.toNat
              Y := Position.Y - (Extension + 1) * 2 ^ LOD.toNat +
                (RENDER_CHUNK_SIZE + 1 + 2 * Extension + 2) * 2 ^ LOD.toNat
              Z := Position.Z - (Extension + 1) * 2 ^ LOD.toNat +
                (RENDER_CHUNK_SIZE + 1 + 2 * Extension + 2) * 2 ^ LOD.toNat } } := by
    simp only [FVoxelChunkMesh.Bounds, hStep, Option.map_some', FVoxelIntBox.Extend,
      FVoxelChunkMesh.Start, FIntVector.subScalar, FIntVector.addScalar, hH]
    rw [hX.1, hX.2, hY.1, hY.2, hZ.1, hZ.2]
  have hH1 : 1 ≤ FVoxelChunkMesh.HighResSize RENDER_CHUNK_SIZE Extension := by
    rw [hH]
    omega
  have hD : 1 ≤ FVoxelChunkMesh.Divisor RENDER_CHUNK_SIZE Extension
        DistanceFieldResolutionDivisor ∧
      FVoxelChunkMesh.Divisor RENDER_CHUNK_SIZE Extension DistanceFieldResolutionDivisor ≤
        FVoxelChunkMesh.HighResSize RENDER_CHUNK_SIZE Extension := by
    unfold FVoxelChunkMesh.Divisor FMath.Clamp
    split
    · exact ⟨le_refl _, hH1⟩
    · split
      · constructor <;> omega
      · exact ⟨hH1, le_refl _⟩
  have hgrid : ∀ m p : Int,
      ((m ≤ p ∧ p < m + (RENDER_CHUNK_SIZE + 1 + 2 * Extension + 2) * 2 ^ LOD.toNat ∧
          (2 : Int) ^ LOD.toNat ∣ p - m) ↔
        ∃ i : Int, 0 ≤ i ∧ i < FVoxelChunkMesh.ValuesSize RENDER_CHUNK_SIZE Extension ∧
          p = m + i * 2 ^ LOD.toNat) := by
    intro m p
    rw [hV]
    generalize RENDER_CHUNK_SIZE + 1 + 2 * Extension + 2 = V
    generalize hS : (2 : Int) ^ LOD.toNat = S at hPos
    constructor
    · rintro ⟨h1, h2, i, hi⟩
      have hp : p = m + i * S := by rw [mul_comm] at hi; omega
      refine ⟨i, ?_, ?_, hp⟩
      · by_contra hneg
        have : i * S < 0 := mul_neg_of_neg_of_pos (not_le.mp hneg) hPos
        omega
      · by_contra hge
        have : V * S ≤ i * S := mul_le_mul_of_nonneg_right (not_lt.mp hge) (le_of_lt hPos)
        omega
    · rintro ⟨i, h0, h1, rfl⟩
      refine ⟨?_, ?_, ?_⟩
      · have := mul_nonneg h0 (le_of_lt hPos)
        omega
      · have := mul_lt_mul_of_pos_right h1 hPos
        omega
      · exact ⟨i, by ring⟩
  have hNum : (RENDER_CHUNK_SIZE + 1 + 2 * Extension + 2) *
        (RENDER_CHUNK_SIZE + 1 + 2 * Extension + 2) *
        (RENDER_CHUNK_SIZE + 1 + 2 * Extension + 2) < 2147483648 →
      FVoxelChunkMesh.NumValues RENDER_CHUNK_SIZE Extension =
        (RENDER_CHUNK_SIZE + 1 + 2 * Extension + 2) * (RENDER_CHUNK_SIZE + 1 + 2 * Extension + 2) *
          (RENDER_CHUNK_SIZE + 1 + 2 * Extension + 2) := by
    intro hcube
    unfold FVoxelChunkMesh.NumValues
    rw [hV]
    have hv : 1 ≤ RENDER_CHUNK_SIZE + 1 + 2 * Extension + 2 := by omega
    generalize RENDER_CHUNK_SIZE + 1 + 2 * Extension + 2 = V at hcube hv
    have hsq0 : 0 ≤ V * V := mul_nonneg (by omega) (by omega)
    have hsq : V * V ≤ V * V * V := by nlinarith
    unfold int32.mul
    rw [int32.wrap_eq_self (V * V) (by omega) (by omega),
      int32.wrap_eq_self (V * V * V) (by omega) (by omega)]
  refine ⟨hStep, Int.toNat_of_nonneg hLOD, hPos, hH, hV, hBounds, by rw [hV], ?_, hNum, hD.1,
    hD.2, FVoxelUtilities.DivideCeil_eq_ceil _ _ (by omega),
    (FVoxelUtilities.DivideCeil_bounds _ _ hD.1 hD.2).1,
    (FVoxelUtilities.DivideCeil_bounds _ _ hD.1 hD.2).2⟩
  intro c _ p
  exact hgrid _ p

/-- Claim C26 as stated fails where an `int32` overflows. At the level of detail `30`, with the
chunk size `32`, no extension and the position `(0, 0, 0)`, `HighResSize * Step` is `33 * 2^30`,
which wraps to `2^30`, and adding `Step` wraps to `-2^31`: the region starts at `-2^30` as
claimed, but its far corner `-2^31` lies below its start, where the claim has the side
`35 * 2^30`. At the level of detail `31` the step `1 << 31` is `-2^31`, not `2^31`. -/
theorem region_wraps_at_level_of_detail_30 :
    FVoxelChunkMesh.Bounds 32 { X := 0, Y := 0, Z := 0 } 0 30 =
      some { Min := { X := -1073741824, Y := -1073741824, Z := -1073741824 },
             Max := { X := -2147483648, Y := -2147483648, Z := -2147483648 } } ∧
    FVoxelChunkMesh.Step 30 = some 1073741824 ∧
    (0 : Int) - (0 + 1) * 1073741824 = -1073741824 ∧
    (-2147483648 : Int) < -1073741824 ∧
    (-1073741824 : Int) + (32 + 1 + 2 * 0 + 2) * 1073741824 ≠ -2147483648 ∧
    FVoxelChunkMesh.Step 31 = some (-2147483648) := by
  decide

/-- Claim C26 at the chunk size `32`, the position `(64, 0, -32)`, the extension `1`, the level of
detail `2` and the divisor `17`: the region starts at `(56, -8, -40)` and has the side `148`. -/
theorem sampled_region_and_output_size_witness :
    (FVoxelChunkMesh.Bounds 32 examplePosition 1 2 =
      some { Min := { X := 56, Y := -8, Z := -40 }, Max := { X := 204, Y := 140, Z := 108 } }) ∧
    (0 ≤ (32 : Int)) ∧
    (0 ≤ (1 : Int)) ∧
    (0 ≤ (2 : Int)) ∧
    ((2 : Int) ≤ 30) ∧
    ((32 : Int) + 1 + 2 * (1 : Int) + 2 < 2147483648) ∧
    (∀ c ∈ [examplePosition.X, examplePosition.Y, examplePosition.Z],
      -2147483648 ≤ c - ((1 : Int) + 1) * 2 ^ (2 : Int).toNat ∧
      c + ((32 : Int) + 2 + (1 : Int)) * 2 ^ (2 : Int).toNat < 2147483648) ∧
    (FVoxelChunkMesh.Step (2 : Int) = some (2 ^ (2 : Int).toNat) ∧
    ((2 : Int).toNat : Int) = (2 : Int) ∧
    (0 : Int) < 2 ^ (2 : Int).toNat ∧
    FVoxelChunkMesh.HighResSize (32 : Int) (1 : Int) =
      (32 : Int) + 1 + 2 * (1 : Int) ∧
    FVoxelChunkMesh.ValuesSize (32 : Int) (1 : Int) =
      (32 : Int) + 1 + 2 * (1 : Int) + 2 ∧
    FVoxelChunkMesh.Bounds (32 : Int) examplePosition (1 : Int) (2 : Int) =
      some
        { Min :=
            { X := examplePosition.X - ((1 : Int) + 1) * 2 ^ (2 : Int).toNat
              Y := examplePosition.Y - ((1 : Int) + 1) * 2 ^ (2 : Int).toNat
              Z := examplePosition.Z - ((1 : Int) + 1) * 2 ^ (2 : Int).toNat }
          Max :=
            { X := examplePosition.X - ((1 : Int) + 1) * 2 ^ (2 : Int).toNat +
                ((32 : Int) + 1 + 2 * (1 : Int) + 2) * 2 ^ (2 : Int).toNat
              Y := examplePosition.Y - ((1 : Int) + 1) * 2 ^ (2 : Int).toNat +
                ((32 : Int) + 1 + 2 * (1 : Int) + 2) * 2 ^ (2 : Int).toNat
              Z := examplePosition.Z - ((1 : Int) + 1) * 2 ^ (2 : Int).toNat +
                ((32 : Int) + 1 + 2 * (1 : Int) + 2) * 2 ^ (2 : Int).toNat } } ∧
    ((32 : Int) + 1 + 2 * (1 : Int) + 2) * 2 ^ (2 : Int).toNat =
      FVoxelChunkMesh.ValuesSize (32 : Int) (1 : Int) * 2 ^ (2 : Int).toNat ∧
    (∀ c ∈ [examplePosition.X, examplePosition.Y, examplePosition.Z], ∀ p : Int,
      (c - ((1 : Int) + 1) * 2 ^ (2 : Int).toNat ≤ p ∧
        p < c - ((1 : Int) + 1) * 2 ^ (2 : Int).toNat +
          ((32 : Int) + 1 + 2 * (1 : Int) + 2) * 2 ^ (2 : Int).toNat ∧
        (2 : Int) ^ (2 : Int).toNat ∣ p - (c - ((1 : Int) + 1) * 2 ^ (2 : Int).toNat)) ↔
      ∃ i : Int, 0 ≤ i ∧ i < FVoxelChunkMesh.ValuesSize (32 : Int) (1 : Int) ∧
        p = c - ((1 : Int) + 1) * 2 ^ (2 : Int).toNat + i * 2 ^ (2 : Int).toNat) ∧
    (((32 : Int) + 1 + 2 * (1 : Int) + 2) * ((32 : Int) + 1 + 2 * (1 : Int) + 2) *
        ((32 : Int) + 1 + 2 * (1 : Int) + 2) < 2147483648 →
      FVoxelChunkMesh.NumValues (32 : Int) (1 : Int) =
        ((32 : Int) + 1 + 2 * (1 : Int) + 2) * ((32 : Int) + 1 + 2 * (1 : Int) + 2) *
          ((32 : Int) + 1 + 2 * (1 : Int) + 2)) ∧
    1 ≤ FVoxelChunkMesh.Divisor (32 : Int) (1 : Int) (17 : Int) ∧
    FVoxelChunkMesh.Divisor (32 : Int) (1 : Int) (17 : Int) ≤
      FVoxelChunkMesh.HighResSize (32 : Int) (1 : Int) ∧
    FVoxelChunkMesh.Size (32 : Int) (1 : Int) (17 : Int) =
      Int.ceil ((FVoxelChunkMesh.HighResSize (32 : Int) (1 : Int) : ℚ) /
        (FVoxelChunkMesh.Divisor (32 : Int) (1 : Int) (17 : Int) : ℚ)) ∧
    1 ≤ FVoxelChunkMesh.Size (32 : Int) (1 : Int) (17 : Int) ∧
    FVoxelChunkMesh.Size (32 : Int) (1 : Int) (17 : Int) ≤
      FVoxelChunkMesh.HighResSize (32 : Int) (1 : Int)) :=
  ⟨by decide, by decide, by decide, by decide, by decide, by decide, by decide,
    sampled_region_and_output_size 32 examplePosition 1 2 17 (by decide) (by decide) (by decide) (by decide) (by decide) (by decide)⟩

/-- Claim C27. Over exact arithmetic, with `TerraceHeightInVoxels >= 1`, a positive angle limit
`DegreesToRadians(Angle)` and an arc cosine that is never negative and is `0` at `1`:
`ApplyTerraceImpl` keeps, in their order, exactly the voxels whose
`PositiveMod(Position.Z, TerraceHeightInVoxels)` is at least `ImmutableVoxels` and whose angle
`Acos(Normal.Z)` is at most the limit, and multiplies the strength of each by
`(limit - angle) / limit`; for a voxel that is kept this factor lies in `[0, 1]`, it is `1`
for a normal pointing straight up and `0` for an angle at the limit. With
`TerraceHeightInVoxels < 1` the batch is returned as it is. -/
theorem ApplyTerraceImpl_keeps_and_weighs {K : Type} [LinearOrderedField K]
    (PositiveMod : Int → Int → Int) (DegreesToRadians Acos : K → K)
    (Voxels : List (FVoxelSurfaceEditsVoxel K)) (TerraceHeightInVoxels : Int) (Angle : K)
    (ImmutableVoxels : Int)
    (hHeight : TerraceHeightInVoxels ≥ 1) (hLimit : 0 < DegreesToRadians Angle)
    (hAcos : ∀ x, 0 ≤ Acos x) (hUp : Acos 1 = 0) :
    FVoxelSurfaceToolsImpl.ApplyTerraceImpl PositiveMod DegreesToRadians Acos Voxels
        TerraceHeightInVoxels Angle ImmutableVoxels =
      (Voxels.filter fun Voxel =>
          decide (ImmutableVoxels ≤ PositiveMod Voxel.Position.Z TerraceHeightInVoxels) &&
          decide (Acos Voxel.Normal.Z ≤ DegreesToRadians Angle)).map
        (fun Voxel => { Voxel with Strength :=
          Voxel.Strength *
            ((DegreesToRadians Angle - Acos Voxel.Normal.Z) / DegreesToRadians Angle) }) ∧
    (∀ Voxel : FVoxelSurfaceEditsVoxel K, Acos Voxel.Normal.Z ≤ DegreesToRadians Angle →
      0 ≤ (DegreesToRadians Angle - Acos Voxel.Normal.Z) / DegreesToRadians Angle ∧
      (DegreesToRadians Angle - Acos Voxel.Normal.Z) / DegreesToRadians Angle ≤ 1) ∧
    (∀ Voxel : FVoxelSurfaceEditsVoxel K, Voxel.Normal.Z = 1 →
      Acos Voxel.Normal.Z ≤ DegreesToRadians Angle ∧
      (DegreesToRadians Angle - Acos Voxel.Normal.Z) / DegreesToRadians Angle = 1) ∧
    (∀ Voxel : FVoxelSurfaceEditsVoxel K, Acos Voxel.Normal.Z = DegreesToRadians Angle →
      (DegreesToRadians Angle - Acos Voxel.Normal.Z) / DegreesToRadians Angle = 0) ∧
    (∀ Height : Int, Height < 1 →
      FVoxelSurfaceToolsImpl.ApplyTerraceImpl PositiveMod DegreesToRadians Acos Voxels Height
        Angle ImmutableVoxels = Voxels) := by
  have hne : DegreesToRadians Angle ≠ 0 := ne_of_gt hLimit
  refine ⟨?_, ?_, ?_, ?_, ?_⟩
  · unfold FVoxelSurfaceToolsImpl.ApplyTerraceImpl
    rw [if_neg (not_not.mpr hHeight), FVoxelSurfaceToolsImpl.CompactInPlace_eq_filterMap]
    induction Voxels with
    | nil => rfl
    | cons Voxel Rest ih =>
      by_cases h1 : PositiveMod Voxel.Position.Z TerraceHeightInVoxels < ImmutableVoxels
      · rw [List.filterMap_cons_none (by simp [h1]),
          List.filter_cons_of_neg (by simp [h1]), ih]
      · by_cases h2 : DegreesToRadians Angle < Acos Voxel.Normal.Z
        · rw [List.filterMap_cons_none (by simp [h1, h2]),
            List.filter_cons_of_neg (by simp [h2]), ih]
        · have hfac : 0 ≤ (DegreesToRadians Angle - Acos Voxel.Normal.Z) /
              DegreesToRadians Angle :=
            div_nonneg (sub_nonneg.mpr (not_lt.mp h2)) (le_of_lt hLimit)
          rw [List.filterMap_cons_some (b := { Voxel with Strength := Voxel.Strength *
              ((DegreesToRadians Angle - Acos Voxel.Normal.Z) / DegreesToRadians Angle) })
              (by simp [h1, h2, FMath.Max_eq_max, max_eq_left hfac]),
            List.filter_cons_of_pos (by simp [not_lt.mp h1, not_lt.mp h2]), List.map_cons, ih]
  · intro Voxel hle
    refine ⟨div_nonneg (sub_nonneg.mpr hle) (le_of_lt hLimit), ?_⟩
    rw [div_le_one hLimit]
    linarith [hAcos Voxel.Normal.Z]
  · intro Voxel hZ
    rw [hZ, hUp, sub_zero, div_self hne]
    exact ⟨le_of_lt hLimit, rfl⟩
  · intro Voxel hEq
    rw [hEq, sub_self, zero_div]
  · intro Height hH
    unfold FVoxelSurfaceToolsImpl.ApplyTerraceImpl
    rw [if_pos (by omega)]

/-- Claim C27 at the batch `exampleRatVoxels`, the terrace height `2`, one immutable voxel for each
terrace and the angle `45`, with stand-ins for the conversion to radians and the arc cosine. -/
theorem ApplyTerraceImpl_keeps_and_weighs_witness :
    ((2 : Int) ≥ 1) ∧
    (0 < exampleDegreesToRadians 45) ∧
    (∀ x, 0 ≤ exampleAcos x) ∧
    (exampleAcos 1 = 0) ∧
    (FVoxelSurfaceToolsImpl.ApplyTerraceImpl (fun X Y => X % Y) exampleDegreesToRadians exampleAcos exampleRatVoxels
        (2 : Int) 45 1 =
      (exampleRatVoxels.filter fun Voxel =>
          decide (1 ≤ (fun X Y => X % Y) Voxel.Position.Z (2 : Int)) &&
          decide (exampleAcos Voxel.Normal.Z ≤ exampleDegreesToRadians 45)).map
        (fun Voxel => { Voxel with Strength :=
          Voxel.Strength *
            ((exampleDegreesToRadians 45 - exampleAcos Voxel.Normal.Z) / exampleDegreesToRadians 45) }) ∧
    (∀ Voxel : FVoxelSurfaceEditsVoxel ℚ, exampleAcos Voxel.Normal.Z ≤ exampleDegreesToRadians 45 →
      0 ≤ (exampleDegreesToRadians 45 - exampleAcos Voxel.Normal.Z) / exampleDegreesToRadians 45 ∧
      (exampleDegreesToRadians 45 - exampleAcos Voxel.Normal.Z) / exampleDegreesToRadians 45 ≤ 1) ∧
    (∀ Voxel : FVoxelSurfaceEditsVoxel ℚ, Voxel.Normal.Z = 1 →
      exampleAcos Voxel.Normal.Z ≤ exampleDegreesToRadians 45 ∧
      (exampleDegreesToRadians 45 - exampleAcos Voxel.Normal.Z) / exampleDegreesToRadians 45 = 1) ∧
    (∀ Voxel : FVoxelSurfaceEditsVoxel ℚ, exampleAcos Voxel.Normal.Z = exampleDegreesToRadians 45 →
      (exampleDegreesToRadians 45 - exampleAcos Voxel.Normal.Z) / exampleDegreesToRadians 45 = 0) ∧
    (∀ Height : Int, Height < 1 →
      FVoxelSurfaceToolsImpl.ApplyTerraceImpl (fun X Y => X % Y) exampleDegreesToRadians exampleAcos exampleRatVoxels Height
        45 1 = exampleRatVoxels)) :=
  ⟨by decide, by norm_num [exampleDegreesToRadians], fun x => abs_nonneg (1 - x), by simp [exampleAcos],
    ApplyTerraceImpl_keeps_and_weighs (fun X Y => X % Y) exampleDegreesToRadians exampleAcos
      exampleRatVoxels 2 45 1 (by decide) (by norm_num [exampleDegreesToRadians]) (fun x => abs_nonneg (1 - x)) (by simp [exampleAcos])⟩

/-! ## `ParallelFor_PerThreadData`: the indices that are visited -/

namespace FVoxelUtilities

/-- The loop from `Start` to `End` visits exactly the indices from `Start` up to, not
including, `End`. -/
theorem mem_IndexLoop (Start End Index : Int) :
    Index ∈ IndexLoop Start End ↔ Start ≤ Index ∧ Index < End := by
  unfold IndexLoop
  simp only [List.mem_map, List.mem_range]
  constructor
  · rintro ⟨Offset, hOffset, rfl⟩
    have h1 := Int.lt_toNat.mp hOffset
    have h2 : (0 : Int) ≤ (Offset : Int) := Int.natCast_nonneg Offset
    constructor
    · linarith
    · linarith
  · rintro ⟨h1, h2⟩
    have h3 : (0 : Int) ≤ Index - Start := by linarith
    refine ⟨(Index - Start).toNat, ?_, ?_⟩
    · rw [Int.lt_toNat, Int.toNat_of_nonneg h3]
      linarith
    · rw [Int.toNat_of_nonneg h3]
      ring

/-- The path with `bForceSingleThread` calls `Lambda` with exactly the indices from `0` up to,
not including, `Num`. -/
theorem ParallelFor_PerThreadData_single (NumWorkerThreads Num : Int) (hNum : 0 < Num) :
    ParallelFor_PerThreadData NumWorkerThreads Num true = some [IndexLoop 0 Num] ∧
    ∀ Index, Index ∈ [IndexLoop 0 Num].flatten ↔ 0 ≤ Index ∧ Index < Num := by
  constructor
  · unfold ParallelFor_PerThreadData
    have h1 : (Num == 0) = false := by simp; omega
    simp [h1, hNum]
  · intro Index
    simp [mem_IndexLoop]

/-- The path without `bForceSingleThread`, for `Num > 0` and at least one worker thread, calls
`Lambda` with exactly the indices below `NumThreads * ChunkSize`, where `NumThreads` is the
lesser of the number of worker threads and `Num` and `ChunkSize` is `Num / NumThreads` rounded
down: the indices from `NumThreads * ChunkSize` on are left out. -/
theorem ParallelFor_PerThreadData_multi (NumWorkerThreads Num : Int) (hNum : 0 < Num)
    (hThreads : 1 ≤ NumWorkerThreads) :
    ∃ Chunks, ParallelFor_PerThreadData NumWorkerThreads Num false = some Chunks ∧
      ∀ Index, Index ∈ Chunks.flatten ↔
        0 ≤ Index ∧ Index < min NumWorkerThreads Num * (Num / min NumWorkerThreads Num) := by
  have hT1 : 1 ≤ min NumWorkerThreads Num := le_min hThreads hNum
  have hTN : min NumWorkerThreads Num ≤ Num := min_le_right _ _
  have hdiv : Int.tdiv Num (min NumWorkerThreads Num) = Num / min NumWorkerThreads Num :=
    Int.tdiv_eq_ediv (le_of_lt hNum) (by omega)
  have hC1 : 1 ≤ Num / min NumWorkerThreads Num := by
    rw [Int.le_ediv_iff_mul_le (by omega)]
    omega
  have hTC : min NumWorkerThreads Num * (Num / min NumWorkerThreads Num) ≤ Num :=
    Int.mul_ediv_self_le (by omega)
  have key : ParallelFor_PerThreadData NumWorkerThreads Num false =
      some ((List.range (min NumWorkerThreads Num).toNat).map fun (ThreadIndex : Nat) =>
        IndexLoop ((ThreadIndex : Int) * (Num / min NumWorkerThreads Num))
          (min (((ThreadIndex : Int) + 1) * (Num / min NumWorkerThreads Num)) Num)) := by
    unfold ParallelFor_PerThreadData
    have h1 : (Num == 0) = false := by simp; omega
    have h2 : (min NumWorkerThreads Num == 0) = false := by simp; omega
    simp only [h1, hNum, gt_iff_lt, decide_True, Bool.not_true, Bool.or_self,
      Bool.false_eq_true, if_false, FMath.Min_eq_min, h2, hdiv, ge_iff_le, hC1]
  refine ⟨_, key, ?_⟩
  · intro Index
    generalize hC : Num / min NumWorkerThreads Num = C at hC1 hTC
    generalize hT : min NumWorkerThreads Num = T at hT1 hTN hTC
    simp only [List.mem_flatten, List.mem_map, List.mem_range, exists_exists_and_eq_and,
      mem_IndexLoop]
    have hend : ∀ t : Nat, (t : Int) < T → min (((t : Int) + 1) * C) Num = ((t : Int) + 1) * C := by
      intro t ht
      apply min_eq_left
      have : ((t : Int) + 1) * C ≤ T * C := mul_le_mul_of_nonneg_right (by omega) (by omega)
      omega
    constructor
    · rintro ⟨t, ht, h1, h2⟩
      have htT : (t : Int) < T := by omega
      rw [hend t htT] at h2
      have h3 : ((t : Int) + 1) * C ≤ T * C := mul_le_mul_of_nonneg_right (by omega) (by omega)
      have h4 : 0 ≤ (t : Int) * C := mul_nonneg (by omega) (by omega)
      constructor <;> omega
    · rintro ⟨h0, h1⟩
      have hCpos : 0 < C := by omega
      have hq0 : 0 ≤ Index / C := Int.ediv_nonneg h0 (le_of_lt hCpos)
      have hqT : Index / C < T := by
        rw [Int.ediv_lt_iff_lt_mul hCpos]
        exact h1
      have hlo : Index / C * C ≤ Index := Int.ediv_mul_le Index (ne_of_gt hCpos)
      have hhi : Index < (Index / C + 1) * C := Int.lt_ediv_add_one_mul_self Index hCpos
      refine ⟨(Index / C).toNat, by omega, ?_, ?_⟩
      · rw [Int.toNat_of_nonneg hq0]
        exact hlo
      · rw [hend _ (by rw [Int.toNat_of_nonneg hq0]; exact hqT), Int.toNat_of_nonneg hq0]
        exact hhi

end FVoxelUtilities

/-- Claim C28 fails for `Num = 5` and two worker threads: `ChunkSize` is `5 / 2 = 2`, the two
threads are given the indices `0, 1` and `2, 3`, and `Lambda` is never called with the index
`4`, with which the path with `bForceSingleThread` does call it. -/
theorem multi_threaded_path_leaves_out_remainder :
    FVoxelUtilities.ParallelFor_PerThreadData 2 5 false = some [[0, 1], [2, 3]] ∧
    FVoxelUtilities.ParallelFor_PerThreadData 2 5 true = some [[0, 1, 2, 3, 4]] ∧
    (4 : Int) ∉ [[(0 : Int), 1], [2, 3]].flatten ∧
    (4 : Int) ∈ [[(0 : Int), 1, 2, 3, 4]].flatten := by
  decide

/-! ## `BuildDistanceField`: the indices of the quantisation loop -/

namespace FVoxelChunkMesh

end FVoxelChunkMesh

/-- Claim C30. Called on a fail status that has failed, `If(Condition, Default)` returns `true`
for every condition and every default and leaves the status, its two flags and its message, as
it was. `Fail` keeps the first failure message: on a status that has failed it changes nothing,
and after `Fail(First)` on a status that has not failed a second `Fail(Second)` leaves the
message `First`. `Warning` records nothing on a status on which a failure or a warning is
recorded. -/
theorem If_on_failed_status_and_first_message_kept (Condition : FVoxelBoolRange)
    (bDefaultValue : Bool) (Status : FVoxelRangeFailStatus) (First Second : String) :
    (Status.HasFailed = true →
      FVoxelBoolRange.If Condition bDefaultValue Status = (true, Status) ∧
      Status.Fail Second = Status) ∧
    (Status.HasFailed = false →
      (Status.Fail First).HasFailed = true ∧
      (Status.Fail First).GetMessage = some First ∧
      ((Status.Fail First).Fail Second) = Status.Fail First ∧
      ((Status.Fail First).Fail Second).GetMessage = some First) ∧
    (Status.HasFailed = true ∨ Status.HasWarning = true → Status.Warning Second = Status) := by
  obtain ⟨f, w, m⟩ := Status
  refine ⟨?_, ?_, ?_⟩
  · intro h
    simp only [FVoxelRangeFailStatus.HasFailed] at h
    subst h
    exact ⟨rfl, rfl⟩
  · intro h
    simp only [FVoxelRangeFailStatus.HasFailed] at h
    subst h
    exact ⟨rfl, rfl, rfl, rfl⟩
  · intro h
    simp only [FVoxelRangeFailStatus.HasFailed, FVoxelRangeFailStatus.HasWarning] at h
    rcases h with h | h
    · subst h
      rfl
    · subst h
      cases f <;> rfl

/-- Claim C30 at the condition `TrueOrFalse`, the default `false` and a fail status on which a
failure has been recorded. -/
theorem If_on_failed_status_and_first_message_kept_witness :
    FVoxelBoolRange.If FVoxelBoolRange.TrueOrFalse false exampleFailedStatus =
      (true, exampleFailedStatus) ∧
    ((exampleFailedStatus.HasFailed = true →
      FVoxelBoolRange.If FVoxelBoolRange.TrueOrFalse false exampleFailedStatus =
        (true, exampleFailedStatus) ∧
      exampleFailedStatus.Fail "second" = exampleFailedStatus) ∧
    (exampleFailedStatus.HasFailed = false →
      (exampleFailedStatus.Fail "first").HasFailed = true ∧
      (exampleFailedStatus.Fail "first").GetMessage = some "first" ∧
      ((exampleFailedStatus.Fail "first").Fail "second") = exampleFailedStatus.Fail "first" ∧
      ((exampleFailedStatus.Fail "first").Fail "second").GetMessage = some "first") ∧
    (exampleFailedStatus.HasFailed = true ∨ exampleFailedStatus.HasWarning = true →
      exampleFailedStatus.Warning "second" = exampleFailedStatus)) :=
  ⟨by decide,
    If_on_failed_status_and_first_message_kept FVoxelBoolRange.TrueOrFalse false
      exampleFailedStatus "first" "second"⟩

end Voxel
